import Mathlib

/-!
# Chrissigs/api2 — credential lifecycle engine

A shallow embedding of the JavaScript services under `src/src/services`
(`vc_service.js`, `history_service.js`, `revocation_service.js`,
`zk_service.js`) together with the statements the specification makes about
them.

Conventions of the embedding

* JavaScript values that can reach the services (request bodies, parsed
  configuration files, object literals built by the code) are values of
  `JVal`; `JVal.undefined` is the value of an absent property.  Numbers are
  integers (no fractions, NaN only as the result of a failed coercion) and
  strings are well-formed Unicode.
* A JavaScript object is the list of its own properties in insertion order
  (keys that look like array indices are not moved to the front, as
  JavaScript would do on the signing and on the verifying side alike).
  A read with a fixed key (`credential.issuer`) is a read of an own property
  (`Fields.get`): no fixed key of the services is the name of a member of
  `Object.prototype`. A read with a computed key (`this.keys[issuerDid]`,
  `TRUST_MATRIX[verifierJurisdiction]`, `subject[field]`) goes on to the
  members of `Object.prototype` when there is no own property of that name
  (`Fields.member`, `getMember`). `toJSON` methods are not part of the model.
* Every source of non-determinism (`crypto.randomUUID`, `crypto.randomBytes`,
  `new Date()`) is an explicit input of the function that draws it.
* `crypto.sign`, `crypto.verify` and SHA-256 are parameters (`Env`).
* A JavaScript exception is the `error` side of a result.
-/

namespace Api2

/-! ## JavaScript values -/

/-- JavaScript values in the reach of the services. -/
inductive JVal where
  | undefined
  | null
  | bool (b : Bool)
  | num (n : Int)
  | str (s : String)
  | arr (xs : List JVal)
  | obj (kvs : List (String × JVal))

/-- Own properties of a JavaScript object, in insertion order. -/
abbrev Fields := List (String × JVal)

namespace JVal

mutual
/-- Structural equality test on values. -/
def decEq : (a b : JVal) → Decidable (a = b)
  | undefined, undefined => isTrue rfl
  | null, null => isTrue rfl
  | bool a, bool b =>
    if h : a = b then isTrue (by rw [h]) else isFalse (by intro e; cases e; exact h rfl)
  | num a, num b =>
    if h : a = b then isTrue (by rw [h]) else isFalse (by intro e; cases e; exact h rfl)
  | str a, str b =>
    if h : a = b then isTrue (by rw [h]) else isFalse (by intro e; cases e; exact h rfl)
  | arr xs, arr ys =>
    match decEqList xs ys with
    | isTrue h => isTrue (by rw [h])
    | isFalse h => isFalse (by intro e; cases e; exact h rfl)
  | obj xs, obj ys =>
    match decEqFields xs ys with
    | isTrue h => isTrue (by rw [h])
    | isFalse h => isFalse (by intro e; cases e; exact h rfl)
  | undefined, null => isFalse (by intro e; cases e)
  | undefined, bool _ => isFalse (by intro e; cases e)
  | undefined, num _ => isFalse (by intro e; cases e)
  | undefined, str _ => isFalse (by intro e; cases e)
  | undefined, arr _ => isFalse (by intro e; cases e)
  | undefined, obj _ => isFalse (by intro e; cases e)
  | null, undefined => isFalse (by intro e; cases e)
  | null, bool _ => isFalse (by intro e; cases e)
  | null, num _ => isFalse (by intro e; cases e)
  | null, str _ => isFalse (by intro e; cases e)
  | null, arr _ => isFalse (by intro e; cases e)
  | null, obj _ => isFalse (by intro e; cases e)
  | bool _, undefined => isFalse (by intro e; cases e)
  | bool _, null => isFalse (by intro e; cases e)
  | bool _, num _ => isFalse (by intro e; cases e)
  | bool _, str _ => isFalse (by intro e; cases e)
  | bool _, arr _ => isFalse (by intro e; cases e)
  | bool _, obj _ => isFalse (by intro e; cases e)
  | num _, undefined => isFalse (by intro e; cases e)
  | num _, null => isFalse (by intro e; cases e)
  | num _, bool _ => isFalse (by intro e; cases e)
  | num _, str _ => isFalse (by intro e; cases e)
  | num _, arr _ => isFalse (by intro e; cases e)
  | num _, obj _ => isFalse (by intro e; cases e)
  | str _, undefined => isFalse (by intro e; cases e)
  | str _, null => isFalse (by intro e; cases e)
  | str _, bool _ => isFalse (by intro e; cases e)
  | str _, num _ => isFalse (by intro e; cases e)
  | str _, arr _ => isFalse (by intro e; cases e)
  | str _, obj _ => isFalse (by intro e; cases e)
  | arr _, undefined => isFalse (by intro e; cases e)
  | arr _, null => isFalse (by intro e; cases e)
  | arr _, bool _ => isFalse (by intro e; cases e)
  | arr _, num _ => isFalse (by intro e; cases e)
  | arr _, str _ => isFalse (by intro e; cases e)
  | arr _, obj _ => isFalse (by intro e; cases e)
  | obj _, undefined => isFalse (by intro e; cases e)
  | obj _, null => isFalse (by intro e; cases e)
  | obj _, bool _ => isFalse (by intro e; cases e)
  | obj _, num _ => isFalse (by intro e; cases e)
  | obj _, str _ => isFalse (by intro e; cases e)
  | obj _, arr _ => isFalse (by intro e; cases e)
/-- Structural equality test on lists of values. -/
def decEqList : (a b : List JVal) → Decidable (a = b)
  | [], [] => isTrue rfl
  | [], _ :: _ => isFalse (by intro e; cases e)
  | _ :: _, [] => isFalse (by intro e; cases e)
  | x :: xs, y :: ys =>
    match decEq x y, decEqList xs ys with
    | isTrue h, isTrue h2 => isTrue (by rw [h, h2])
    | isFalse h, _ => isFalse (by intro e; cases e; exact h rfl)
    | _, isFalse h => isFalse (by intro e; cases e; exact h rfl)
/-- Structural equality test on property lists. -/
def decEqFields : (a b : List (String × JVal)) → Decidable (a = b)
  | [], [] => isTrue rfl
  | [], _ :: _ => isFalse (by intro e; cases e)
  | _ :: _, [] => isFalse (by intro e; cases e)
  | (k, x) :: xs, (l, y) :: ys =>
    if hk : k = l then
      match decEq x y, decEqFields xs ys with
      | isTrue h, isTrue h2 => isTrue (by rw [hk, h, h2])
      | isFalse h, _ => isFalse (by intro e; cases e; exact h rfl)
      | _, isFalse h => isFalse (by intro e; cases e; exact h rfl)
    else isFalse (by intro e; cases e; exact hk rfl)
end

instance : DecidableEq JVal := decEq

instance : Inhabited JVal := ⟨undefined⟩

/-- JavaScript `ToBoolean`: `undefined`, `null`, `false`, `0` and `""` are
falsy, everything else (every array and object included) is truthy. -/
def truthy : JVal → Bool
  | undefined => false
  | null => false
  | bool b => b
  | num n => n != 0
  | str s => s != ""
  | arr _ => true
  | obj _ => true

/-- The expression `a || b`. -/
def orElse (a b : JVal) : JVal := if a.truthy then a else b

mutual
/-- JavaScript `ToString` (template literals, property keys, `Array.join`). -/
def jsToString : JVal → String
  | undefined => "undefined"
  | null => "null"
  | bool true => "true"
  | bool false => "false"
  | num n => toString n
  | str s => s
  | arr xs => joinElems xs
  | obj _ => "[object Object]"
/-- The body of `Array.prototype.join(",")`: `null` and `undefined` elements
print as the empty string. -/
def joinElems : List JVal → String
  | [] => ""
  | [x] => elemString x
  | x :: y :: rest => elemString x ++ "," ++ joinElems (y :: rest)
/-- One element of a joined array. -/
def elemString : JVal → String
  | undefined => ""
  | null => ""
  | bool true => "true"
  | bool false => "false"
  | num n => toString n
  | str s => s
  | arr xs => joinElems xs
  | obj _ => "[object Object]"
end

/-- The comparison `Array.prototype.includes` and `Set.prototype.has` use
(SameValueZero): primitives compare by value; arrays and objects compare by
identity, and two values that were built separately are never identical. -/
def sameValueZero : JVal → JVal → Bool
  | undefined, undefined => true
  | null, null => true
  | bool a, bool b => a == b
  | num a, num b => a == b
  | str a, str b => a == b
  | _, _ => false

/-- The call `xs.includes(v)` on an array. -/
def includes (xs : List JVal) (v : JVal) : Bool := xs.any (fun x => sameValueZero x v)

end JVal

/-! ## Objects as ordered property lists -/

namespace Fields

/-- Read of an own property, `undefined` when absent: what `o.k` gives for a
key that `Object.prototype` does not define. -/
def get : Fields → String → JVal
  | [], _ => .undefined
  | (k', v) :: rest, k => if k' = k then v else get rest k

/-- Assignment `o[k] = v`: an existing property keeps its position, a new one
is appended. -/
def set : Fields → String → JVal → Fields
  | [], k, v => [(k, v)]
  | (k', v') :: rest, k, v => if k' = k then (k', v) :: rest else (k', v') :: set rest k v

/-- The statement `delete o[k]`. -/
def delete (o : Fields) (k : String) : Fields := o.filter (fun p => p.1 != k)

/-- The call `Object.keys(o)`. -/
def keys (o : Fields) : List String := o.map Prod.fst

/-- Object spread `{ ...base, ...extra }`: the properties of `extra` are
assigned onto `base` one after the other. -/
def spread (base extra : Fields) : Fields :=
  extra.foldl (fun acc p => set acc p.1 p.2) base

end Fields

/-! ## Exceptions, property access, iteration -/

/-- What a JavaScript `throw` carries, as far as the services can tell the
cases apart. -/
inductive Thrown where
  | typeError
  | cryptoError
  | error (msg : String)
  deriving DecidableEq

deriving instance DecidableEq for Except

/-- Decimal digits of a canonical array index (`"0"`, `"17"`, not `"007"`). -/
def parseDigits (cs : List Char) : Option Nat :=
  cs.foldl (fun acc c => acc.bind (fun n =>
    if c.isDigit then some (10 * n + (c.toNat - 48)) else none)) (some 0)

/-- The array index a property key denotes, if it denotes one. -/
def indexOfKey (k : String) : Option Nat :=
  match k.data with
  | [] => none
  | cs => (parseDigits cs).bind (fun n => if toString n = k then some n else none)

/-- Length of a string in UTF-16 code units, which is what `.length` returns. -/
def utf16Length (s : String) : Nat :=
  s.data.foldl (fun n c => n + (if c.toNat < 65536 then 1 else 2)) 0

/-- The indexed own properties of an array. -/
def indexed (xs : List JVal) : Fields :=
  xs.enum.map (fun p => (toString p.1, p.2))

/-- The characters of a string as one-character strings (exact for strings
in the Basic Multilingual Plane). -/
def chars (s : String) : List JVal := s.data.map (fun c => JVal.str (String.singleton c))

/-- Property read `v[k]` (also written `v.k`).  Reading a property of
`undefined` or `null` throws a `TypeError`; arrays and strings answer
`length` and their indices; numbers and booleans have no own properties. -/
def getProp (v : JVal) (k : String) : Except Thrown JVal :=
  match v with
  | .undefined => .error .typeError
  | .null => .error .typeError
  | .bool _ => .ok .undefined
  | .num _ => .ok .undefined
  | .obj kvs => .ok (Fields.get kvs k)
  | .arr xs =>
    if k = "length" then .ok (.num xs.length)
    else match indexOfKey k with
      | some i => .ok (xs.getD i .undefined)
      | none => .ok .undefined
  | .str s =>
    if k = "length" then .ok (.num (utf16Length s))
    else match indexOfKey k with
      | some i => .ok ((chars s).getD i .undefined)
      | none => .ok .undefined

/-- The values a `for (const x of v)` loop visits; anything that is not an
array or a string is not iterable. -/
def iterate (v : JVal) : Except Thrown (List JVal) :=
  match v with
  | .arr xs => .ok xs
  | .str s => .ok (chars s)
  | _ => .error .typeError

/-- The own enumerable properties `Object.entries(v)` and `{ ...v }` see. -/
def ownEntries (v : JVal) : Fields :=
  match v with
  | .obj kvs => kvs
  | .arr xs => indexed xs
  | .str s => indexed (chars s)
  | _ => []

/-! ## Reads with a computed key: own properties, then the prototype chain -/

/-- The names of the properties of `Object.prototype`, which every object
inherits: eleven built-in functions and the accessor `__proto__`. -/
def objectPrototypeNames : List String :=
  ["constructor", "__defineGetter__", "__defineSetter__", "hasOwnProperty",
   "__lookupGetter__", "__lookupSetter__", "isPrototypeOf", "propertyIsEnumerable",
   "toString", "valueOf", "__proto__", "toLocaleString"]

/-- What a read `o[k]` with a computed key finds: an own property with its
value; a built-in function inherited through the prototype chain; the
prototype object that `__proto__` reads (`root` when that object is
`Object.prototype`, the end of every chain); or nothing, which reads as
`undefined`. The chain is modelled as far as the members of
`Object.prototype` go. -/
inductive Member where
  | own (v : JVal)
  | builtin
  | prototype (root : Bool)
  | absent
  deriving DecidableEq

/-- The member of that name along the prototype chain of a value that is not
a plain object (`ofPlain = false`) or of a plain object (`ofPlain = true`),
whose prototype is `Object.prototype` itself. -/
def inheritedMember (ofPlain : Bool) (k : String) : Member :=
  if k = "__proto__" then .prototype ofPlain
  else if k ∈ objectPrototypeNames then .builtin
  else .absent

/-- The read `o[k]` on a plain object: its own properties first, then
`Object.prototype`. -/
def Fields.member (o : Fields) (k : String) : Member :=
  if k ∈ Fields.keys o then .own (Fields.get o k) else inheritedMember true k

/-- The read `v[k]` with a computed key on any value; on `undefined` and
`null` it throws a `TypeError`. -/
def getMember (v : JVal) (k : String) : Except Thrown Member :=
  match v with
  | .undefined => .error .typeError
  | .null => .error .typeError
  | .obj kvs => .ok (Fields.member kvs k)
  | w =>
    match getProp w k with
    | .error e => .error e
    | .ok .undefined => .ok (inheritedMember false k)
    | .ok x => .ok (.own x)

namespace Member

/-- JavaScript `ToBoolean` of what a read found: functions and prototype
objects are truthy. -/
def truthy : Member → Bool
  | own v => v.truthy
  | builtin => true
  | prototype _ => true
  | absent => false

/-- The read `m.p` of a property that built-in functions and prototype
objects do not have (`privateKey`, `publicKey`). -/
def prop (m : Member) (p : String) : Except Thrown JVal :=
  match m with
  | own v => getProp v p
  | builtin => .ok .undefined
  | prototype _ => .ok .undefined
  | absent => .error .typeError

/-- The read `m[k]` with a computed key on what an earlier read found: the
prototype of `Object.prototype` is `null`. -/
def member (m : Member) (k : String) : Except Thrown Member :=
  match m with
  | own v => getMember v k
  | builtin => .ok (inheritedMember false k)
  | prototype false => .ok (inheritedMember true k)
  | prototype true =>
    .ok (if k = "__proto__" then .own .null else inheritedMember true k)
  | absent => .error .typeError

end Member

/-! ## JSON.stringify -/

/-- The sixteen lowercase hexadecimal digits. -/
def hexDigitChars : List Char :=
  ['0', '1', '2', '3', '4', '5', '6', '7', '8', '9', 'a', 'b', 'c', 'd', 'e', 'f']

/-- One hexadecimal digit. -/
def hexDigit (n : Nat) : Char := hexDigitChars.getD n '0'

/-- The escape `JSON.stringify` writes for one character of a string. -/
def escapeChar (c : Char) : List Char :=
  if c = '"' then ['\\', '"']
  else if c = '\\' then ['\\', '\\']
  else if c.toNat = 8 then ['\\', 'b']
  else if c.toNat = 9 then ['\\', 't']
  else if c.toNat = 10 then ['\\', 'n']
  else if c.toNat = 12 then ['\\', 'f']
  else if c.toNat = 13 then ['\\', 'r']
  else if c.toNat < 32 then ['\\', 'u', '0', '0', hexDigit (c.toNat / 16), hexDigit (c.toNat % 16)]
  else [c]

/-- A quoted JSON string. -/
def quote (s : String) : String :=
  String.mk ('"' :: (s.data.flatMap escapeChar ++ ['"']))

/-- Texts joined by commas: `parts.join(",")`. -/
def joinComma : List String → String
  | [] => ""
  | [a] => a
  | a :: b :: rest => a ++ "," ++ joinComma (b :: rest)

mutual
/-- The call `JSON.stringify(v)`; `none` is the result `undefined`. -/
def stringify : JVal → Option String
  | .undefined => none
  | .null => some "null"
  | .bool true => some "true"
  | .bool false => some "false"
  | .num n => some (toString n)
  | .str s => some (quote s)
  | .arr xs => some ("[" ++ joinComma (stringifyElems xs) ++ "]")
  | .obj kvs => some ("\x7b" ++ joinComma (stringifyProps kvs) ++ "\x7d")
/-- Array elements: `undefined` is written as `null`. -/
def stringifyElems : List JVal → List String
  | [] => []
  | x :: xs =>
    (match stringify x with
      | some s => s
      | none => "null") :: stringifyElems xs
/-- Object members: a property whose value is `undefined` is left out. -/
def stringifyProps : List (String × JVal) → List String
  | [] => []
  | (k, v) :: rest =>
    match stringify v with
    | some s => (quote k ++ ":" ++ s) :: stringifyProps rest
    | none => stringifyProps rest
end

/-! ### JSON values and the shape of their text

The definitions of this section serve the proof that `JSON.stringify` is
injective on JSON values. -/

mutual
/-- A JSON value: no `undefined` anywhere inside. These are the values
`JSON.parse` returns. -/
def JVal.isJson : JVal → Bool
  | .undefined => false
  | .null => true
  | .bool _ => true
  | .num _ => true
  | .str _ => true
  | .arr xs => allJson xs
  | .obj kvs => allJsonFields kvs
/-- Every element is a JSON value. -/
def allJson : List JVal → Bool
  | [] => true
  | x :: xs => x.isJson && allJson xs
/-- Every property value is a JSON value. -/
def allJsonFields : List (String × JVal) → Bool
  | [] => true
  | (_, v) :: rest => v.isJson && allJsonFields rest
end

/-- The characters of `JSON.stringify(v)`, nothing when it is `undefined`. -/
def jsonText (v : JVal) : List Char :=
  match stringify v with
  | some s => s.data
  | none => []

/-- What follows the text of an array element: a comma and the text of the
other elements, if there are any. -/
def elemsTail : List JVal → List Char
  | [] => []
  | y :: r => ',' :: (joinComma (stringifyElems (y :: r))).data

/-- What follows the text of an object member: a comma and the text of the
other members, if there are any. -/
def propsTail : List (String × JVal) → List Char
  | [] => []
  | p :: r => ',' :: (joinComma (stringifyProps (p :: r))).data

/-- The number a run of decimal digits denotes. -/
def digitsVal (cs : List Char) : Nat :=
  cs.foldl (fun acc c => 10 * acc + (c.toNat - 48)) 0

/-- The kind of JSON value a text can start: 1 `null`, 2 a boolean, 3 a
number, 4 a string, 5 an array, 6 an object, 0 nothing. -/
def startKind (c : Char) : Nat :=
  if c = 'n' then 1
  else if c = 't' ∨ c = 'f' then 2
  else if c = '-' ∨ c.isDigit then 3
  else if c = '"' then 4
  else if c = '[' then 5
  else if c = '\x7b' then 6
  else 0

/-- The kind of a value, numbered as in `startKind`. -/
def valueKind : JVal → Nat
  | .undefined => 0
  | .null => 1
  | .bool _ => 2
  | .num _ => 3
  | .str _ => 4
  | .arr _ => 5
  | .obj _ => 6

/-- Reads one escaped character back from the head of a JSON string body:
the inverse of `escapeChar`. -/
def unescapeHead : List Char → Option (Char × List Char)
  | [] => none
  | c :: rest =>
    if c = '\\' then
      match rest with
      | [] => none
      | x :: more =>
        if x = '"' then some ('"', more)
        else if x = '\\' then some ('\\', more)
        else if x = 'b' then some (Char.ofNat 8, more)
        else if x = 't' then some (Char.ofNat 9, more)
        else if x = 'n' then some (Char.ofNat 10, more)
        else if x = 'f' then some (Char.ofNat 12, more)
        else if x = 'r' then some (Char.ofNat 13, more)
        else
          match more with
          | _ :: _ :: h1 :: h2 :: tail =>
            some (Char.ofNat (16 * (hexDigitChars.indexOf h1) + hexDigitChars.indexOf h2), tail)
          | _ => none
    else some (c, rest)

/-! ## Buffers and hexadecimal text -/

/-- One octet. -/
abbrev Byte := Fin 256

/-- The content of a Node `Buffer`. -/
abbrev Buffer := List Byte

/-- Value of a hexadecimal digit, either case. -/
def hexVal (c : Char) : Option Nat :=
  if 48 ≤ c.toNat ∧ c.toNat ≤ 57 then some (c.toNat - 48)
  else if 97 ≤ c.toNat ∧ c.toNat ≤ 102 then some (c.toNat - 87)
  else if 65 ≤ c.toNat ∧ c.toNat ≤ 70 then some (c.toNat - 55)
  else none

/-- The two digits of one octet. -/
def hexByte (b : Byte) : List Char := [hexDigit (b.val / 16), hexDigit (b.val % 16)]

/-- The call `buf.toString('hex')`. -/
def hexEncode (bs : Buffer) : String := String.mk (bs.flatMap hexByte)

/-- Decoding of hexadecimal text: pairs of digits are read until the first
pair that is not hexadecimal; an odd last character is dropped. -/
def hexDecodeChars : List Char → Buffer
  | a :: b :: rest =>
    match hexVal a, hexVal b with
    | some x, some y => Fin.ofNat (16 * x + y) :: hexDecodeChars rest
    | _, _ => []
  | _ => []

/-- The call `Buffer.from(v, 'hex')`.  Text is decoded; `undefined`, `null`,
numbers, booleans and plain objects raise a `TypeError`.  (Array-like
arguments, which Node copies octet by octet, are outside the model and are
treated like plain objects.) -/
def bufferFromHex (v : JVal) : Except Thrown Buffer :=
  match v with
  | .str s => .ok (hexDecodeChars s.data)
  | _ => .error .typeError

/-! ## The runtime the services are linked against -/

/-- A JavaScript number as far as arithmetic in the services goes: an integer
or `NaN`. -/
inductive JNum where
  | int (n : Int)
  | nan
  deriving DecidableEq

/-- The cryptographic primitives of `require('crypto')` the services call.
`sha256 s` is `createHash('sha256').update(s).digest('hex')`; `sign key m` is
`crypto.sign(null, Buffer.from(m), key)` and `verify key m sig` is
`crypto.verify(null, Buffer.from(m), key, sig)`, both of which throw on a key
they cannot use, in particular when the key is `undefined`. `toUpperCase` is `String.prototype.toUpperCase` and
`stringToNumber` is the conversion of text to a number (`StringToNumber`). -/
structure Env where
  sha256 : String → String
  sign : JVal → String → Except Thrown Buffer
  verify : JVal → String → Buffer → Except Thrown Bool
  toUpperCase : String → String
  stringToNumber : String → JNum
  sign_requires_key : ∀ m, sign .undefined m = .error .cryptoError
  verify_requires_key : ∀ m sig, verify .undefined m sig = .error .cryptoError

/-- The call `createHash('sha256').update(v).digest('hex')` on an arbitrary
value: `update` accepts text and throws a `TypeError` on anything else the
model contains. -/
def sha256Of (E : Env) (v : JVal) : Except Thrown String :=
  match v with
  | .str s => .ok (E.sha256 s)
  | _ => .error .typeError

/-! ## history_service.js -/

/-- The six properties of a ledger block other than its hash. `jurisdiction`
is `undefined` on the genesis block; `previous_hash = none` is JSON `null`. -/
structure BlockFields where
  sequence : Nat
  timestamp : String
  event_type : String
  jurisdiction : JVal
  data_hash : String
  previous_hash : Option String
  deriving DecidableEq

/-- A stored ledger block. -/
structure Block extends BlockFields where
  block_hash : String
  deriving DecidableEq

/-- How string concatenation prints `previous_hash`. -/
def prevHashText : Option String → String
  | some h => h
  | none => "null"

/-- The text `calculateBlockHash` feeds to SHA-256:
`block.sequence + block.timestamp + block.event_type + block.data_hash +
block.previous_hash`. -/
def blockHashInput (b : BlockFields) : String :=
  toString b.sequence ++ b.timestamp ++ b.event_type ++ b.data_hash ++ prevHashText b.previous_hash

/-- The method `HistoryService.calculateBlockHash`. -/
def calculateBlockHash (E : Env) (b : BlockFields) : String :=
  E.sha256 (blockHashInput b)

/-- The `data_hash` literal of the genesis block. -/
def zeroHash : String := "0000000000000000000000000000000000000000000000000000000000000000"

/-- The genesis block `initializeLedger` builds at time `now`. -/
def genesisFields (now : String) : BlockFields :=
  { sequence := 0, timestamp := now, event_type := "GENESIS", jurisdiction := .undefined,
    data_hash := zeroHash, previous_hash := none }

/-- The genesis block with its hash filled in. -/
def genesisBlock (E : Env) (now : String) : Block :=
  { toBlockFields := genesisFields now, block_hash := calculateBlockHash E (genesisFields now) }

/-- The state of the `HistoryService` singleton: the content of the ledger
file and the in-memory `lastHash`. -/
structure HistoryService where
  ledger : List Block
  lastHash : Option String

/-- The method `HistoryService.initializeLedger`, run by the constructor:
`file = none` is a missing ledger file. Returns the file content afterwards
and the value stored in `lastHash`. -/
def initializeLedger (E : Env) (now : String) (file : Option (List Block)) : HistoryService :=
  match file with
  | none => { ledger := [genesisBlock E now], lastHash := some (genesisBlock E now).block_hash }
  | some ledger =>
    match ledger.getLast? with
    | none => { ledger := ledger, lastHash := none }
    | some b => { ledger := ledger, lastHash := some b.block_hash }

/-- The block `logEvent` builds, before it is hashed. -/
def newBlockFields (H : HistoryService) (now eventType : String) (dataHash : String)
    (jurisdiction : JVal) : BlockFields :=
  { sequence := H.ledger.length, timestamp := now, event_type := eventType,
    jurisdiction := jurisdiction, data_hash := dataHash, previous_hash := H.lastHash }

/-- The method `HistoryService.logEvent(eventType, dataContext, jurisdiction)`
at time `now`: returns the new block hash and the new state, or throws (when
`JSON.stringify(dataContext)` is `undefined`) leaving the state as it was. -/
def logEvent (E : Env) (H : HistoryService) (now eventType : String) (dataContext : JVal)
    (jurisdiction : JVal) : Except Thrown (String × HistoryService) :=
  match stringify dataContext with
  | none => .error .typeError
  | some text =>
    let fields := newBlockFields H now eventType (E.sha256 text) jurisdiction
    let blockHash := calculateBlockHash E fields
    .ok (blockHash,
      { ledger := H.ledger ++ [{ toBlockFields := fields, block_hash := blockHash }],
        lastHash := some blockHash })

/-- The method `HistoryService.getLedger`. -/
def getLedger (H : HistoryService) : List Block := H.ledger

/-! ## zk_service.js -/

/-- JavaScript `ToNumber`.  Arrays and objects are first converted to text. -/
def toNumber (E : Env) : JVal → JNum
  | .undefined => .nan
  | .null => .int 0
  | .bool true => .int 1
  | .bool false => .int 0
  | .num n => .int n
  | .str s => E.stringToNumber s
  | .arr xs => E.stringToNumber (JVal.joinElems xs)
  | .obj _ => .nan

/-- The expression `a - b` on numbers. -/
def JNum.sub : JNum → JNum → JNum
  | .int a, .int b => .int (a - b)
  | _, _ => .nan

/-- The expression `a < b` on numbers: false as soon as one side is `NaN`. -/
def JNum.lt : JNum → JNum → Bool
  | .int a, .int b => decide (a < b)
  | _, _ => false

/-- Thirty-two random octets, the result of `crypto.randomBytes(32)`. -/
structure Bytes32 where
  bytes : Buffer
  size_eq : bytes.length = 32

/-- What `generateSolvencyProof` draws: eight times `crypto.randomBytes(32)`
for the placeholder proof, and the clock. -/
structure ZkDraws where
  piA0 : Bytes32
  piA1 : Bytes32
  piB00 : Bytes32
  piB01 : Bytes32
  piB10 : Bytes32
  piB11 : Bytes32
  piC0 : Bytes32
  piC1 : Bytes32
  timestamp : String

/-- The method `ZkService._getTierThreshold` (a `switch` with strict
comparison). -/
def getTierThreshold (tier : JVal) : Int :=
  if tier = .str "TIER_1M" then 1000000
  else if tier = .str "TIER_10M" then 10000000
  else if tier = .str "TIER_50M" then 50000000
  else 1000000

/-- The method `ZkService.generateNullifier(did, salt)`. -/
def generateNullifier (E : Env) (did salt : JVal) : Except Thrown String :=
  if !did.truthy || !salt.truthy then
    .error (.error "DID and Salt required for nullifier generation")
  else
    .ok (E.sha256 (did.jsToString ++ ":" ++ salt.jsToString))

/-- The random hexadecimal text of one proof coordinate. -/
def Bytes32.hex (b : Bytes32) : JVal := .str (hexEncode b.bytes)

/-- The placeholder proof object of `generateSolvencyProof`. -/
def zkProofObject (D : ZkDraws) : JVal :=
  .obj [("protocol", .str "PLONK"), ("curve", .str "bn128"),
    ("pi_a", .arr [D.piA0.hex, D.piA1.hex]),
    ("pi_b", .arr [.arr [D.piB00.hex, D.piB01.hex], .arr [D.piB10.hex, D.piB11.hex]]),
    ("pi_c", .arr [D.piC0.hex, D.piC1.hex]),
    ("timestamp", .str D.timestamp)]

/-- The method `ZkService.generateSolvencyProof(witness, tier)`; `tier` is
`undefined` when the argument is left out. -/
def generateSolvencyProof (E : Env) (D : ZkDraws) (witness tierArg : JVal) :
    Except Thrown JVal := do
  let tier := if tierArg = .undefined then .str "TIER_1M" else tierArg
  let assets ← getProp witness "assets"
  let liabilities ← getProp witness "liabilities"
  let signature ← getProp witness "signature"
  if !assets.truthy || !liabilities.truthy || !signature.truthy then
    throw (.error "Invalid witness: missing required fields")
  let netWorth := (toNumber E assets).sub (toNumber E liabilities)
  let threshold := getTierThreshold tier
  if netWorth.lt (.int threshold) then
    throw (.error ("Solvency check failed: Net worth below " ++ tier.jsToString ++
      " threshold (" ++ toString threshold ++ " USD)."))
  let subjectDid ← getProp witness "subject_did"
  let salt ← getProp witness "salt"
  let nullifier ← generateNullifier E subjectDid salt
  let proof := zkProofObject D
  let issuerDid ← getProp witness "issuer_did"
  let issuerHash ← sha256Of E (issuerDid.orElse (.str "unknown"))
  let publicSignals := JVal.obj [("nullifier", .str nullifier), ("tier", tier),
    ("threshold", .str (toString threshold)), ("issuer_pubkey_hash", .str issuerHash)]
  return .obj [("proof", proof), ("publicSignals", publicSignals)]

/-! ## revocation_service.js -/

/-- The state of the `RevocationService` singleton: the in-memory registry
(credential id to reason), whether Redis is the primary store, and the
content of the Redis store. -/
structure RevocationService where
  registry : Fields
  useRedis : Bool
  redis : List (String × String)

/-- The reply of `redisClient.get(key)`: the stored text, or `null`. -/
def redisGet (store : List (String × String)) (key : String) : JVal :=
  match store.lookup key with
  | some v => .str v
  | none => .null

/-- The effect of `redisClient.set(key, value)`. -/
def redisSet (store : List (String × String)) (key value : String) : List (String × String) :=
  (key, value) :: store.filter (fun p => p.1 != key)

/-- The method `RevocationService.isRevoked(id)`: `!!reason` of the Redis
reply, or `!!this.registry[id]`. -/
def isRevoked (R : RevocationService) (id : String) : Bool :=
  if R.useRedis then (redisGet R.redis ("revoked:" ++ id)).truthy
  else (Fields.member R.registry id).truthy

/-- The method `RevocationService.getRevocationReason(id)`: `reason || null`
of the Redis reply, or `this.registry[id] || null`. -/
def getRevocationReason (R : RevocationService) (id : String) : Member :=
  if R.useRedis then .own ((redisGet R.redis ("revoked:" ++ id)).orElse .null)
  else if (Fields.member R.registry id).truthy then Fields.member R.registry id
  else .own .null

/-- The method `RevocationService.revokeCredential(id, reason)`; `reason =
none` is a call without the second argument, which defaults to
`"UNSPECIFIED"`. The local registry file is a copy of `registry`. -/
def revokeCredential (R : RevocationService) (id : String) (reason : Option String) :
    RevocationService :=
  let text := reason.getD "UNSPECIFIED"
  if R.useRedis then
    { R with redis := redisSet R.redis ("revoked:" ++ id) text,
             registry := Fields.set R.registry id (.str text) }
  else
    { R with registry := Fields.set R.registry id (.str text) }

/-! ## vc_service.js -/

/-- The module-level `TRUST_MATRIX`: the parsed trust registry, jurisdiction
code to the array of trusted issuers (the empty object when the file is
missing or invalid). -/
abbrev TrustMatrix := List (String × List JVal)

/-- The array `TRUST_MATRIX[verifierJurisdiction] || []` when the read finds
an entry of the registry or nothing: the trusted set of the jurisdiction,
empty when the registry has no entry for it. -/
def trustedIssuers (T : TrustMatrix) (jurisdiction : String) : List JVal :=
  match T.lookup jurisdiction with
  | some xs => xs
  | none => []

/-- Whether the read `TRUST_MATRIX[verifierJurisdiction]` finds no entry of
the registry but a member of `Object.prototype`: a function or an object,
truthy and without a method `includes`. -/
def inheritsTrustEntry (T : TrustMatrix) (jurisdiction : String) : Bool :=
  (T.lookup jurisdiction).isNone && (inheritedMember true jurisdiction).truthy

/-- What is found at `data/schemas/<jurisdiction>.json`. -/
inductive SchemaFile where
  | missing
  | unreadable
  | parsed (schema : JVal)
  deriving DecidableEq

/-- The state of the `VCService` singleton and the configuration it reads:
`keys` is `this.keys` (issuer id to `{ privateKey, publicKey }`). -/
structure VCService where
  keys : Fields
  trustMatrix : TrustMatrix
  schemas : String → SchemaFile

/-- The result object of `validateSchema`: `{ valid: true }` or
`{ valid: false, error }`. -/
inductive SchemaResult where
  | valid
  | invalid (error : String)
  deriving DecidableEq

/-- The loop over `schema.required`: the first field whose value in the
subject is falsy ends the check. -/
def checkRequired (subject : JVal) : List JVal → Except Thrown (Option String)
  | [] => .ok none
  | field :: rest =>
    match getMember subject field.jsToString with
    | .error e => .error e
    | .ok v =>
      if !v.truthy then .ok (some ("Missing required field: " ++ field.jsToString))
      else checkRequired subject rest

/-- The loop over `rules.required` for one declared property `key`, whose
subject value is `value`. -/
def checkSubFields (key : String) (value : Member) : List JVal → Except Thrown (Option String)
  | [] => .ok none
  | subField :: rest =>
    match value.member subField.jsToString with
    | .error e => .error e
    | .ok v =>
      if !v.truthy then
        .ok (some ("Missing required sub-field: " ++ key ++ "." ++ subField.jsToString))
      else checkSubFields key value rest

/-- The loop over `Object.entries(schema.properties)`. -/
def checkProperties (subject : JVal) : Fields → Except Thrown (Option String)
  | [] => .ok none
  | (key, rules) :: rest =>
    match getMember subject key with
    | .error e => .error e
    | .ok value =>
      if value.truthy then
        match getProp rules "required" with
        | .error e => .error e
        | .ok required =>
          if required.truthy then
            match iterate required with
            | .error e => .error e
            | .ok subFields =>
              match checkSubFields key value subFields with
              | .error e => .error e
              | .ok (some msg) => .ok (some msg)
              | .ok none => checkProperties subject rest
          else checkProperties subject rest
      else checkProperties subject rest

/-- The body of the `try` block of `validateSchema`, for a parsed schema. -/
def validateAgainst (schema credential : JVal) : Except Thrown SchemaResult := do
  let subject ← getProp credential "credentialSubject"
  let required ← getProp schema "required"
  if required.truthy then
    let fields ← iterate required
    match ← checkRequired subject fields with
    | some msg => return .invalid msg
    | none => pure ()
  let properties ← getProp schema "properties"
  if properties.truthy then
    match ← checkProperties subject (ownEntries properties) with
    | some msg => return .invalid msg
    | none => pure ()
  return .valid

/-- The method `VCService.validateSchema(credential, jurisdiction)`. -/
def validateSchema (S : VCService) (credential : JVal) (jurisdiction : String) : SchemaResult :=
  match S.schemas jurisdiction with
  | .missing => .valid
  | .unreadable => .invalid "Schema validation error"
  | .parsed schema =>
    match validateAgainst schema credential with
    | .ok r => r
    | .error _ => .invalid "Schema validation error"

/-- What a call of a service method leaves behind: its result (a value or an
exception) and the state of the ledger afterwards. -/
structure Outcome (α : Type) where
  result : Except Thrown α
  history : HistoryService

/-- What `issuePassport` draws, in the order of the source: the clock inside
`logEvent`, the UUID, salt and proof coordinates of the witness, the UUID of
the subject id, the UUID of the credential id, and the clock for
`issuanceDate` and `proof.created`. -/
structure IssueDraws where
  ledgerTime : String
  witnessUuid : String
  salt : Bytes32
  zk : ZkDraws
  subjectUuid : String
  credentialUuid : String
  issuanceDate : String
  proofCreated : String

/-- The text after the last `'.'`: `s.split('.').pop()`. -/
def lastSegment (s : String) : String :=
  String.mk (s.data.foldl (fun acc c => if c = '.' then [] else acc ++ [c]) [])

/-- The witness object `issuePassport` hands to the proof engine. -/
def buildWitness (D : IssueDraws) (kycData : JVal) (issuerDid : String) : Except Thrown JVal := do
  let assets ← getProp kycData "assets"
  let liabilities ← getProp kycData "liabilities"
  let did ← getProp kycData "did"
  return .obj [("assets", assets.orElse (.num 2000000)),
    ("liabilities", liabilities.orElse (.num 100000)),
    ("threshold", .num 1000000),
    ("subject_did", did.orElse (.str ("did:example:" ++ D.witnessUuid))),
    ("salt", D.salt.hex),
    ("issuer_did", .str issuerDid),
    ("signature", .str "firm-signed-commitment-mock")]

/-- The object literal `subjectData`, jurisdiction metadata spread in last. -/
def assembleSubject (D : IssueDraws) (did legalName : JVal) (jurisdictionMetadata : Fields) :
    Fields :=
  Fields.spread
    [("id", did.orElse (.str ("did:example:" ++ D.subjectUuid))),
     ("legalName", legalName),
     ("complianceLevel", .str "GOLD"),
     ("trustScore", .num 99)]
    jurisdictionMetadata

/-- The members of the `allowed` set of the disclosure filter. -/
def allowedKeys (request : List JVal) : List JVal :=
  [.str "id", .str "trustScore", .str "complianceLevel"] ++ request

/-- The selective-disclosure step: with an array `disclosureRequest`, every
key outside `allowed` is deleted; otherwise the subject is left alone. -/
def discloseSubject (subject : Fields) (disclosureRequest : JVal) : Fields :=
  match disclosureRequest with
  | .arr request => subject.filter (fun p => JVal.includes (allowedKeys request) (.str p.1))
  | _ => subject

/-- The subject after `zkSolvency` is attached (when a proof was made). -/
def attachZk (subject : Fields) (zkProofData : Option JVal) : Except Thrown Fields :=
  match zkProofData with
  | none => .ok subject
  | some zk => do
    let proof ← getProp zk "proof"
    let publicSignals ← getProp zk "publicSignals"
    return Fields.set subject "zkSolvency" (.obj [("proof", proof), ("publicSignals", publicSignals)])

/-- The credential object before the proof is attached. -/
def unsignedCredential (D : IssueDraws) (issuerDid auditHash : String) (subject : Fields) :
    Fields :=
  [("@context", .arr [.str "https://www.w3.org/2018/credentials/v1",
      .str "https://w3id.org/security/suites/ed25519-2020/v1"]),
   ("id", .str ("urn:uuid:" ++ D.credentialUuid)),
   ("type", .arr [.str "VerifiableCredential", .str "GlobalPassport"]),
   ("issuer", .str issuerDid),
   ("issuanceDate", .str D.issuanceDate),
   ("credentialSubject", .obj subject),
   ("evidence", .arr [.obj [("id", .str ("urn:ledger:" ++ auditHash)),
      ("type", .str "ComplianceAuditRecord"), ("verifier", .str issuerDid)]])]

/-- The `proof` object attached after signing. -/
def proofObject (D : IssueDraws) (issuerDid : String) (signature : Buffer) : JVal :=
  .obj [("type", .str "Ed25519Signature2020"),
    ("created", .str D.proofCreated),
    ("verificationMethod", .str (issuerDid ++ "#key-1")),
    ("proofPurpose", .str "assertionMethod"),
    ("proofValue", .str (hexEncode signature))]

/-- The text handed to `crypto.sign` and `crypto.verify`:
`JSON.stringify` of an object. -/
def payloadText (credential : Fields) : String :=
  match stringify (.obj credential) with
  | some s => s
  | none => "undefined"

/-- Step 2 of `issuePassport`: the solvency proof, when one is requested. -/
def requestZkProof (E : Env) (D : IssueDraws) (kycData : JVal) (issuerDid : String)
    (generateZkProof : Bool) : Except Thrown (Option JVal) :=
  if generateZkProof then do
    let witness ← buildWitness D kycData issuerDid
    let zk ← generateSolvencyProof E D.zk witness (.str "TIER_1M")
    return some zk
  else .ok none

/-- Step 3 of `issuePassport`, as far as the subject goes: assembly, the
disclosure filter, and then the attachment of `zkSolvency`. -/
def buildSubject (D : IssueDraws) (kycData : JVal) (jurisdictionMetadata : Fields)
    (zkProofData : Option JVal) : Except Thrown Fields := do
  let did ← getProp kycData "did"
  let legalName ← getProp kycData "legalName"
  let disclosureRequest ← getProp kycData "disclosureRequest"
  attachZk (discloseSubject (assembleSubject D did legalName jurisdictionMetadata)
    disclosureRequest) zkProofData

/-- Step 4 of `issuePassport`: the credential is serialised, signed with the
issuer's private key, and the proof is attached. -/
def signCredential (E : Env) (S : VCService) (D : IssueDraws) (issuerDid : String)
    (credential : Fields) : Except Thrown JVal := do
  let privateKey ← (Fields.member S.keys issuerDid).prop "privateKey"
  let signature ← E.sign privateKey (payloadText credential)
  return .obj (Fields.set credential "proof" (proofObject D issuerDid signature))

/-- Steps 2 to 4 of `issuePassport`, after the ledger entry was written with
hash `auditHash`: everything that can still throw, and the credential. -/
def buildCredential (E : Env) (S : VCService) (D : IssueDraws) (kycData : JVal)
    (issuerDid : String) (jurisdictionMetadata : Fields) (generateZkProof : Bool)
    (auditHash : String) : Except Thrown JVal := do
  let zkProofData ← requestZkProof E D kycData issuerDid generateZkProof
  let subject ← buildSubject D kycData jurisdictionMetadata zkProofData
  signCredential E S D issuerDid (unsignedCredential D issuerDid auditHash subject)

/-- The method `VCService.issuePassport(kycData, issuerDid,
jurisdictionMetadata, generateZkProof)`. -/
def issuePassport (E : Env) (S : VCService) (H : HistoryService) (D : IssueDraws)
    (kycData : JVal) (issuerDid : String) (jurisdictionMetadata : Fields)
    (generateZkProof : Bool) : Outcome JVal :=
  if !(Fields.member S.keys issuerDid).truthy then
    { result := .error (.error ("Issuer DID " ++ issuerDid ++ " not found in keystore.")),
      history := H }
  else
    match getProp kycData "legalName" with
    | .error e => { result := .error e, history := H }
    | .ok legalName =>
      match logEvent E H D.ledgerTime "ISSUANCE_ATTEMPT"
          (.obj [("issuer", .str issuerDid), ("subject", legalName)])
          (.str (E.toUpperCase (lastSegment issuerDid))) with
      | .error e => { result := .error e, history := H }
      | .ok (auditHash, H1) =>
        { result := buildCredential E S D kycData issuerDid jurisdictionMetadata
            generateZkProof auditHash,
          history := H1 }

/-- The result object of `verify`: `{ verified: false, reason }` or
`{ verified: true, status, issuer, trust_score }`. -/
inductive Verdict where
  | rejected (reason : String)
  | accepted (status : String) (issuer : JVal) (trust_score : JVal)
  deriving DecidableEq

/-- The `verified` property of a verdict. -/
def Verdict.verified : Verdict → Bool
  | .rejected _ => false
  | .accepted _ _ _ => true

/-- The trust-matrix test of `verify`:
`trustedIssuers.includes('*') || trustedIssuers.includes(issuerDid)`. On an
inherited member the call of `includes` throws a `TypeError`. -/
def isTrusted (S : VCService) (issuerDid : JVal) (jurisdiction : String) : Except Thrown Bool :=
  if inheritsTrustEntry S.trustMatrix jurisdiction then .error .typeError
  else .ok (JVal.includes (trustedIssuers S.trustMatrix jurisdiction) (.str "*") ||
    JVal.includes (trustedIssuers S.trustMatrix jurisdiction) issuerDid)

/-- The signature test of `verify`: the proof value is detached, the proof
is deleted from a copy of the credential and the copy is serialised. -/
def checkSignature (E : Env) (publicKey credential : JVal) : Except Thrown Bool := do
  let proof ← getProp credential "proof"
  let proofValue ← getProp proof "proofValue"
  let credentialCopy := Fields.delete (ownEntries credential) "proof"
  let signature ← bufferFromHex proofValue
  E.verify publicKey (payloadText credentialCopy) signature

/-- The tail of `verify` once the signature is accepted: the ledger entry,
then the verdict. -/
def acceptCredential (E : Env) (H : HistoryService) (now : String) (credential issuerDid : JVal)
    (jurisdiction : String) : Outcome Verdict :=
  match getProp credential "id" with
  | .error e => { result := .error e, history := H }
  | .ok id =>
    match logEvent E H now "VERIFICATION"
        (.obj [("credential_id", id), ("verifier", .str jurisdiction),
          ("result", .str "SUCCESS")])
        (.str jurisdiction) with
    | .error e => { result := .error e, history := H }
    | .ok (_, H1) =>
      { result := do
          let subject ← getProp credential "credentialSubject"
          let trustScore ← getProp subject "trustScore"
          return .accepted "ACTIVE" issuerDid trustScore,
        history := H1 }

/-- The method `VCService.verify(credential, verifierJurisdiction)`; `now` is
the clock read by `logEvent` on success. -/
def verify (E : Env) (S : VCService) (H : HistoryService) (now : String) (credential : JVal)
    (verifierJurisdiction : String) : Outcome Verdict :=
  match getProp credential "issuer" with
  | .error e => { result := .error e, history := H }
  | .ok issuerDid =>
    match isTrusted S issuerDid verifierJurisdiction with
    | .error e => { result := .error e, history := H }
    | .ok false =>
      { result := .ok (.rejected ("Issuer not trusted in " ++ verifierJurisdiction)), history := H }
    | .ok true =>
      match validateSchema S credential verifierJurisdiction with
      | .invalid error =>
        { result := .ok (.rejected ("Schema mismatch: " ++ error)), history := H }
      | .valid =>
        if !(Fields.member S.keys issuerDid.jsToString).truthy then
          { result := .ok (.rejected "Issuer Unknown (Key not found)"), history := H }
        else
          match (Fields.member S.keys issuerDid.jsToString).prop "publicKey" with
          | .error e => { result := .error e, history := H }
          | .ok publicKey =>
            match checkSignature E publicKey credential with
            | .error e => { result := .error e, history := H }
            | .ok false =>
              { result := .ok (.rejected "Cryptographic signature invalid"), history := H }
            | .ok true => acceptCredential E H now credential issuerDid verifierJurisdiction

/-! ## audit_service.js -/

/-- The percentage `shouldTriggerAudit` compares the draw with; `trustScore =
undefined` is a call without the argument, which defaults to 100. The
comparisons `trustScore < 50` and `trustScore < 80` convert their left side
to a number. -/
def auditThreshold (E : Env) (trustScoreArg : JVal) : Nat :=
  let trustScore := if trustScoreArg = .undefined then .num 100 else trustScoreArg
  if (toNumber E trustScore).lt (.int 50) then 20
  else if (toNumber E trustScore).lt (.int 80) then 10
  else 5

/-- The method `AuditService.shouldTriggerAudit(trustScore)`; `draw` is the
result of `crypto.randomInt(0, 100)`. -/
def shouldTriggerAudit (E : Env) (trustScoreArg : JVal) (draw : Fin 100) : Bool :=
  decide (draw.val < auditThreshold E trustScoreArg)

/-- The trust score argument of a call: `none` is a call without argument. -/
def scoreArg : Option Int → JVal
  | none => .undefined
  | some n => .num n

/-- The threshold as the specification words it: 20 if the score is below
50, 10 if it is below 80, else 5 (also when no score is given). -/
def specAuditPercent : Option Int → Nat
  | none => 5
  | some score => if score < 50 then 20 else if score < 80 then 10 else 5

/-! ## middleware/validation.js -/

/-- The zod check `z.string()`. -/
def zString : JVal → Bool
  | .str _ => true
  | _ => false

/-- The zod check that a value is a plain object, as `z.object` and
`z.record` start: arrays and `null` are not. -/
def zIsObject : JVal → Bool
  | .obj _ => true
  | _ => false

/-- The zod schema `verifyCredentialSchema`:
`{ credential: { id: string, proof: { jws: string, ... }, issuer: string,
credentialSubject: record, ... } }`; `true` when `parse` succeeds. -/
def verifyCredentialSchema (body : JVal) : Bool :=
  match body with
  | .obj b =>
    match Fields.get b "credential" with
    | .obj c =>
      zString (Fields.get c "id") &&
      (match Fields.get c "proof" with
        | .obj p => zString (Fields.get p "jws")
        | _ => false) &&
      zString (Fields.get c "issuer") &&
      zIsObject (Fields.get c "credentialSubject")
    | _ => false
  | _ => false

/-- The middleware `checkVerifyCredential = validate(verifyCredentialSchema)`
on a request body: `true` when it calls `next()`, so that the controller and
the verifier are reached, `false` when it answers 400 `Validation Error`. -/
def checkVerifyCredential (body : JVal) : Bool := verifyCredentialSchema body

mutual
/-- What arrives when a value is sent as JSON: `JSON.parse(JSON.stringify(v))`.
Properties whose value is `undefined` are gone and `undefined` array
elements are `null`. -/
def jsonClone : JVal → JVal
  | .undefined => .undefined
  | .null => .null
  | .bool b => .bool b
  | .num n => .num n
  | .str s => .str s
  | .arr xs => .arr (cloneElems xs)
  | .obj kvs => .obj (cloneProps kvs)
/-- The elements of a cloned array. -/
def cloneElems : List JVal → List JVal
  | [] => []
  | .undefined :: xs => .null :: cloneElems xs
  | x :: xs => jsonClone x :: cloneElems xs
/-- The properties of a cloned object. -/
def cloneProps : List (String × JVal) → List (String × JVal)
  | [] => []
  | (_, .undefined) :: rest => cloneProps rest
  | (k, v) :: rest => (k, jsonClone v) :: cloneProps rest
end

/-- The body of the request `axios.post(url, { credential })` as the server
parses it. -/
def verifyRequestBody (credential : JVal) : JVal :=
  jsonClone (.obj [("credential", credential)])

/-! ## The process: the three singletons side by side -/

/-- The services of one running process. -/
structure System where
  vc : VCService
  history : HistoryService
  revocation : RevocationService

/-- A call of `RevocationService.revokeCredential` in the process. -/
def System.revoke (P : System) (id : String) (reason : Option String) : System :=
  { P with revocation := revokeCredential P.revocation id reason }

/-- A call of `VCService.verify` in the process: the verdict (or exception)
and the process afterwards. -/
def System.verify (E : Env) (P : System) (now : String) (credential : JVal)
    (jurisdiction : String) : Except Thrown Verdict × System :=
  ((Api2.verify E P.vc P.history now credential jurisdiction).result,
   { P with history := (Api2.verify E P.vc P.history now credential jurisdiction).history })

/-! ## Sequences of ledger appends -/

/-- The arguments of one `logEvent` call, with the clock it reads. -/
structure LogCall where
  now : String
  eventType : String
  dataContext : JVal
  jurisdiction : JVal

/-- The ledger service after one call; a call that throws changes nothing. -/
def logStep (E : Env) (H : HistoryService) (c : LogCall) : HistoryService :=
  match logEvent E H c.now c.eventType c.dataContext c.jurisdiction with
  | .ok (_, H1) => H1
  | .error _ => H

/-- The ledger service after a sequence of calls. -/
def logEvents (E : Env) (H : HistoryService) (calls : List LogCall) : HistoryService :=
  calls.foldl (logStep E) H

/-- Block `i` of a ledger with its `data_hash` replaced by `d`. -/
def tamperDataHash : List Block → Nat → String → List Block
  | [], _, _ => []
  | b :: rest, 0, d => { b with data_hash := d } :: rest
  | b :: rest, i + 1, d => b :: tamperDataHash rest i d

/-- Modelled from the spec: `verifyChain()`, which the ledger service of
the repository does not define. "Recomputes every block's hash and every
`previous_hash` linkage; returns the first violating sequence number, if
any." `prev` is the block before the first block of `blocks`, if there is one. -/
def verifyChainFrom (E : Env) (prev : Option Block) : List Block → Option Nat
  | [] => none
  | b :: rest =>
    if b.block_hash ≠ calculateBlockHash E b.toBlockFields then some b.sequence
    else
      match prev with
      | some p =>
        if b.previous_hash ≠ some p.block_hash then some b.sequence
        else verifyChainFrom E (some b) rest
      | none => verifyChainFrom E (some b) rest

/-- Modelled from the spec: `verifyChain()` on a whole ledger. -/
def verifyChain (E : Env) (ledger : List Block) : Option Nat :=
  verifyChainFrom E none ledger

/-- The two chain equalities and the numbering, block by block: from
position `start` on, with `prev` the `block_hash` of the block before (`none`
before the genesis block, whose `previous_hash` is `null`). -/
def ChainFrom (E : Env) : Nat → Option String → List Block → Prop
  | _, _, [] => True
  | start, prev, b :: rest =>
    b.sequence = start ∧ b.block_hash = calculateBlockHash E b.toBlockFields ∧
      b.previous_hash = prev ∧ ChainFrom E (start + 1) (some b.block_hash) rest

/-- The `block_hash` of the last block of `blocks`, or `prev` when there is
no block. -/
def tipHash (prev : Option String) (blocks : List Block) : Option String :=
  blocks.foldl (fun _ b => some b.block_hash) prev

/-- The ledger service is in step with its file: the file is a valid chain
from the genesis block and `lastHash` is the hash of its last block. -/
def LedgerInv (E : Env) (H : HistoryService) : Prop :=
  H.ledger ≠ [] ∧ H.lastHash = tipHash none H.ledger ∧ ChainFrom E 0 none H.ledger

/-! ## Tampering with an issued credential -/

/-- The assignment `credential.credentialSubject[k] = v` on a credential
object. -/
def setSubjectField (credential : Fields) (k : String) (v : JVal) : Fields :=
  Fields.set credential "credentialSubject"
    (.obj (Fields.set (ownEntries (Fields.get credential "credentialSubject")) k v))

/-! ## A concrete process, for evaluation -/

/-- A total, injective stand-in for the UTF-8 text of a message: three
octets per character. -/
def textBytes (s : String) : Buffer :=
  s.data.flatMap (fun c =>
    [Fin.ofNat (c.toNat / 65536), Fin.ofNat (c.toNat / 256), Fin.ofNat c.toNat])

/-- A toy runtime: the digest wraps its input, a signature is the text of
key and message, and verification recomputes it. -/
def demoEnv : Env where
  sha256 := fun s => "sha256(" ++ s ++ ")"
  sign := fun key m =>
    match key with
    | .str k => .ok (textBytes (k ++ m))
    | _ => .error .cryptoError
  verify := fun key m sig =>
    match key with
    | .str k => .ok (decide (textBytes (k ++ m) = sig))
    | _ => .error .cryptoError
  toUpperCase := String.toUpper
  stringToNumber := fun _ => .nan
  sign_requires_key := fun _ => rfl
  verify_requires_key := fun _ _ => rfl

/-- The issuer of the examples. -/
def demoIssuer : String := "did:web:compliance.walkers.sg"

/-- A keystore with one issuer. -/
def demoKeys : Fields :=
  [(demoIssuer, .obj [("privateKey", .str "k1"), ("publicKey", .str "k1")])]

/-- A trust matrix: `SG` and `KY` trust the issuer, `UAE` trusts everyone,
`UK` trusts somebody else. -/
def demoTrust : TrustMatrix :=
  [("SG", [.str demoIssuer]), ("KY", [.str demoIssuer]), ("UAE", [.str "*"]),
   ("UK", [.str "did:web:other.uk"])]

/-- Only `KY` has a registered schema: it requires `legalName`. -/
def demoSchemas (jurisdiction : String) : SchemaFile :=
  if jurisdiction = "KY" then .parsed (.obj [("required", .arr [.str "legalName"])])
  else .missing

/-- The credential service of the examples. -/
def demoVC : VCService := { keys := demoKeys, trustMatrix := demoTrust, schemas := demoSchemas }

/-- Thirty-two zero octets. -/
def zeroBytes32 : Bytes32 := { bytes := List.replicate 32 0, size_eq := rfl }

/-- Fixed draws. -/
def demoZkDraws : ZkDraws :=
  { piA0 := zeroBytes32, piA1 := zeroBytes32, piB00 := zeroBytes32, piB01 := zeroBytes32,
    piB10 := zeroBytes32, piB11 := zeroBytes32, piC0 := zeroBytes32, piC1 := zeroBytes32,
    timestamp := "t3" }

/-- Fixed draws. -/
def demoDraws : IssueDraws :=
  { ledgerTime := "t1", witnessUuid := "u1", salt := zeroBytes32, zk := demoZkDraws,
    subjectUuid := "u2", credentialUuid := "u3", issuanceDate := "t4", proofCreated := "t5" }

/-- A freshly initialised ledger. -/
def demoHistory : HistoryService := initializeLedger demoEnv "t0" none

/-- A KYC record without a disclosure request. -/
def demoKyc : JVal := .obj [("legalName", .str "John Doe"), ("nationality", .str "KY")]

/-- The issuance of the examples: no disclosure request, no solvency proof. -/
def demoIssued : Outcome JVal :=
  issuePassport demoEnv demoVC demoHistory demoDraws demoKyc demoIssuer [] false

/-- The credential issued in the examples. -/
def demoCredential : JVal :=
  match demoIssued.result with
  | .ok credential => credential
  | .error _ => .undefined

/-- The process of the examples after the issuance, with an empty
file-backed revocation registry. -/
def demoSystem : System :=
  { vc := demoVC, history := demoIssued.history,
    revocation := { registry := [], useRedis := false, redis := [] } }

/-- A KYC record that asks for the disclosure of `legalName` only. -/
def demoKycDisclose : JVal :=
  .obj [("legalName", .str "John Doe"), ("disclosureRequest", .arr [.str "legalName"])]

/-- An issuance with a disclosure request, jurisdiction metadata and a
solvency proof. -/
def demoIssuedZk : Outcome JVal :=
  issuePassport demoEnv demoVC demoHistory demoDraws demoKycDisclose demoIssuer
    [("region", .str "APAC")] true

/-- The credential issued with the disclosure request. -/
def demoCredentialZk : JVal :=
  match demoIssuedZk.result with
  | .ok credential => credential
  | .error _ => .undefined

/-- The keys of `credentialSubject` of an issued credential. -/
def subjectKeys (issued : Outcome JVal) : Except Thrown (List String) := do
  let credential ← issued.result
  let subject ← getProp credential "credentialSubject"
  return Fields.keys (ownEntries subject)

/-- Two appends, as `issuePassport` and `verify` make them. -/
def demoCalls : List LogCall :=
  [{ now := "t1", eventType := "ISSUANCE_ATTEMPT",
     dataContext := .obj [("issuer", .str demoIssuer)], jurisdiction := .str "SG" },
   { now := "t2", eventType := "VERIFICATION",
     dataContext := .obj [("result", .str "SUCCESS")], jurisdiction := .str "SG" }]

/-- The ledger after the two appends on a fresh ledger. -/
def demoLedger : List Block :=
  getLedger (logEvents demoEnv (initializeLedger demoEnv "t0" none) demoCalls)

/-- Block 1 of that ledger. -/
def demoBlockOne : Block :=
  match demoLedger[1]? with
  | some b => b
  | none => genesisBlock demoEnv "t0"

/-- A solvency witness with net worth 1,900,000. -/
def demoWitness : JVal :=
  .obj [("assets", .num 2000000), ("liabilities", .num 100000),
    ("subject_did", .str "did:example:alice"), ("salt", .str "s1"),
    ("issuer_did", .str demoIssuer), ("signature", .str "firm-signed")]

/-- A solvency witness with assets 900,000 and no liabilities. -/
def demoWitnessZero : JVal :=
  .obj [("assets", .num 900000), ("liabilities", .num 0),
    ("subject_did", .str "did:example:alice"), ("salt", .str "s1"),
    ("issuer_did", .str demoIssuer), ("signature", .str "firm-signed")]

/-- A KYC record that supplies assets 0 and liabilities 500,000. -/
def demoKycZero : JVal :=
  .obj [("legalName", .str "John Doe"), ("assets", .num 0), ("liabilities", .num 500000)]

/-- The issuance for that record, with a solvency proof requested. -/
def demoIssuedZero : Outcome JVal :=
  issuePassport demoEnv demoVC demoHistory demoDraws demoKycZero demoIssuer [] true

/-- A credential service whose jurisdiction `SG` registers a schema that
requires `trustScore`, and `zip` inside `address`. -/
def demoVCStrict : VCService :=
  { keys := demoKeys, trustMatrix := demoTrust,
    schemas := fun jurisdiction =>
      if jurisdiction = "SG" then
        .parsed (.obj [("required", .arr [.str "trustScore"]),
          ("properties", .obj [("address", .obj [("required", .arr [.str "zip"])])])])
      else .missing }

/-- The property `credentialSubject.id` of a credential. -/
def subjectId (credential : JVal) : Except Thrown JVal := do
  let subject ← getProp credential "credentialSubject"
  getProp subject "id"

/-- The property `credentialSubject.zkSolvency.publicSignals.nullifier` of a
credential. -/
def embeddedNullifier (credential : JVal) : Except Thrown JVal := do
  let subject ← getProp credential "credentialSubject"
  let zkSolvency ← getProp subject "zkSolvency"
  let publicSignals ← getProp zkSolvency "publicSignals"
  getProp publicSignals "nullifier"

/-- The property `subject_did` of the witness `issuePassport` builds: the
DID the nullifier is derived from. -/
def witnessSubjectDid (D : IssueDraws) (kycData : JVal) (issuerDid : String) :
    Except Thrown JVal := do
  let witness ← buildWitness D kycData issuerDid
  getProp witness "subject_did"

/-- The issuance of the examples with a solvency proof: the record carries
no `did`, so both DIDs are generated (draws `u1` and `u2`). -/
def demoIssuedProof : Outcome JVal :=
  issuePassport demoEnv demoVC demoHistory demoDraws demoKyc demoIssuer [] true

/-- The credential of that issuance. -/
def demoCredentialProof : JVal :=
  match demoIssuedProof.result with
  | .ok credential => credential
  | .error _ => .undefined

/-- A KYC record that supplies the subject's DID. -/
def demoKycDid : JVal :=
  .obj [("legalName", .str "John Doe"), ("did", .str "did:example:alice")]

/-- The credential issued for that record with a solvency proof and the
given jurisdiction metadata. -/
def demoCredentialDid (jurisdictionMetadata : Fields) : JVal :=
  match (issuePassport demoEnv demoVC demoHistory demoDraws demoKycDid demoIssuer
      jurisdictionMetadata true).result with
  | .ok credential => credential
  | .error _ => .undefined

/-! # Statements and proofs -/
/-! ## Auxiliary facts about the runtime model -/

theorem bind_eq_ok {ε α β : Type} (x : Except ε α) (f : α → Except ε β) (b : β) :
    (x >>= f) = .ok b ↔ ∃ a, x = .ok a ∧ f a = .ok b := by
  cases x <;> simp [bind, Except.bind]

theorem sameValueZero_str (x : JVal) (s : String) :
    JVal.sameValueZero x (.str s) = true ↔ x = .str s := by
  cases x <;> simp [JVal.sameValueZero]

theorem includes_str_iff (xs : List JVal) (s : String) :
    JVal.includes xs (.str s) = true ↔ JVal.str s ∈ xs := by
  simp [JVal.includes, List.any_eq_true, sameValueZero_str]

theorem hexVal_hexDigit : ∀ n : Fin 16, hexVal (hexDigit n.val) = some n.val := by decide

theorem hexDecodeChars_hexByte (b : Byte) (rest : List Char) :
    hexDecodeChars (hexByte b ++ rest) = b :: hexDecodeChars rest := by
  have h1 := hexVal_hexDigit ⟨b.val / 16, by omega⟩
  have h2 := hexVal_hexDigit ⟨b.val % 16, by omega⟩
  simp only at h1 h2
  simp only [hexByte, List.cons_append, List.nil_append, hexDecodeChars, h1, h2]
  congr 1
  apply Fin.ext
  simp [Fin.ofNat]
  omega

theorem hexDecode_hexEncode (bs : Buffer) : hexDecodeChars (hexEncode bs).data = bs := by
  induction bs with
  | nil => rfl
  | cons b rest ih =>
    simp only [hexEncode, List.flatMap_cons] at ih ⊢
    rw [hexDecodeChars_hexByte, ih]

theorem ok_of_isOk (r : Except Thrown JVal) (h : r.isOk = true) :
    r = .ok (match r with
      | .ok credential => credential
      | .error _ => .undefined) := by
  cases r with
  | ok c => rfl
  | error e => exact absurd h (by simp [Except.isOk, Except.toBool])

theorem getProp_obj (kvs : Fields) (k : String) :
    getProp (.obj kvs) k = .ok (Fields.get kvs k) := rfl

theorem getProp_truthy (v : JVal) (k : String) (h : v.truthy = true) :
    ∃ w, getProp v k = .ok w := by
  cases v <;> simp [JVal.truthy] at h <;> simp only [getProp]
  all_goals first
    | exact ⟨_, rfl⟩
    | (split <;> first | exact ⟨_, rfl⟩ | (split <;> exact ⟨_, rfl⟩))

theorem stringify_obj (kvs : Fields) :
    stringify (.obj kvs) = some ("\x7b" ++ joinComma (stringifyProps kvs) ++ "\x7d") := by
  simp [stringify]

theorem stringify_eq_none (v : JVal) : stringify v = none ↔ v = .undefined := by
  cases v with
  | bool b => cases b <;> simp [stringify]
  | _ => simp [stringify]

theorem logEvent_obj (E : Env) (H : HistoryService) (now eventType : String) (kvs : Fields)
    (jurisdiction : JVal) :
    ∃ h H1, logEvent E H now eventType (.obj kvs) jurisdiction = .ok (h, H1) := by
  simp [logEvent, stringify_obj]

theorem get_of_not_mem_keys (o : Fields) (k : String) (h : k ∉ Fields.keys o) :
    Fields.get o k = .undefined := by
  induction o with
  | nil => rfl
  | cons p rest ih =>
    obtain ⟨a, w⟩ := p
    simp only [Fields.keys, List.map_cons, List.mem_cons, not_or] at h
    have h1 : ¬ a = k := fun e => h.1 e.symm
    simp only [Fields.get, h1, if_false]
    exact ih h.2

theorem member_of_mem (o : Fields) (k : String) (h : k ∈ Fields.keys o) :
    Fields.member o k = .own (Fields.get o k) := by
  simp [Fields.member, h]

theorem member_of_not_mem (o : Fields) (k : String) (h : k ∉ Fields.keys o) :
    Fields.member o k = inheritedMember true k := by
  simp [Fields.member, h]

theorem inheritedMember_truthy (b : Bool) (k : String) :
    (inheritedMember b k).truthy = decide (k ∈ objectPrototypeNames) := by
  unfold inheritedMember
  by_cases h1 : k = "__proto__"
  · subst h1
    simp [Member.truthy, objectPrototypeNames]
  · by_cases h2 : k ∈ objectPrototypeNames <;> simp [h1, h2, Member.truthy]

theorem inheritedMember_prop (b : Bool) (k p : String)
    (h : (inheritedMember b k).truthy = true) :
    (inheritedMember b k).prop p = .ok .undefined := by
  unfold inheritedMember at h ⊢
  by_cases h1 : k = "__proto__"
  · simp [h1, Member.prop]
  · by_cases h2 : k ∈ objectPrototypeNames
    · simp [h1, h2, Member.prop]
    · simp [h1, h2, Member.truthy] at h

/-- A keystore entry that is truthy as an own property is what the read of
the key finds. -/
theorem member_of_get_truthy (o : Fields) (k : String) (h : (Fields.get o k).truthy = true) :
    Fields.member o k = .own (Fields.get o k) := by
  apply member_of_mem
  by_contra hk
  rw [get_of_not_mem_keys o k hk] at h
  simp [JVal.truthy] at h

/-- A read that finds a truthy member whose property is not `undefined`
found an own property. -/
theorem member_own_of_prop (o : Fields) (k p : String) (v : JVal)
    (ht : (Fields.member o k).truthy = true) (hp : (Fields.member o k).prop p = .ok v)
    (hv : v ≠ .undefined) :
    Fields.member o k = .own (Fields.get o k) := by
  by_cases hk : k ∈ Fields.keys o
  · exact member_of_mem o k hk
  · rw [member_of_not_mem o k hk] at ht hp
    rw [inheritedMember_prop true k p ht] at hp
    simp only [Except.ok.injEq] at hp
    exact absurd hp.symm hv

/-- What a successful issuance looks like: the issuer has a keystore entry
of its own, the credential is the unsigned document with a proof appended,
and the proof value is the signature of the serialised unsigned document
under the issuer's private key. -/
theorem issuePassport_ok {E : Env} {S : VCService} {H : HistoryService} {D : IssueDraws}
    {kycData : JVal} {issuerDid : String} {metadata : Fields} {zk : Bool} {cred : JVal}
    (h : (issuePassport E S H D kycData issuerDid metadata zk).result = .ok cred) :
    (Fields.get S.keys issuerDid).truthy = true ∧
    ∃ auditHash zkProofData subject privateKey signature,
      requestZkProof E D kycData issuerDid zk = .ok zkProofData ∧
      buildSubject D kycData metadata zkProofData = .ok subject ∧
      getProp (Fields.get S.keys issuerDid) "privateKey" = .ok privateKey ∧
      E.sign privateKey (payloadText (unsignedCredential D issuerDid auditHash subject))
        = .ok signature ∧
      cred = .obj (Fields.set (unsignedCredential D issuerDid auditHash subject) "proof"
        (proofObject D issuerDid signature)) := by
  unfold issuePassport at h
  split at h
  · simp at h
  · rename_i hk
    have hk' : (Fields.member S.keys issuerDid).truthy = true := by simpa using hk
    split at h
    · simp at h
    · split at h
      · simp at h
      · rename_i auditHash H1 _
        simp only [buildCredential, bind_eq_ok, signCredential, pure, Except.pure,
          Except.ok.injEq] at h
        obtain ⟨zkd, hz, subject, hs, sk, hsk, sig, hsig, hc⟩ := h
        have hsk0 : sk ≠ .undefined := by
          intro e
          rw [e, E.sign_requires_key] at hsig
          simp at hsig
        have hown := member_own_of_prop S.keys issuerDid "privateKey" sk hk' hsk hsk0
        rw [hown] at hk' hsk
        exact ⟨hk', auditHash, zkd, subject, sk, sig, hz, hs, hsk, hsig, hc.symm⟩
/-- A jurisdiction whose trusted set has a member has an entry of its own in
the trust registry. -/
theorem inheritsTrustEntry_of_mem (T : TrustMatrix) (J : String) (x : JVal)
    (h : x ∈ trustedIssuers T J) : inheritsTrustEntry T J = false := by
  unfold trustedIssuers at h
  unfold inheritsTrustEntry
  cases hl : T.lookup J with
  | none => simp [hl] at h
  | some xs => simp

/-- The trust test passes for an issuer in the trusted set, and for every
issuer when the set holds the wildcard. -/
theorem isTrusted_of_mem (S : VCService) (issuerDid J : String)
    (h : JVal.str issuerDid ∈ trustedIssuers S.trustMatrix J ∨
      JVal.str "*" ∈ trustedIssuers S.trustMatrix J) :
    isTrusted S (.str issuerDid) J = .ok true := by
  have hown : inheritsTrustEntry S.trustMatrix J = false := by
    rcases h with h | h <;> exact inheritsTrustEntry_of_mem _ _ _ h
  simp only [isTrusted, hown, Bool.false_eq_true, if_false, Except.ok.injEq, Bool.or_eq_true,
    includes_str_iff]
  exact h.symm


/-- The shape of a credential that carries a proof: an unsigned document
with the proof object appended. -/
theorem verify_sealed (E : Env) (S : VCService) (H : HistoryService) (now J : String)
    (D : IssueDraws) (issuerDid auditHash : String) (subject : Fields) (sig : Buffer)
    (pk : JVal) (b : Bool)
    (htrust : isTrusted S (.str issuerDid) J = .ok true)
    (hschema : validateSchema S (.obj (Fields.set (unsignedCredential D issuerDid auditHash subject)
      "proof" (proofObject D issuerDid sig))) J = .valid)
    (hkey : (Fields.get S.keys issuerDid).truthy = true)
    (hpk : getProp (Fields.get S.keys issuerDid) "publicKey" = .ok pk)
    (hver : E.verify pk (payloadText (unsignedCredential D issuerDid auditHash subject)) sig
      = .ok b) :
    (verify E S H now (.obj (Fields.set (unsignedCredential D issuerDid auditHash subject)
      "proof" (proofObject D issuerDid sig))) J).result =
      if b then .ok (.accepted "ACTIVE" (.str issuerDid) (Fields.get subject "trustScore"))
      else .ok (.rejected "Cryptographic signature invalid") := by
  have hcs : checkSignature E pk (.obj (Fields.set (unsignedCredential D issuerDid auditHash subject)
      "proof" (proofObject D issuerDid sig))) = .ok b := by
    simp [checkSignature, getProp, Fields.get, Fields.set, unsignedCredential, proofObject,
      ownEntries, Fields.delete, bufferFromHex, hexDecode_hexEncode, bind, Except.bind]
    simpa [unsignedCredential] using hver
  have hissuer : getProp (.obj (Fields.set (unsignedCredential D issuerDid auditHash subject)
      "proof" (proofObject D issuerDid sig))) "issuer" = .ok (.str issuerDid) := by
    simp [getProp, Fields.get, Fields.set, unsignedCredential]
  have hmember := member_of_get_truthy S.keys issuerDid hkey
  unfold verify
  simp only [hissuer, htrust, hschema, JVal.jsToString, hmember, Member.truthy, Member.prop,
    hkey, hpk, hcs]
  cases b
  · simp
  · simp [acceptCredential, getProp, Fields.get, Fields.set, unsignedCredential, logEvent,
      stringify_obj, bind, Except.bind, pure, Except.pure]

theorem char_toNat_lt (c : Char) : c.toNat < 16777216 := by
  have h := c.valid
  simp only [UInt32.isValidChar, Nat.isValidChar] at h
  simp only [Char.toNat]
  omega

theorem char_eq_of_toNat_eq {a b : Char} (h : a.toNat = b.toNat) : a = b := by
  apply Char.ext
  apply UInt32.ext
  exact h

theorem flatMap_textBytes_injective : ∀ l1 l2 : List Char,
    l1.flatMap (fun c => ([Fin.ofNat (c.toNat / 65536), Fin.ofNat (c.toNat / 256),
      Fin.ofNat c.toNat] : Buffer)) =
    l2.flatMap (fun c => ([Fin.ofNat (c.toNat / 65536), Fin.ofNat (c.toNat / 256),
      Fin.ofNat c.toNat] : Buffer)) → l1 = l2
  | [], [] => fun _ => rfl
  | [], _ :: _ => fun h => by simp at h
  | _ :: _, [] => fun h => by simp at h
  | a :: l1, b :: l2 => fun h => by
    simp only [List.flatMap_cons, List.cons_append, List.nil_append, List.cons.injEq] at h
    obtain ⟨h1, h2, h3, h4⟩ := h
    have ha := char_toNat_lt a
    have hb := char_toNat_lt b
    have e1 := congrArg Fin.val h1
    have e2 := congrArg Fin.val h2
    have e3 := congrArg Fin.val h3
    simp only [Fin.ofNat] at e1 e2 e3
    have : a.toNat = b.toNat := by omega
    rw [char_eq_of_toNat_eq this, flatMap_textBytes_injective l1 l2 h4]

theorem textBytes_injective {s t : String} (h : textBytes s = textBytes t) : s = t := by
  have := flatMap_textBytes_injective s.data t.data h
  exact String.ext this

theorem demoEnv_unforgeable (k m m' : String) (sig : Buffer)
    (hs : demoEnv.sign (.str k) m = .ok sig) (hne : m' ≠ m) :
    demoEnv.verify (.str k) m' sig = .ok false := by
  simp only [demoEnv, Except.ok.injEq] at hs ⊢
  subst hs
  simp only [decide_eq_false_iff_not]
  intro h
  have := textBytes_injective h
  rw [String.ext_iff] at this
  simp only [String.data_append, List.append_cancel_left_eq] at this
  exact hne (String.ext this)

/-! ## C1 — revocation and the verifier -/

/-- The verdict of `verify` does not depend on the revocation registry: the
verifier never reads it. -/
theorem verify_ignores_revocation (E : Env) (P : System) (id : String) (reason : Option String)
    (now : String) (credential : JVal) (J : String) :
    (System.verify E (P.revoke id reason) now credential J).1 =
      (System.verify E P now credential J).1 := rfl

/-- C1 (evaluation of the code at the failing input): the credential issued
in the example has id `urn:uuid:u3`; after `revokeCredential("urn:uuid:u3",
"FRAUD")` the registry reports it revoked, and `verify` against `SG` still
returns `verified = true` with status `ACTIVE`. -/
theorem revoked_credential_still_verifies :
    getProp demoCredential "id" = .ok (.str "urn:uuid:u3") ∧
    isRevoked (demoSystem.revoke "urn:uuid:u3" (some "FRAUD")).revocation "urn:uuid:u3" = true ∧
    (System.verify demoEnv (demoSystem.revoke "urn:uuid:u3" (some "FRAUD")) "t6"
        demoCredential "SG").1
      = .ok (.accepted "ACTIVE" (.str demoIssuer) (.num 99)) := by
  decide!

/-! ## C2 — issue/verify round trip -/

/-- C2: a credential returned by `issuePassport` verifies (`verified = true`,
status `ACTIVE`, issuer echoed) against every jurisdiction whose trusted set
contains the issuer or `'*'` and that has no registered schema, provided a
signature made with the issuer's private key verifies under the issuer's
public key; the text `verify` serialises (the credential minus `proof`) is
the text that was signed, and `proof.proofValue` is that signature in
hexadecimal. -/
theorem issue_verify_round_trip (E : Env) (S : VCService) (H H1 : HistoryService)
    (D : IssueDraws) (kycData : JVal) (issuerDid : String) (metadata : Fields) (zk : Bool)
    (cred : JVal) (now J : String)
    (hissue : (issuePassport E S H D kycData issuerDid metadata zk).result = .ok cred)
    (htrust : JVal.str issuerDid ∈ trustedIssuers S.trustMatrix J ∨
      JVal.str "*" ∈ trustedIssuers S.trustMatrix J)
    (hschema : S.schemas J = .missing)
    (hsig : ∀ sk pk m sig, getProp (Fields.get S.keys issuerDid) "privateKey" = .ok sk →
      getProp (Fields.get S.keys issuerDid) "publicKey" = .ok pk →
      E.sign sk m = .ok sig → E.verify pk m sig = .ok true) :
    (∃ trustScore, (verify E S H1 now cred J).result
        = .ok (.accepted "ACTIVE" (.str issuerDid) trustScore)) ∧
    (∃ sk sig, getProp (Fields.get S.keys issuerDid) "privateKey" = .ok sk ∧
      E.sign sk (payloadText (Fields.delete (ownEntries cred) "proof")) = .ok sig ∧
      (getProp cred "proof" >>= fun p => getProp p "proofValue") = .ok (.str (hexEncode sig))) := by
  obtain ⟨hkey, auditHash, zkd, subject, sk, sig, -, -, hsk, hsign, rfl⟩ := issuePassport_ok hissue
  obtain ⟨pk, hpk⟩ := getProp_truthy _ "publicKey" hkey
  have htrusted := isTrusted_of_mem S issuerDid J htrust
  have hvalid : ∀ c, validateSchema S c J = .valid := by
    intro c; simp [validateSchema, hschema]
  constructor
  · refine ⟨Fields.get subject "trustScore", ?_⟩
    rw [verify_sealed E S H1 now J D issuerDid auditHash subject sig pk true htrusted
      (hvalid _) hkey hpk (hsig sk pk _ sig hsk hpk hsign)]
    rfl
  · refine ⟨sk, sig, hsk, ?_, ?_⟩
    · simpa [ownEntries, Fields.delete, Fields.set, unsignedCredential] using hsign
    · simp [getProp, Fields.get, Fields.set, unsignedCredential, proofObject, bind, Except.bind]

/-- C2 at the example: the credential issued by `demoIssuer` verifies
against `SG`, which trusts that issuer and has no schema. -/
theorem issue_verify_round_trip_witness :
    demoIssued.result = .ok demoCredential ∧
    JVal.str demoIssuer ∈ trustedIssuers demoVC.trustMatrix "SG" ∧
    demoVC.schemas "SG" = .missing ∧
    ∃ trustScore, (verify demoEnv demoVC demoIssued.history "t6" demoCredential "SG").result
      = .ok (.accepted "ACTIVE" (.str demoIssuer) trustScore) :=
  ⟨by decide!, by decide, by decide,
    (issue_verify_round_trip demoEnv demoVC demoHistory demoIssued.history demoDraws demoKyc
      demoIssuer [] false demoCredential "t6" "SG" (by decide!) (Or.inl (by decide)) (by decide)
      (by
        intro sk pk m sig h1 h2 h3
        simp [demoVC, demoKeys, Fields.get, getProp] at h1 h2
        subst h1 h2
        simp only [demoEnv, Except.ok.injEq] at h3 ⊢
        simp [h3])).1⟩

/-! ## The serialised credential and a changed subject field -/

/-- The member `JSON.stringify` writes for property `k` with value `v`, if
it writes one. -/
theorem stringifyProps_cons (k : String) (v : JVal) (rest : Fields) :
    stringifyProps ((k, v) :: rest) =
      ((stringify v).map (fun s => quote k ++ ":" ++ s)).toList ++ stringifyProps rest := by
  cases h : stringify v <;> simp [stringifyProps, h]

theorem stringifyProps_set (subject : Fields) (k : String) (v : JVal) :
    ∃ L1 L2 : List String,
      stringifyProps subject =
        L1 ++ ((stringify (Fields.get subject k)).map (fun s => quote k ++ ":" ++ s)).toList ++ L2 ∧
      stringifyProps (Fields.set subject k v) =
        L1 ++ ((stringify v).map (fun s => quote k ++ ":" ++ s)).toList ++ L2 := by
  induction subject with
  | nil =>
    refine ⟨[], [], ?_, ?_⟩
    · simp [Fields.get, stringify, stringifyProps]
    · rw [Fields.set, stringifyProps_cons]
      simp [stringifyProps]
  | cons p rest ih =>
    obtain ⟨a, w⟩ := p
    by_cases h : a = k
    · subst h
      refine ⟨[], stringifyProps rest, ?_, ?_⟩
      · simp [Fields.get, stringifyProps_cons]
      · simp [Fields.set, stringifyProps_cons]
    · obtain ⟨L1, L2, h1, h2⟩ := ih
      refine ⟨((stringify w).map (fun s => quote a ++ ":" ++ s)).toList ++ L1, L2, ?_, ?_⟩
      · simp [Fields.get, h, stringifyProps_cons, h1]
      · simp [Fields.set, h, stringifyProps_cons, h2]

theorem joinComma_cons (a : String) (l : List String) :
    (joinComma (a :: l)).length = a.length + (joinComma l).length + (if l = [] then 0 else 1) := by
  cases l with
  | nil => simp [joinComma]
  | cons b rest =>
    have hc : ",".length = 1 := rfl
    simp only [joinComma, String.length_append, hc, reduceCtorEq, if_false]
    omega

theorem joinComma_insert_length (L1 L2 : List String) (m : String) :
    (joinComma (L1 ++ m :: L2)).length =
      (joinComma (L1 ++ L2)).length + m.length + (if L1 ++ L2 = [] then 0 else 1) := by
  induction L1 with
  | nil =>
    simp only [List.nil_append]
    rw [joinComma_cons]
    omega
  | cons a rest ih =>
    simp only [List.cons_append]
    rw [joinComma_cons, joinComma_cons, ih]
    simp only [List.append_eq_nil, reduceCtorEq, and_false, if_false, false_and]
    split <;> omega

theorem joinComma_replace (L1 L2 : List String) (x y : String)
    (h : joinComma (L1 ++ x :: L2) = joinComma (L1 ++ y :: L2)) : x = y := by
  induction L1 with
  | nil =>
    cases L2 with
    | nil => simpa [joinComma] using h
    | cons b rest =>
      simp only [List.nil_append, joinComma] at h
      have := congrArg String.data h
      simp only [String.data_append, List.append_cancel_right_eq] at this
      exact String.ext this
  | cons a rest ih =>
    apply ih
    cases rest with
    | nil =>
      simp only [List.cons_append, List.nil_append, joinComma] at h ⊢
      have := congrArg String.data h
      simp only [String.data_append, List.append_cancel_left_eq] at this
      exact String.ext this
    | cons b more =>
      simp only [List.cons_append, joinComma] at h ⊢
      have := congrArg String.data h
      simp only [String.data_append, List.append_cancel_left_eq] at this
      exact String.ext (by simpa [String.data_append] using this)

theorem quote_length_pos (k : String) : 0 < (quote k).length := by
  simp [quote, String.length]

theorem member_length_pos (k : String) (o : Option String) (m : String)
    (h : o.map (fun s => quote k ++ ":" ++ s) = some m) : 0 < m.length := by
  cases o with
  | none => simp at h
  | some s =>
    simp only [Option.map, Option.some.injEq] at h
    subst h
    simp only [String.length_append]
    have := quote_length_pos k
    omega

theorem joinComma_option (L1 L2 : List String) (o1 o2 : Option String)
    (hpos : ∀ m, o1 = some m ∨ o2 = some m → 0 < m.length)
    (h : joinComma (L1 ++ o1.toList ++ L2) = joinComma (L1 ++ o2.toList ++ L2)) : o1 = o2 := by
  cases o1 with
  | none =>
    cases o2 with
    | none => rfl
    | some y =>
      have hl := congrArg String.length h
      simp only [Option.toList, List.append_nil, List.append_assoc, List.singleton_append] at hl
      rw [joinComma_insert_length] at hl
      have := hpos y (Or.inr rfl)
      omega
  | some x =>
    cases o2 with
    | none =>
      have hl := congrArg String.length h
      simp only [Option.toList, List.append_nil, List.append_assoc, List.singleton_append] at hl
      rw [joinComma_insert_length] at hl
      have := hpos x (Or.inl rfl)
      omega
    | some y =>
      simp only [Option.toList, List.append_assoc, List.singleton_append] at h
      rw [joinComma_replace L1 L2 x y h]

/-- Assigning `v` to property `k` of an object leaves `JSON.stringify` of the
object as it was exactly when `v` and the old value of `k` (`undefined` when
`k` is absent) serialise alike. -/
theorem stringify_set_eq_iff (subject : Fields) (k : String) (v : JVal) :
    stringify (.obj (Fields.set subject k v)) = stringify (.obj subject) ↔
      stringify v = stringify (Fields.get subject k) := by
  obtain ⟨L1, L2, h1, h2⟩ := stringifyProps_set subject k v
  constructor
  · intro h
    simp only [stringify_obj, Option.some.injEq, h1, h2] at h
    have h' := congrArg String.data h
    simp only [String.data_append, List.append_cancel_left_eq, List.append_cancel_right_eq] at h'
    have hopt := joinComma_option L1 L2 _ _ (by
      intro m hm
      rcases hm with hm | hm <;> exact member_length_pos k _ m hm) (String.ext h')
    cases hv : stringify v with
    | none =>
      cases ho : stringify (Fields.get subject k) with
      | none => rfl
      | some so => simp [hv, ho] at hopt
    | some sv =>
      cases ho : stringify (Fields.get subject k) with
      | none => simp [hv, ho] at hopt
      | some so =>
        simp only [hv, ho, Option.map, Option.some.injEq] at hopt
        have := congrArg String.data hopt
        simp only [String.data_append, List.append_cancel_left_eq] at this
        rw [String.ext this]
  · intro h
    simp only [stringify_obj, h1, h2, h]

theorem stringifyProps_append (l1 l2 : Fields) :
    stringifyProps (l1 ++ l2) = stringifyProps l1 ++ stringifyProps l2 := by
  induction l1 with
  | nil => simp [stringifyProps]
  | cons p rest ih =>
    obtain ⟨k, v⟩ := p
    simp only [List.cons_append, stringifyProps_cons, ih, List.append_assoc]

/-- The serialised unsigned credential changes with the subject exactly when
the serialised subject does. -/
theorem payloadText_unsigned_eq_iff (D : IssueDraws) (issuerDid auditHash : String)
    (s1 s2 : Fields) :
    payloadText (unsignedCredential D issuerDid auditHash s1) =
      payloadText (unsignedCredential D issuerDid auditHash s2) ↔
    stringify (.obj s1) = stringify (.obj s2) := by
  have hsplit : ∀ s, unsignedCredential D issuerDid auditHash s =
      (unsignedCredential D issuerDid auditHash s).take 5 ++
        ("credentialSubject", .obj s) :: (unsignedCredential D issuerDid auditHash s).drop 6 :=
    fun s => rfl
  have hprops : ∀ s, stringifyProps (unsignedCredential D issuerDid auditHash s) =
      stringifyProps ((unsignedCredential D issuerDid auditHash []).take 5) ++
        (quote "credentialSubject" ++ ":" ++
          ("\x7b" ++ joinComma (stringifyProps s) ++ "\x7d")) ::
        stringifyProps ((unsignedCredential D issuerDid auditHash []).drop 6) := by
    intro s
    rw [hsplit s, stringifyProps_append, stringifyProps_cons, stringify_obj]
    rfl
  simp only [payloadText, stringify_obj, hprops, Option.some.injEq]
  constructor
  · intro h
    have h' := congrArg String.data h
    simp only [String.data_append, List.append_cancel_left_eq, List.append_cancel_right_eq] at h'
    have := joinComma_replace _ _ _ _ (String.ext h')
    have h2 := congrArg String.data this
    simp only [String.data_append, List.append_cancel_left_eq, List.append_cancel_right_eq] at h2
    exact String.ext (by simp [String.data_append, h2])
  · intro h
    rw [h]

/-! ## `JSON.stringify` is injective on JSON values -/

theorem digitChar_spec : ∀ k, k < 10 →
    (Nat.digitChar k).isDigit = true ∧ (Nat.digitChar k).toNat = 48 + k := by decide

theorem digitsVal_append (pre : List Char) (c : Char) :
    digitsVal (pre ++ [c]) = 10 * digitsVal pre + (c.toNat - 48) := by
  simp [digitsVal, List.foldl_append]

theorem toDigitsCore_spec : ∀ (fuel n : Nat) (ds : List Char), n < fuel →
    ∃ pre, Nat.toDigitsCore 10 fuel n ds = pre ++ ds ∧ pre ≠ [] ∧
      (∀ c ∈ pre, c.isDigit = true) ∧ digitsVal pre = n := by
  intro fuel
  induction fuel with
  | zero => intro n ds h; omega
  | succ fuel ih =>
    intro n ds h
    have hd := digitChar_spec (n % 10) (Nat.mod_lt _ (by omega))
    unfold Nat.toDigitsCore
    simp only
    split
    · rename_i h0
      refine ⟨[Nat.digitChar (n % 10)], rfl, by simp, by simpa using hd.1, ?_⟩
      simp only [digitsVal, List.foldl_cons, List.foldl_nil, hd.2]
      omega
    · rename_i h0
      obtain ⟨pre, h1, -, h3, h4⟩ := ih (n / 10) (Nat.digitChar (n % 10) :: ds) (by omega)
      refine ⟨pre ++ [Nat.digitChar (n % 10)], by simp [h1], by simp, ?_, ?_⟩
      · intro c hc
        rcases List.mem_append.mp hc with hc | hc
        · exact h3 c hc
        · simp only [List.mem_singleton] at hc
          subst hc
          exact hd.1
      · rw [digitsVal_append, h4, hd.2]
        omega

theorem natRepr_spec (n : Nat) :
    (Nat.repr n).data ≠ [] ∧ (∀ c ∈ (Nat.repr n).data, c.isDigit = true) ∧
      digitsVal (Nat.repr n).data = n := by
  obtain ⟨pre, h1, h2, h3, h4⟩ := toDigitsCore_spec (n + 1) n [] (by omega)
  simp only [List.append_nil] at h1
  simp only [Nat.repr, Nat.toDigits, List.asString, h1]
  exact ⟨h2, h3, h4⟩

/-- No decimal digit at the head: what may follow a number in a JSON text. -/
theorem digit_span : ∀ (d1 d2 r1 r2 : List Char),
    (∀ c ∈ d1, c.isDigit = true) → (∀ c ∈ d2, c.isDigit = true) →
    (∀ c, r1.head? = some c → c.isDigit = false) → (∀ c, r2.head? = some c → c.isDigit = false) →
    d1 ++ r1 = d2 ++ r2 → d1 = d2 ∧ r1 = r2
  | [], [], _, _, _, _, _, _, h => ⟨rfl, by simpa using h⟩
  | [], c :: d2, r1, r2, _, h2, t1, _, h => by
    simp only [List.nil_append, List.cons_append] at h
    have := t1 c (by simp [h])
    have := h2 c (List.mem_cons_self _ _)
    simp_all
  | c :: d1, [], r1, r2, h1, _, _, t2, h => by
    simp only [List.nil_append, List.cons_append] at h
    have := t2 c (by simp [← h])
    have := h1 c (List.mem_cons_self _ _)
    simp_all
  | c1 :: d1, c2 :: d2, r1, r2, h1, h2, t1, t2, h => by
    simp only [List.cons_append, List.cons.injEq] at h
    obtain ⟨hc, hrest⟩ := h
    obtain ⟨hd, hr⟩ := digit_span d1 d2 r1 r2
      (fun c hc => h1 c (List.mem_cons_of_mem _ hc))
      (fun c hc => h2 c (List.mem_cons_of_mem _ hc)) t1 t2 hrest
    exact ⟨by rw [hc, hd], hr⟩

theorem intText_ofNat (n : Nat) : (toString (Int.ofNat n)).data = (Nat.repr n).data := rfl

theorem intText_negSucc (n : Nat) :
    (toString (Int.negSucc n)).data = '-' :: (Nat.repr (n + 1)).data := rfl

theorem natRepr_injective {n m : Nat} (h : (Nat.repr n).data = (Nat.repr m).data) : n = m := by
  rw [← (natRepr_spec n).2.2, ← (natRepr_spec m).2.2, h]

theorem intText_span (n m : Int) (r1 r2 : List Char)
    (t1 : ∀ c, r1.head? = some c → c.isDigit = false)
    (t2 : ∀ c, r2.head? = some c → c.isDigit = false)
    (h : (toString n).data ++ r1 = (toString m).data ++ r2) : n = m ∧ r1 = r2 := by
  cases n with
  | ofNat a =>
    cases m with
    | ofNat b =>
      rw [intText_ofNat, intText_ofNat] at h
      obtain ⟨hd, hr⟩ := digit_span _ _ r1 r2 (natRepr_spec a).2.1 (natRepr_spec b).2.1 t1 t2 h
      exact ⟨by rw [natRepr_injective hd], hr⟩
    | negSucc b =>
      rw [intText_ofNat, intText_negSucc] at h
      obtain ⟨hne, hdig, -⟩ := natRepr_spec a
      cases hrep : (Nat.repr a).data with
      | nil => exact absurd hrep hne
      | cons c rest =>
        rw [hrep] at h hdig
        simp only [List.cons_append, List.cons.injEq] at h
        have := hdig c (List.mem_cons_self _ _)
        rw [h.1] at this
        exact absurd this (by decide)
  | negSucc a =>
    cases m with
    | ofNat b =>
      rw [intText_ofNat, intText_negSucc] at h
      obtain ⟨hne, hdig, -⟩ := natRepr_spec b
      cases hrep : (Nat.repr b).data with
      | nil => exact absurd hrep hne
      | cons c rest =>
        rw [hrep] at h hdig
        simp only [List.cons_append, List.cons.injEq] at h
        have := hdig c (List.mem_cons_self _ _)
        rw [← h.1] at this
        exact absurd this (by decide)
    | negSucc b =>
      rw [intText_negSucc, intText_negSucc] at h
      simp only [List.cons_append, List.cons.injEq, true_and] at h
      obtain ⟨hd, hr⟩ := digit_span _ _ r1 r2 (natRepr_spec (a + 1)).2.1
        (natRepr_spec (b + 1)).2.1 t1 t2 h
      have := natRepr_injective hd
      exact ⟨by rw [show a = b by omega], hr⟩

theorem escapeChar_head (c : Char) :
    ∃ d rest, escapeChar c = d :: rest ∧ d ≠ '"' := by
  unfold escapeChar
  split_ifs with h1 h2 h3 h4 h5 h6 h7 h8
  · exact ⟨_, _, rfl, by decide⟩
  · exact ⟨_, _, rfl, by decide⟩
  · exact ⟨_, _, rfl, by decide⟩
  · exact ⟨_, _, rfl, by decide⟩
  · exact ⟨_, _, rfl, by decide⟩
  · exact ⟨_, _, rfl, by decide⟩
  · exact ⟨_, _, rfl, by decide⟩
  · exact ⟨_, _, rfl, by decide⟩
  · exact ⟨_, _, rfl, h1⟩

theorem control_char_roundtrip : ∀ n, n < 32 →
    16 * hexDigitChars.indexOf (hexDigit (n / 16)) + hexDigitChars.indexOf (hexDigit (n % 16))
      = n := by
  decide

theorem unescapeHead_escapeChar (c : Char) (r : List Char) :
    unescapeHead (escapeChar c ++ r) = some (c, r) := by
  unfold escapeChar
  split_ifs with h1 h2 h3 h4 h5 h6 h7 h8
  · subst h1; rfl
  · subst h2; rfl
  · have : c = Char.ofNat 8 := char_eq_of_toNat_eq (by rw [h3]; rfl)
    subst this; rfl
  · have : c = Char.ofNat 9 := char_eq_of_toNat_eq (by rw [h4]; rfl)
    subst this; rfl
  · have : c = Char.ofNat 10 := char_eq_of_toNat_eq (by rw [h5]; rfl)
    subst this; rfl
  · have : c = Char.ofNat 12 := char_eq_of_toNat_eq (by rw [h6]; rfl)
    subst this; rfl
  · have : c = Char.ofNat 13 := char_eq_of_toNat_eq (by rw [h7]; rfl)
    subst this; rfl
  · have hval := control_char_roundtrip c.toNat h8
    have hc : Char.ofNat c.toNat = c := Char.ofNat_toNat c
    simp only [List.cons_append, List.nil_append, unescapeHead, if_true, Char.reduceEq,
      if_false, hval, hc]
  · simp [unescapeHead, h2]

theorem escapeChar_span (c d : Char) (r1 r2 : List Char)
    (h : escapeChar c ++ r1 = escapeChar d ++ r2) : c = d ∧ r1 = r2 := by
  have := congrArg unescapeHead h
  simpa [unescapeHead_escapeChar] using this

theorem escaped_span : ∀ (s t r1 r2 : List Char),
    s.flatMap escapeChar ++ '"' :: r1 = t.flatMap escapeChar ++ '"' :: r2 → s = t ∧ r1 = r2
  | [], [], _, _, h => ⟨rfl, by simpa using h⟩
  | [], d :: t, r1, r2, h => by
    obtain ⟨x, rest, hx, hne⟩ := escapeChar_head d
    simp [hx] at h
    exact absurd h.1.symm hne
  | c :: s, [], r1, r2, h => by
    obtain ⟨x, rest, hx, hne⟩ := escapeChar_head c
    simp [hx] at h
    exact absurd h.1 hne
  | c :: s, d :: t, r1, r2, h => by
    simp only [List.flatMap_cons, List.append_assoc] at h
    obtain ⟨hc, hrest⟩ := escapeChar_span c d _ _ h
    obtain ⟨hs, hr⟩ := escaped_span s t r1 r2 hrest
    exact ⟨by rw [hc, hs], hr⟩

theorem quote_data (s : String) : (quote s).data = '"' :: (s.data.flatMap escapeChar ++ ['"']) :=
  rfl

theorem quote_span (s t : String) (r1 r2 : List Char)
    (h : (quote s).data ++ r1 = (quote t).data ++ r2) : s = t ∧ r1 = r2 := by
  simp only [quote_data, List.cons_append, List.append_assoc, List.singleton_append,
    List.cons.injEq, true_and] at h
  obtain ⟨hs, hr⟩ := escaped_span _ _ _ _ h
  exact ⟨String.ext hs, hr⟩

theorem digit_startKind (c : Char) (h : c.isDigit = true) : startKind c = 3 := by
  have h1 : c ≠ 'n' := by rintro rfl; exact absurd h (by decide)
  have h2 : c ≠ 't' := by rintro rfl; exact absurd h (by decide)
  have h3 : c ≠ 'f' := by rintro rfl; exact absurd h (by decide)
  simp [startKind, h, h1, h2, h3]

theorem isJson_stringify (v : JVal) (h : v.isJson = true) :
    ∃ s, stringify v = some s ∧ jsonText v = s.data := by
  cases hs : stringify v with
  | none =>
    rw [(stringify_eq_none v).mp hs] at h
    simp [JVal.isJson] at h
  | some s => exact ⟨s, rfl, by simp [jsonText, hs]⟩

theorem jsonText_num (n : Int) : jsonText (.num n) = (toString n).data := by
  simp [jsonText, stringify]

theorem jsonText_str (s : String) : jsonText (.str s) = (quote s).data := by
  simp [jsonText, stringify]

theorem jsonText_arr (xs : List JVal) :
    jsonText (.arr xs) = '[' :: ((joinComma (stringifyElems xs)).data ++ [']']) := by
  simp [jsonText, stringify, String.data_append]

theorem jsonText_obj (kvs : Fields) :
    jsonText (.obj kvs) = '\x7b' :: ((joinComma (stringifyProps kvs)).data ++ ['\x7d']) := by
  simp [jsonText, stringify, String.data_append]

theorem int_head (n : Int) : ∃ c rest, (toString n).data = c :: rest ∧ startKind c = 3 := by
  cases n with
  | ofNat a =>
    obtain ⟨hne, hdig, -⟩ := natRepr_spec a
    rw [intText_ofNat]
    cases hrep : (Nat.repr a).data with
    | nil => exact absurd hrep hne
    | cons c rest =>
      rw [hrep] at hdig
      exact ⟨c, rest, rfl, digit_startKind c (hdig c (List.mem_cons_self _ _))⟩
  | negSucc a => exact ⟨'-', _, intText_negSucc a, by decide⟩

theorem jsonText_head (v : JVal) (h : v.isJson = true) :
    ∃ c rest, jsonText v = c :: rest ∧ startKind c = valueKind v := by
  cases v with
  | undefined => simp [JVal.isJson] at h
  | null => exact ⟨'n', _, rfl, by decide⟩
  | bool b =>
    cases b
    · exact ⟨'f', _, rfl, by decide⟩
    · exact ⟨'t', _, rfl, by decide⟩
  | num n =>
    rw [jsonText_num]
    exact int_head n
  | str s => exact ⟨'"', _, jsonText_str s, (by decide : startKind '"' = 4)⟩
  | arr xs => exact ⟨'[', _, jsonText_arr xs, (by decide : startKind '[' = 5)⟩
  | obj kvs => exact ⟨'\x7b', _, jsonText_obj kvs, (by decide : startKind '\x7b' = 6)⟩

/-- The text of the elements of an array, given that the first is a JSON
value: its text, then a comma and the others if there are any. -/
theorem elems_cons (x : JVal) (xs : List JVal) (h : x.isJson = true) :
    (joinComma (stringifyElems (x :: xs))).data =
      jsonText x ++ elemsTail xs := by
  obtain ⟨s, hs, ht⟩ := isJson_stringify x h
  cases xs with
  | nil => simp [stringifyElems, hs, ht, joinComma, elemsTail]
  | cons y r => simp [stringifyElems, hs, ht, joinComma, String.data_append, elemsTail]

theorem props_cons (k : String) (v : JVal) (rest : Fields) (h : v.isJson = true)
    (hrest : allJsonFields rest = true) :
    (joinComma (stringifyProps ((k, v) :: rest))).data =
      (quote k).data ++ ':' :: (jsonText v ++ propsTail rest) := by
  obtain ⟨s, hs, ht⟩ := isJson_stringify v h
  cases rest with
  | nil => simp [stringifyProps, hs, ht, joinComma, String.data_append, propsTail]
  | cons p r =>
    obtain ⟨k2, v2⟩ := p
    simp only [allJsonFields, Bool.and_eq_true] at hrest
    obtain ⟨s2, hs2, -⟩ := isJson_stringify v2 hrest.1
    simp [stringifyProps, hs, hs2, ht, joinComma, String.data_append, propsTail]

theorem elemsTail_head (xs : List JVal) (r : List Char) (c : Char)
    (h : (elemsTail xs ++ ']' :: r).head? = some c) : c.isDigit = false := by
  cases xs <;> simp [elemsTail] at h <;> subst h <;> decide

theorem propsTail_head (xs : List (String × JVal)) (r : List Char) (c : Char)
    (h : (propsTail xs ++ '\x7d' :: r).head? = some c) : c.isDigit = false := by
  cases xs <;> simp [propsTail] at h <;> subst h <;> decide

theorem kind_of_text_eq (a b : JVal) (r1 r2 : List Char) (ha : a.isJson = true)
    (hb : b.isJson = true) (h : jsonText a ++ r1 = jsonText b ++ r2) :
    valueKind a = valueKind b := by
  obtain ⟨c, rest, hc, hk⟩ := jsonText_head a ha
  obtain ⟨d, rest2, hd, hk2⟩ := jsonText_head b hb
  rw [hc, hd] at h
  simp only [List.cons_append, List.cons.injEq] at h
  rw [← hk, ← hk2, h.1]

theorem head_not_kind (v : JVal) (hv : v.isJson = true) (c : Char) (r1 r2 : List Char)
    (hc : startKind c = 0) (h : c :: r1 = jsonText v ++ r2) : False := by
  obtain ⟨d, rest, hd, hk⟩ := jsonText_head v hv
  rw [hd] at h
  simp only [List.cons_append, List.cons.injEq] at h
  rw [← h.1, hc] at hk
  cases v <;> simp [valueKind, JVal.isJson] at hk hv

mutual
/-- Two JSON values with the same text, each followed by something that is
not a digit, are the same value. -/
theorem jsonText_span : ∀ (a b : JVal) (r1 r2 : List Char),
    a.isJson = true → b.isJson = true →
    (∀ c, r1.head? = some c → c.isDigit = false) → (∀ c, r2.head? = some c → c.isDigit = false) →
    jsonText a ++ r1 = jsonText b ++ r2 → a = b ∧ r1 = r2
  | .undefined, _, _, _, ha, _, _, _, _ => by simp [JVal.isJson] at ha
  | .null, b, r1, r2, ha, hb, _, _, h => by
    have hk := kind_of_text_eq _ _ _ _ ha hb h
    cases b <;> simp only [valueKind, reduceCtorEq] at hk <;> try omega
    exact ⟨rfl, by simpa [jsonText, stringify] using h⟩
  | .bool x, b, r1, r2, ha, hb, _, _, h => by
    have hk := kind_of_text_eq _ _ _ _ ha hb h
    cases b <;> simp only [valueKind, reduceCtorEq] at hk <;> try omega
    rename_i y
    cases x <;> cases y <;> simp [jsonText, stringify] at h <;> exact ⟨rfl, h⟩
  | .num n, b, r1, r2, ha, hb, t1, t2, h => by
    have hk := kind_of_text_eq _ _ _ _ ha hb h
    cases b <;> simp only [valueKind, reduceCtorEq] at hk <;> try omega
    rename_i m
    rw [jsonText_num, jsonText_num] at h
    obtain ⟨hn, hr⟩ := intText_span n m r1 r2 t1 t2 h
    exact ⟨by rw [hn], hr⟩
  | .str s, b, r1, r2, ha, hb, _, _, h => by
    have hk := kind_of_text_eq _ _ _ _ ha hb h
    cases b <;> simp only [valueKind, reduceCtorEq] at hk <;> try omega
    rename_i t
    rw [jsonText_str, jsonText_str] at h
    obtain ⟨hs, hr⟩ := quote_span s t r1 r2 h
    exact ⟨by rw [hs], hr⟩
  | .arr xs, b, r1, r2, ha, hb, _, _, h => by
    have hk := kind_of_text_eq _ _ _ _ ha hb h
    cases b <;> simp only [valueKind, reduceCtorEq] at hk <;> try omega
    rename_i ys
    rw [jsonText_arr, jsonText_arr] at h
    simp only [List.cons_append, List.append_assoc, List.singleton_append, List.cons.injEq,
      true_and] at h
    obtain ⟨hx, hr⟩ := elems_span xs ys r1 r2 (by simpa [JVal.isJson] using ha)
      (by simpa [JVal.isJson] using hb) h
    exact ⟨by rw [hx], hr⟩
  | .obj kvs, b, r1, r2, ha, hb, _, _, h => by
    have hk := kind_of_text_eq _ _ _ _ ha hb h
    cases b <;> simp only [valueKind, reduceCtorEq] at hk <;> try omega
    rename_i kvs2
    rw [jsonText_obj, jsonText_obj] at h
    simp only [List.cons_append, List.append_assoc, List.singleton_append, List.cons.injEq,
      true_and] at h
    obtain ⟨hx, hr⟩ := props_span kvs kvs2 r1 r2 (by simpa [JVal.isJson] using ha)
      (by simpa [JVal.isJson] using hb) h
    exact ⟨by rw [hx], hr⟩
/-- The elements of two arrays of JSON values with the same text agree. -/
theorem elems_span : ∀ (xs ys : List JVal) (r1 r2 : List Char),
    allJson xs = true → allJson ys = true →
    (joinComma (stringifyElems xs)).data ++ ']' :: r1 =
      (joinComma (stringifyElems ys)).data ++ ']' :: r2 → xs = ys ∧ r1 = r2
  | [], [], _, _, _, _, h => ⟨rfl, by simpa [stringifyElems, joinComma] using h⟩
  | [], y :: ys, r1, r2, _, hb, h => by
    simp only [allJson, Bool.and_eq_true] at hb
    rw [elems_cons y ys hb.1] at h
    have he : (joinComma (stringifyElems [])).data = [] := rfl
    rw [he, List.nil_append, List.append_assoc] at h
    exact (head_not_kind y hb.1 ']' _ _ (by decide) h).elim
  | x :: xs, [], r1, r2, ha, _, h => by
    simp only [allJson, Bool.and_eq_true] at ha
    rw [elems_cons x xs ha.1] at h
    have he : (joinComma (stringifyElems [])).data = [] := rfl
    rw [he, List.nil_append, List.append_assoc] at h
    exact (head_not_kind x ha.1 ']' _ _ (by decide) h.symm).elim
  | x :: xs, y :: ys, r1, r2, ha, hb, h => by
    simp only [allJson, Bool.and_eq_true] at ha hb
    rw [elems_cons x xs ha.1, elems_cons y ys hb.1] at h
    simp only [List.append_assoc] at h
    obtain ⟨hxy, hrest⟩ := jsonText_span x y _ _ ha.1 hb.1
      (elemsTail_head xs r1) (elemsTail_head ys r2) h
    cases xs with
    | nil =>
      cases ys with
      | nil => exact ⟨by rw [hxy], by simpa [elemsTail] using hrest⟩
      | cons y2 ys2 => simp [elemsTail] at hrest
    | cons x2 xs2 =>
      cases ys with
      | nil => simp [elemsTail] at hrest
      | cons y2 ys2 =>
        simp only [elemsTail, List.cons_append, List.cons.injEq, true_and] at hrest
        obtain ⟨hl, hr⟩ := elems_span (x2 :: xs2) (y2 :: ys2) r1 r2 ha.2 hb.2 hrest
        exact ⟨by rw [hxy, hl], hr⟩
/-- The members of two objects of JSON values with the same text agree. -/
theorem props_span : ∀ (xs ys : List (String × JVal)) (r1 r2 : List Char),
    allJsonFields xs = true → allJsonFields ys = true →
    (joinComma (stringifyProps xs)).data ++ '\x7d' :: r1 =
      (joinComma (stringifyProps ys)).data ++ '\x7d' :: r2 → xs = ys ∧ r1 = r2
  | [], [], _, _, _, _, h => ⟨rfl, by simpa [stringifyProps, joinComma] using h⟩
  | [], (k, y) :: ys, r1, r2, _, hb, h => by
    simp only [allJsonFields, Bool.and_eq_true] at hb
    rw [props_cons k y ys hb.1 hb.2] at h
    have he : (joinComma (stringifyProps [])).data = [] := rfl
    rw [he] at h
    simp [quote_data] at h
  | (k, x) :: xs, [], r1, r2, ha, _, h => by
    simp only [allJsonFields, Bool.and_eq_true] at ha
    rw [props_cons k x xs ha.1 ha.2] at h
    have he : (joinComma (stringifyProps [])).data = [] := rfl
    rw [he] at h
    simp [quote_data] at h
  | (k, x) :: xs, (l, y) :: ys, r1, r2, ha, hb, h => by
    simp only [allJsonFields, Bool.and_eq_true] at ha hb
    rw [props_cons k x xs ha.1 ha.2, props_cons l y ys hb.1 hb.2] at h
    simp only [List.append_assoc] at h
    obtain ⟨hkl, h⟩ := quote_span k l _ _ h
    simp only [List.cons_append, List.cons.injEq, true_and, List.append_assoc] at h
    obtain ⟨hxy, hrest⟩ := jsonText_span x y _ _ ha.1 hb.1
      (propsTail_head xs r1) (propsTail_head ys r2) h
    cases xs with
    | nil =>
      cases ys with
      | nil => exact ⟨by rw [hkl, hxy], by simpa [propsTail] using hrest⟩
      | cons y2 ys2 => simp [propsTail] at hrest
    | cons x2 xs2 =>
      cases ys with
      | nil => simp [propsTail] at hrest
      | cons y2 ys2 =>
        simp only [propsTail, List.cons_append, List.cons.injEq, true_and] at hrest
        obtain ⟨hl, hr⟩ := props_span (x2 :: xs2) (y2 :: ys2) r1 r2 ha.2 hb.2 hrest
        exact ⟨by rw [hkl, hxy, hl], hr⟩
end

/-- On JSON values `JSON.stringify` is injective. -/
theorem stringify_injective (a b : JVal) (ha : a.isJson = true) (hb : b.isJson = true)
    (h : stringify a = stringify b) : a = b := by
  have ht : jsonText a ++ [] = jsonText b ++ [] := by simp [jsonText, h]
  exact (jsonText_span a b [] [] ha hb (by simp) (by simp) ht).1

/-- Two different values, each a JSON value or `undefined`, serialise
differently. -/
theorem stringify_ne_of_ne (v w : JVal) (hv : v = .undefined ∨ v.isJson = true)
    (hw : w = .undefined ∨ w.isJson = true) (hne : v ≠ w) : stringify v ≠ stringify w := by
  intro h
  rcases hv with rfl | hv
  · rcases hw with rfl | hw
    · exact hne rfl
    · obtain ⟨s, hs, -⟩ := isJson_stringify w hw
      simp [stringify, hs] at h
  · rcases hw with rfl | hw
    · obtain ⟨s, hs, -⟩ := isJson_stringify v hv
      simp [stringify, hs] at h
    · exact hne (stringify_injective v w hv hw h)

/-! ## C3 — tamper detection -/

theorem setSubjectField_sealed (D : IssueDraws) (issuerDid auditHash : String) (subject : Fields)
    (p : JVal) (k : String) (v : JVal) :
    setSubjectField (Fields.set (unsignedCredential D issuerDid auditHash subject) "proof" p) k v
      = Fields.set (unsignedCredential D issuerDid auditHash (Fields.set subject k v)) "proof" p := by
  simp [setSubjectField, Fields.set, Fields.get, unsignedCredential, ownEntries]

/-- C3 as amended: take a credential returned by `issuePassport` and assign
to a field `k` of its `credentialSubject` a value `v` different from the
field's current value, both being JSON values or `undefined` (the value of
an absent field). Then `verify` against a jurisdiction that trusts the
issuer and whose schema check the changed credential passes returns
`verified = false` with the reason `"Cryptographic signature invalid"`,
provided the issuer's signature is rejected on every message other than the
signed one. -/
theorem tamper_detected_when_schema_passes (E : Env) (S : VCService) (H H1 : HistoryService)
    (D : IssueDraws) (kycData : JVal) (issuerDid : String) (metadata : Fields) (zk : Bool)
    (fields : Fields) (now J k : String) (v : JVal)
    (hissue : (issuePassport E S H D kycData issuerDid metadata zk).result = .ok (.obj fields))
    (htrust : JVal.str issuerDid ∈ trustedIssuers S.trustMatrix J ∨
      JVal.str "*" ∈ trustedIssuers S.trustMatrix J)
    (hschema : validateSchema S (.obj (setSubjectField fields k v)) J = .valid)
    (hunf : ∀ sk pk m sig m', getProp (Fields.get S.keys issuerDid) "privateKey" = .ok sk →
      getProp (Fields.get S.keys issuerDid) "publicKey" = .ok pk →
      E.sign sk m = .ok sig → m' ≠ m → E.verify pk m' sig = .ok false)
    (hnew : v = .undefined ∨ v.isJson = true)
    (hold : Fields.get (ownEntries (Fields.get fields "credentialSubject")) k = .undefined ∨
      (Fields.get (ownEntries (Fields.get fields "credentialSubject")) k).isJson = true)
    (hchange : v ≠ Fields.get (ownEntries (Fields.get fields "credentialSubject")) k) :
    (verify E S H1 now (.obj (setSubjectField fields k v)) J).result
      = .ok (.rejected "Cryptographic signature invalid") := by
  obtain ⟨hkey, auditHash, zkd, subject, sk, sig, -, -, hsk, hsign, hc⟩ := issuePassport_ok hissue
  obtain ⟨pk, hpk⟩ := getProp_truthy _ "publicKey" hkey
  have htrusted := isTrusted_of_mem S issuerDid J htrust
  injection hc with hc
  subst hc
  have hsubj : ownEntries (Fields.get (Fields.set (unsignedCredential D issuerDid auditHash subject)
      "proof" (proofObject D issuerDid sig)) "credentialSubject") = subject := by
    simp [Fields.get, Fields.set, unsignedCredential, ownEntries]
  rw [hsubj] at hchange hold
  have htext : payloadText (unsignedCredential D issuerDid auditHash (Fields.set subject k v)) ≠
      payloadText (unsignedCredential D issuerDid auditHash subject) := by
    rw [ne_eq, payloadText_unsigned_eq_iff, stringify_set_eq_iff]
    exact stringify_ne_of_ne v _ hnew hold hchange
  rw [setSubjectField_sealed] at hschema ⊢
  rw [verify_sealed E S H1 now J D issuerDid auditHash (Fields.set subject k v) sig pk false
    htrusted hschema hkey hpk (hunf sk pk _ sig _ hsk hpk hsign htext)]
  rfl

/-- C3 at the example: the test's tampering (`riskLevel = "HIGH"` added to
the subject) is rejected by `SG` with the invalid-signature reason. -/
theorem tamper_detected_witness :
    (verify demoEnv demoVC demoIssued.history "t6"
        (.obj (setSubjectField (ownEntries demoCredential) "riskLevel" (.str "HIGH"))) "SG").result
      = .ok (.rejected "Cryptographic signature invalid") :=
  tamper_detected_when_schema_passes demoEnv demoVC demoHistory demoIssued.history demoDraws
    demoKyc demoIssuer [] false (ownEntries demoCredential) "t6" "SG" "riskLevel" (.str "HIGH")
    (by decide!) (Or.inl (by decide)) (by decide!)
    (by
      intro sk pk m sig m' h1 h2 h3 h4
      simp [demoVC, demoKeys, Fields.get, getProp] at h1 h2
      subst h1 h2
      exact demoEnv_unforgeable _ _ _ _ h3 h4)
    (Or.inr (by decide)) (Or.inl (by decide!)) (by decide!)

/-- C3 as stated fails (counterexample): the issued example credential,
with `credentialSubject.legalName` changed to the empty string, is verified
against `KY`, which trusts the issuer and registers a schema requiring
`legalName`. The toy signature scheme rejects every message but the signed
one, yet the reason returned is the schema mismatch, not the invalid
signature. -/
theorem tamper_reports_schema_mismatch :
    demoIssued.result = .ok demoCredential ∧
    JVal.str demoIssuer ∈ trustedIssuers demoVC.trustMatrix "KY" ∧
    (∀ m sig m', demoEnv.sign (.str "k1") m = .ok sig → m' ≠ m →
      demoEnv.verify (.str "k1") m' sig = .ok false) ∧
    (verify demoEnv demoVC demoIssued.history "t6"
        (.obj (setSubjectField (ownEntries demoCredential) "legalName" (.str ""))) "KY").result
      = .ok (.rejected "Schema mismatch: Missing required field: legalName") ∧
    (verify demoEnv demoVC demoIssued.history "t6"
        (.obj (setSubjectField (ownEntries demoCredential) "legalName" (.str ""))) "KY").result
      ≠ .ok (.rejected "Cryptographic signature invalid") := by
  refine ⟨by decide!, by decide, fun m sig m' h1 h2 => demoEnv_unforgeable _ _ _ _ h1 h2,
    by decide!, by decide!⟩

/-- A change that the serialisation does not show is not detected: adding a
property whose value is `undefined` to the subject of the example
credential leaves `JSON.stringify` of the document as it was, and the
credential still verifies. -/
theorem tamper_undefined_undetected :
    (verify demoEnv demoVC demoIssued.history "t6"
        (.obj (setSubjectField (ownEntries demoCredential) "riskLevel" .undefined)) "SG").result
      = .ok (.accepted "ACTIVE" (.str demoIssuer) (.num 99)) := by
  decide!

/-! ## C4, C5 — trust enforcement and the order of the checks -/

theorem acceptCredential_not_rejected (E : Env) (H : HistoryService) (now : String)
    (credential issuerDid : JVal) (J r : String) :
    (acceptCredential E H now credential issuerDid J).result ≠ .ok (.rejected r) := by
  unfold acceptCredential
  split
  · simp
  · split
    · simp
    · simp only [bind, Except.bind, pure, Except.pure]
      split
      · simp
      · split <;> simp

theorem schema_reason_ne (e J : String) :
    "Schema mismatch: " ++ e ≠ "Issuer not trusted in " ++ J := by
  intro h
  have := congrArg String.data h
  simp [String.data_append] at this

theorem unknown_reason_ne (J : String) :
    "Issuer Unknown (Key not found)" ≠ "Issuer not trusted in " ++ J := by
  intro h
  have := congrArg String.data h
  simp [String.data_append] at this

theorem signature_reason_ne (J : String) :
    "Cryptographic signature invalid" ≠ "Issuer not trusted in " ++ J := by
  intro h
  have := congrArg String.data h
  simp [String.data_append] at this

theorem verify_untrusted (E : Env) (S : VCService) (H : HistoryService) (now : String)
    (fields : Fields) (J : String) (h : isTrusted S (Fields.get fields "issuer") J = .ok false) :
    verify E S H now (.obj fields) J =
      { result := .ok (.rejected ("Issuer not trusted in " ++ J)), history := H } := by
  simp [verify, getProp, h]

/-- A credential is verified against a jurisdiction that has no entry in the
trust registry and is named like a member of `Object.prototype`:
`trustedIssuers.includes` is not a function, and `verify` throws a
`TypeError` where an unknown jurisdiction is meant to trust nobody. -/
theorem verify_inherited_jurisdiction (E : Env) (S : VCService) (H : HistoryService)
    (now : String) (fields : Fields) (J : String)
    (h : inheritsTrustEntry S.trustMatrix J = true) :
    verify E S H now (.obj fields) J = { result := .error .typeError, history := H } := by
  simp [verify, getProp, isTrusted, h]

theorem inheritsTrustEntry_iff (T : TrustMatrix) (J : String) :
    inheritsTrustEntry T J = true ↔ T.lookup J = none ∧ J ∈ objectPrototypeNames := by
  simp [inheritsTrustEntry, inheritedMember_truthy]

theorem isTrusted_of_own (S : VCService) (issuerDid : JVal) (J : String)
    (h : inheritsTrustEntry S.trustMatrix J = false) :
    isTrusted S issuerDid J =
      .ok (JVal.includes (trustedIssuers S.trustMatrix J) (.str "*") ||
        JVal.includes (trustedIssuers S.trustMatrix J) issuerDid) := by
  simp [isTrusted, h]

/-- With a public key that is `undefined` the signature test throws. -/
theorem checkSignature_undefined (E : Env) (credential : JVal) :
    ∃ e, checkSignature E .undefined credential = .error e := by
  unfold checkSignature
  cases h1 : getProp credential "proof" with
  | error e => exact ⟨e, by simp [bind, Except.bind]⟩
  | ok proof =>
    cases h2 : getProp proof "proofValue" with
    | error e => exact ⟨e, by simp [bind, Except.bind, h2]⟩
    | ok proofValue =>
      cases h3 : bufferFromHex proofValue with
      | error e => exact ⟨e, by simp [bind, Except.bind, h2, h3]⟩
      | ok sig =>
        exact ⟨.cryptoError, by simp [bind, Except.bind, h2, h3, E.verify_requires_key]⟩

theorem verify_trusted_reason (E : Env) (S : VCService) (H : HistoryService) (now : String)
    (fields : Fields) (J : String) (h : isTrusted S (Fields.get fields "issuer") J = .ok true) :
    (verify E S H now (.obj fields) J).result ≠ .ok (.rejected ("Issuer not trusted in " ++ J)) := by
  simp only [verify, getProp, h]
  cases hs : validateSchema S (.obj fields) J with
  | invalid e =>
    simp only [ne_eq, Except.ok.injEq, Verdict.rejected.injEq]
    exact schema_reason_ne _ _
  | valid =>
    simp only
    cases hk : (Fields.member S.keys (Fields.get fields "issuer").jsToString).truthy with
    | false =>
      simp only [Bool.not_false, if_true, ne_eq, Except.ok.injEq, Verdict.rejected.injEq]
      exact unknown_reason_ne _
    | true =>
      simp only [Bool.not_true, Bool.false_eq_true, if_false]
      split
      · simp
      · split
        · simp
        · simp only [ne_eq, Except.ok.injEq, Verdict.rejected.injEq]
          exact signature_reason_ne _
        · exact acceptCredential_not_rejected _ _ _ _ _ _ _

/-- Where C4 holds: for every credential object and every jurisdiction `J`
that has an entry of its own in the trust registry or is not named like a
member of `Object.prototype`, `verify` returns `verified = false` with the
reason `Issuer not trusted in J` exactly when the trusted set of `J`
includes neither the credential's issuer nor `'*'`, whatever the schema, the
keystore and the signature are; for an issuer that is a string, inclusion is
membership; the trusted set of a jurisdiction missing from the trust matrix
is empty; and with `'*'` in the set no credential is rejected for want of
trust. -/
theorem trust_enforcement (E : Env) (S : VCService) (H : HistoryService) (now : String)
    (fields : Fields) (J : String) (hown : inheritsTrustEntry S.trustMatrix J = false) :
    ((verify E S H now (.obj fields) J).result = .ok (.rejected ("Issuer not trusted in " ++ J)) ↔
      JVal.includes (trustedIssuers S.trustMatrix J) (Fields.get fields "issuer") = false ∧
      JVal.str "*" ∉ trustedIssuers S.trustMatrix J) ∧
    (∀ s, Fields.get fields "issuer" = .str s →
      (JVal.includes (trustedIssuers S.trustMatrix J) (Fields.get fields "issuer") = false ↔
        JVal.str s ∉ trustedIssuers S.trustMatrix J)) ∧
    (S.trustMatrix.lookup J = none → trustedIssuers S.trustMatrix J = []) ∧
    (JVal.str "*" ∈ trustedIssuers S.trustMatrix J →
      (verify E S H now (.obj fields) J).result
        ≠ .ok (.rejected ("Issuer not trusted in " ++ J))) := by
  have hval := isTrusted_of_own S (Fields.get fields "issuer") J hown
  have key : isTrusted S (Fields.get fields "issuer") J = .ok false ↔
      JVal.includes (trustedIssuers S.trustMatrix J) (Fields.get fields "issuer") = false ∧
      JVal.str "*" ∉ trustedIssuers S.trustMatrix J := by
    rw [hval, ← includes_str_iff]
    simp only [Except.ok.injEq, Bool.or_eq_false_iff, Bool.not_eq_true]
    exact And.comm
  refine ⟨?_, ?_, ?_, ?_⟩
  · constructor
    · intro h
      rw [← key]
      by_contra hc
      have ht : isTrusted S (Fields.get fields "issuer") J = .ok true := by
        rw [hval] at hc ⊢
        simp only [Except.ok.injEq] at hc ⊢
        cases hb : (JVal.includes (trustedIssuers S.trustMatrix J) (.str "*") ||
          JVal.includes (trustedIssuers S.trustMatrix J) (Fields.get fields "issuer")) with
        | true => rfl
        | false => exact absurd hb hc
      exact verify_trusted_reason E S H now fields J ht h
    · intro h
      rw [verify_untrusted E S H now fields J (key.mpr h)]
  · intro s hs
    rw [hs, ← includes_str_iff]
    simp
  · intro h
    simp [trustedIssuers, h]
  · intro h
    apply verify_trusted_reason
    rw [hval]
    simp only [Except.ok.injEq, Bool.or_eq_true, includes_str_iff]
    exact Or.inl h

/-- The trust check at examples: `UK` trusts another issuer only, so the
example credential is rejected there for want of trust; `UAE` holds `'*'`,
so it is not. -/
theorem trust_enforcement_examples :
    (verify demoEnv demoVC demoIssued.history "t6" (.obj (ownEntries demoCredential)) "UK").result
      = .ok (.rejected ("Issuer not trusted in " ++ "UK")) ∧
    (verify demoEnv demoVC demoIssued.history "t6" (.obj (ownEntries demoCredential)) "UAE").result
      ≠ .ok (.rejected ("Issuer not trusted in " ++ "UAE")) :=
  ⟨(trust_enforcement demoEnv demoVC demoIssued.history "t6" (ownEntries demoCredential) "UK"
      (by decide)).1.mpr ⟨by decide!, by decide⟩,
    (trust_enforcement demoEnv demoVC demoIssued.history "t6" (ownEntries demoCredential)
      "UAE" (by decide)).2.2.2 (by decide)⟩

/-- C4 (evaluation of the code at the failing input): the trust registry
of the examples has no entry for the jurisdiction `constructor`, so its
trusted set is empty and holds neither the issuer nor `'*'`; `verify` of
the example credential against it throws a `TypeError` and returns no
verdict, while against `nowhere`, which has no entry either, it returns
`Issuer not trusted in nowhere`. -/
theorem trust_check_throws_for_inherited_jurisdiction :
    demoVC.trustMatrix.lookup "constructor" = none ∧
    trustedIssuers demoVC.trustMatrix "constructor" = [] ∧
    (verify demoEnv demoVC demoIssued.history "t6" demoCredential "constructor").result
      = .error .typeError ∧
    (verify demoEnv demoVC demoIssued.history "t6" demoCredential "toString").result
      = .error .typeError ∧
    (verify demoEnv demoVC demoIssued.history "t6" demoCredential "__proto__").result
      = .error .typeError ∧
    demoVC.trustMatrix.lookup "nowhere" = none ∧
    (verify demoEnv demoVC demoIssued.history "t6" demoCredential "nowhere").result
      = .ok (.rejected ("Issuer not trusted in " ++ "nowhere")) := by
  refine ⟨by decide, by decide, by decide!, by decide!, by decide!, by decide, by decide!⟩

/-- Where the order of C5 holds: the reason `verify` returns is that of the
first failing check in the order trust, schema, issuer key, signature. For
every credential object: an untrusted issuer gives the trust reason; a
trusted issuer with a failing schema check gives the schema reason, whatever
the keystore and the signature are; a trusted issuer with a passing schema
for whom the read of the keystore finds nothing truthy gives `Issuer Unknown
(Key not found)`, whatever the signature is; and only with trust, schema and
key in order does a failing signature give `Cryptographic signature
invalid`. No failing check changes the ledger. -/
theorem check_order (E : Env) (S : VCService) (H : HistoryService) (now : String)
    (fields : Fields) (J : String) :
    (isTrusted S (Fields.get fields "issuer") J = .ok false →
      verify E S H now (.obj fields) J =
        { result := .ok (.rejected ("Issuer not trusted in " ++ J)), history := H }) ∧
    (∀ e, isTrusted S (Fields.get fields "issuer") J = .ok true →
      validateSchema S (.obj fields) J = .invalid e →
      verify E S H now (.obj fields) J =
        { result := .ok (.rejected ("Schema mismatch: " ++ e)), history := H }) ∧
    (isTrusted S (Fields.get fields "issuer") J = .ok true →
      validateSchema S (.obj fields) J = .valid →
      (Fields.member S.keys (Fields.get fields "issuer").jsToString).truthy = false →
      verify E S H now (.obj fields) J =
        { result := .ok (.rejected "Issuer Unknown (Key not found)"), history := H }) ∧
    (∀ pk, isTrusted S (Fields.get fields "issuer") J = .ok true →
      validateSchema S (.obj fields) J = .valid →
      (Fields.member S.keys (Fields.get fields "issuer").jsToString).truthy = true →
      (Fields.member S.keys (Fields.get fields "issuer").jsToString).prop "publicKey" = .ok pk →
      checkSignature E pk (.obj fields) = .ok false →
      verify E S H now (.obj fields) J =
        { result := .ok (.rejected "Cryptographic signature invalid"), history := H }) := by
  refine ⟨verify_untrusted E S H now fields J, ?_, ?_, ?_⟩
  · intro e ht hs
    simp [verify, getProp, ht, hs]
  · intro ht hs hk
    simp [verify, getProp, ht, hs, hk]
  · intro pk ht hs hk hpk hc
    simp [verify, getProp_obj, ht, hs, hk, hpk, hc]

/-- The issuer-key check, by what the keystore holds: an issuer without a
keystore entry whose id is not the name of a member of `Object.prototype`
is answered `Issuer Unknown (Key not found)`; an issuer without a keystore
entry whose id is such a name passes the key check, and `verify` throws
when it comes to the signature. -/
theorem issuer_key_check (E : Env) (S : VCService) (H : HistoryService) (now : String)
    (fields : Fields) (J issuerDid : String)
    (hissuer : Fields.get fields "issuer" = .str issuerDid)
    (ht : isTrusted S (.str issuerDid) J = .ok true)
    (hs : validateSchema S (.obj fields) J = .valid)
    (hkey : issuerDid ∉ Fields.keys S.keys) :
    (issuerDid ∉ objectPrototypeNames →
      verify E S H now (.obj fields) J =
        { result := .ok (.rejected "Issuer Unknown (Key not found)"), history := H }) ∧
    (issuerDid ∈ objectPrototypeNames →
      ∃ e, verify E S H now (.obj fields) J = { result := .error e, history := H }) := by
  have hm := member_of_not_mem S.keys issuerDid hkey
  constructor
  · intro hn
    have hf : (Fields.member S.keys issuerDid).truthy = false := by
      rw [hm, inheritedMember_truthy]
      simpa using hn
    simp [verify, getProp_obj, hissuer, ht, hs, JVal.jsToString, hf]
  · intro hn
    have htr : (Fields.member S.keys issuerDid).truthy = true := by
      rw [hm, inheritedMember_truthy]
      simpa using hn
    have hp : (Fields.member S.keys issuerDid).prop "publicKey" = .ok .undefined := by
      rw [hm]
      exact inheritedMember_prop true issuerDid "publicKey" (by rw [← hm]; exact htr)
    obtain ⟨e, he⟩ := checkSignature_undefined E (.obj fields)
    exact ⟨e, by simp [verify, getProp_obj, hissuer, ht, hs, JVal.jsToString, htr, hp, he]⟩

/-- The order of the checks at examples, one per check: an untrusted issuer
(`UK`); a trusted issuer whose changed credential fails the schema of `KY`;
an issuer without a key at `UAE`, which trusts everyone; and a changed
credential at `SG`. -/
theorem check_order_examples :
    verify demoEnv demoVC demoIssued.history "t6" (.obj (ownEntries demoCredential)) "UK" =
      { result := .ok (.rejected ("Issuer not trusted in " ++ "UK")),
        history := demoIssued.history } ∧
    verify demoEnv demoVC demoIssued.history "t6"
        (.obj (setSubjectField (ownEntries demoCredential) "legalName" (.str ""))) "KY" =
      { result := .ok (.rejected ("Schema mismatch: " ++ "Missing required field: legalName")),
        history := demoIssued.history } ∧
    verify demoEnv demoVC demoIssued.history "t6" (.obj [("issuer", .str "did:web:unknown.ae")])
        "UAE" =
      { result := .ok (.rejected "Issuer Unknown (Key not found)"),
        history := demoIssued.history } ∧
    verify demoEnv demoVC demoIssued.history "t6"
        (.obj (setSubjectField (ownEntries demoCredential) "riskLevel" (.str "HIGH"))) "SG" =
      { result := .ok (.rejected "Cryptographic signature invalid"),
        history := demoIssued.history } :=
  ⟨(check_order demoEnv demoVC demoIssued.history "t6" (ownEntries demoCredential) "UK").1
      (by decide!),
    (check_order demoEnv demoVC demoIssued.history "t6"
      (setSubjectField (ownEntries demoCredential) "legalName" (.str "")) "KY").2.1
      "Missing required field: legalName" (by decide!) (by decide!),
    (check_order demoEnv demoVC demoIssued.history "t6" [("issuer", .str "did:web:unknown.ae")]
      "UAE").2.2.1 (by decide) (by decide) (by decide),
    (check_order demoEnv demoVC demoIssued.history "t6"
      (setSubjectField (ownEntries demoCredential) "riskLevel" (.str "HIGH")) "SG").2.2.2
      (.str "k1") (by decide!) (by decide!) (by decide!) (by decide!) (by decide!)⟩

/-- C5 (evaluation of the code at the failing input): the example
credential with its issuer changed to `constructor`, an id without a
keystore entry, is verified against `UAE`, which trusts every issuer and
registers no schema. The key check is not the one that fails: the read
`this.keys['constructor']` finds the inherited function, `verify` goes on
to the signature and throws, and no reason is returned. With the issuer
`did:web:unknown.ae`, which has no keystore entry either, the reason is
`Issuer Unknown (Key not found)`. -/
theorem inherited_issuer_id_passes_key_check :
    "constructor" ∉ Fields.keys demoVC.keys ∧
    JVal.str "*" ∈ trustedIssuers demoVC.trustMatrix "UAE" ∧
    demoVC.schemas "UAE" = .missing ∧
    (Fields.member demoVC.keys "constructor").truthy = true ∧
    (verify demoEnv demoVC demoIssued.history "t6"
        (.obj (Fields.set (ownEntries demoCredential) "issuer" (.str "constructor"))) "UAE").result
      = .error .cryptoError ∧
    "did:web:unknown.ae" ∉ Fields.keys demoVC.keys ∧
    (verify demoEnv demoVC demoIssued.history "t6"
        (.obj (Fields.set (ownEntries demoCredential) "issuer" (.str "did:web:unknown.ae")))
        "UAE").result
      = .ok (.rejected "Issuer Unknown (Key not found)") := by
  refine ⟨by decide, by decide, by decide, by decide, by decide!, by decide, by decide!⟩

/-! ## C6 — selective disclosure -/

theorem mem_keys_set (o : Fields) (k k' : String) (v : JVal) :
    k ∈ Fields.keys (Fields.set o k' v) ↔ k = k' ∨ k ∈ Fields.keys o := by
  induction o with
  | nil => simp [Fields.set, Fields.keys]
  | cons p rest ih =>
    obtain ⟨a, w⟩ := p
    simp only [Fields.set]
    split
    · rename_i h
      subst h
      simp only [Fields.keys, List.map_cons, List.mem_cons]
      tauto
    · simp only [Fields.keys, List.map_cons, List.mem_cons] at ih ⊢
      rw [ih]
      tauto

theorem mem_keys_spread (extra base : Fields) (k : String) :
    k ∈ Fields.keys (Fields.spread base extra) ↔ k ∈ Fields.keys base ∨ k ∈ Fields.keys extra := by
  induction extra generalizing base with
  | nil => simp [Fields.spread, Fields.keys]
  | cons p rest ih =>
    have := ih (Fields.set base p.1 p.2)
    simp only [Fields.spread, List.foldl_cons] at this ⊢
    rw [this, mem_keys_set]
    simp only [Fields.keys, List.map_cons, List.mem_cons]
    tauto

theorem mem_keys_assembleSubject (D : IssueDraws) (did legalName : JVal) (metadata : Fields)
    (k : String) :
    k ∈ Fields.keys (assembleSubject D did legalName metadata) ↔
      k ∈ ["id", "legalName", "complianceLevel", "trustScore"] ∨ k ∈ Fields.keys metadata := by
  rw [assembleSubject, mem_keys_spread]
  simp [Fields.keys]

theorem mem_keys_discloseSubject (subject : Fields) (request : List JVal) (k : String) :
    k ∈ Fields.keys (discloseSubject subject (.arr request)) ↔
      (k = "id" ∨ k = "trustScore" ∨ k = "complianceLevel" ∨ JVal.str k ∈ request) ∧
        k ∈ Fields.keys subject := by
  simp only [discloseSubject, Fields.keys, List.mem_map, List.mem_filter, includes_str_iff,
    allowedKeys, List.mem_append, List.mem_cons, JVal.str.injEq, List.mem_singleton,
    List.not_mem_nil, or_false]
  constructor
  · rintro ⟨p, ⟨hp, ha⟩, rfl⟩
    exact ⟨by tauto, p, hp, rfl⟩
  · rintro ⟨ha, p, hp, rfl⟩
    exact ⟨p, ⟨hp, by tauto⟩, rfl⟩

theorem requestZkProof_ok {E : Env} {D : IssueDraws} {kycData : JVal} {issuerDid : String}
    {zk : Bool} {zkd : Option JVal} (h : requestZkProof E D kycData issuerDid zk = .ok zkd) :
    zkd.isSome = zk := by
  unfold requestZkProof at h
  cases zk with
  | false => simp at h; subst h; rfl
  | true =>
    simp only [if_true, bind_eq_ok, pure, Except.pure, Except.ok.injEq] at h
    obtain ⟨_, _, _, _, rfl⟩ := h
    rfl

/-- C6 as amended: when `kycData.disclosureRequest` is an array `S` and
`issuePassport` returns a credential, the text that was signed is the
serialisation of a document whose `credentialSubject` has exactly these
keys: the keys of the assembled subject (`id`, `legalName`,
`complianceLevel`, `trustScore` and the keys of the jurisdiction metadata)
that are `id`, `trustScore`, `complianceLevel` or a string of `S`, and in
addition `zkSolvency` whenever a solvency proof was requested. The three
mandatory keys are always present, and the returned credential carries the
same subject. -/
theorem selective_disclosure (E : Env) (S : VCService) (H : HistoryService) (D : IssueDraws)
    (kycData : JVal) (issuerDid : String) (metadata : Fields) (zk : Bool) (cred : JVal)
    (request : List JVal)
    (hreq : getProp kycData "disclosureRequest" = .ok (.arr request))
    (hissue : (issuePassport E S H D kycData issuerDid metadata zk).result = .ok cred) :
    ∃ auditHash subject sk sig,
      E.sign sk (payloadText (unsignedCredential D issuerDid auditHash subject)) = .ok sig ∧
      getProp cred "credentialSubject" = .ok (.obj subject) ∧
      (∀ k, k ∈ Fields.keys subject ↔
        ((k = "id" ∨ k = "trustScore" ∨ k = "complianceLevel" ∨ JVal.str k ∈ request) ∧
          (k ∈ ["id", "legalName", "complianceLevel", "trustScore"] ∨ k ∈ Fields.keys metadata)) ∨
        (zk = true ∧ k = "zkSolvency")) ∧
      "id" ∈ Fields.keys subject ∧ "trustScore" ∈ Fields.keys subject ∧
      "complianceLevel" ∈ Fields.keys subject := by
  obtain ⟨-, auditHash, zkd, subject, sk, sig, hz, hs, -, hsign, rfl⟩ := issuePassport_ok hissue
  have hzk := requestZkProof_ok hz
  have hkeys : ∀ k, k ∈ Fields.keys subject ↔
      ((k = "id" ∨ k = "trustScore" ∨ k = "complianceLevel" ∨ JVal.str k ∈ request) ∧
        (k ∈ ["id", "legalName", "complianceLevel", "trustScore"] ∨ k ∈ Fields.keys metadata)) ∨
      (zk = true ∧ k = "zkSolvency") := by
    intro k
    simp only [buildSubject, bind_eq_ok, hreq, Except.ok.injEq] at hs
    obtain ⟨did, -, legalName, -, dr, rfl, hs⟩ := hs
    cases zkd with
    | none =>
      simp only [attachZk, Except.ok.injEq] at hs
      subst hs
      have : zk = false := by simpa using hzk.symm
      subst this
      rw [mem_keys_discloseSubject, mem_keys_assembleSubject]
      simp
    | some z =>
      simp only [attachZk, bind_eq_ok, pure, Except.pure, Except.ok.injEq] at hs
      obtain ⟨_, -, _, -, rfl⟩ := hs
      have : zk = true := by simpa using hzk.symm
      subst this
      rw [mem_keys_set, mem_keys_discloseSubject, mem_keys_assembleSubject]
      simp only [true_and]
      tauto
  refine ⟨auditHash, subject, sk, sig, hsign, ?_, hkeys, ?_, ?_, ?_⟩
  · simp [getProp_obj, Fields.get, Fields.set, unsignedCredential]
  · rw [hkeys]; simp
  · rw [hkeys]; simp
  · rw [hkeys]; simp

/-- C6 at the example: `legalName` is requested, the metadata key `region`
is not, and a solvency proof is requested. -/
theorem selective_disclosure_witness :
    ∃ auditHash subject sk sig,
      demoEnv.sign sk (payloadText (unsignedCredential demoDraws demoIssuer auditHash subject))
        = .ok sig ∧
      getProp demoCredentialZk "credentialSubject" = .ok (.obj subject) ∧
      (∀ k, k ∈ Fields.keys subject ↔
        ((k = "id" ∨ k = "trustScore" ∨ k = "complianceLevel" ∨
            JVal.str k ∈ [JVal.str "legalName"]) ∧
          (k ∈ ["id", "legalName", "complianceLevel", "trustScore"] ∨
            k ∈ Fields.keys [("region", JVal.str "APAC")])) ∨
        (true = true ∧ k = "zkSolvency")) ∧
      "id" ∈ Fields.keys subject ∧ "trustScore" ∈ Fields.keys subject ∧
      "complianceLevel" ∈ Fields.keys subject :=
  selective_disclosure demoEnv demoVC demoHistory demoDraws demoKycDisclose demoIssuer
    [("region", .str "APAC")] true demoCredentialZk [.str "legalName"] (by decide)
    (ok_of_isOk demoIssuedZk.result (by decide!))

/-- C6 as stated fails (counterexample): with `disclosureRequest =
["legalName"]` and a solvency proof requested, the subject of the issued
credential has the keys `id`, `legalName`, `complianceLevel`, `trustScore`
and `zkSolvency`; `zkSolvency` is neither requested nor mandatory. -/
theorem disclosure_keeps_zkSolvency :
    getProp demoKycDisclose "disclosureRequest" = .ok (.arr [.str "legalName"]) ∧
    subjectKeys demoIssuedZk
      = .ok ["id", "legalName", "complianceLevel", "trustScore", "zkSolvency"] ∧
    "zkSolvency" ∉ ["legalName", "id", "trustScore", "complianceLevel"] := by
  refine ⟨by decide, by decide!, by decide⟩

/-! ## C7 — chain integrity -/

theorem tipHash_append (prev : Option String) (blocks : List Block) (b : Block) :
    tipHash prev (blocks ++ [b]) = some b.block_hash := by
  simp [tipHash, List.foldl_append]

theorem chainFrom_append (E : Env) (blocks : List Block) (b : Block) :
    ∀ (start : Nat) (prev : Option String),
      ChainFrom E start prev (blocks ++ [b]) ↔
        ChainFrom E start prev blocks ∧ b.sequence = start + blocks.length ∧
          b.block_hash = calculateBlockHash E b.toBlockFields ∧
          b.previous_hash = tipHash prev blocks := by
  induction blocks with
  | nil => intro start prev; simp [ChainFrom, tipHash]
  | cons a rest ih =>
    intro start prev
    have htip : tipHash prev (a :: rest) = tipHash (some a.block_hash) rest := rfl
    rw [List.cons_append, htip]
    show (_ ∧ _ ∧ _ ∧ ChainFrom E (start + 1) (some a.block_hash) (rest ++ [b])) ↔
      (_ ∧ _ ∧ _ ∧ ChainFrom E (start + 1) (some a.block_hash) rest) ∧ _
    rw [ih, List.length_cons]
    constructor
    · rintro ⟨h1, h2, h3, h4, h5, h6, h7⟩
      exact ⟨⟨h1, h2, h3, h4⟩, by omega, h6, h7⟩
    · rintro ⟨⟨h1, h2, h3, h4⟩, h5, h6, h7⟩
      exact ⟨h1, h2, h3, h4, by omega, h6, h7⟩

theorem ledgerInv_fresh (E : Env) (now : String) :
    LedgerInv E (initializeLedger E now none) := by
  simp [LedgerInv, initializeLedger, tipHash, ChainFrom, genesisBlock, genesisFields]

theorem ledgerInv_logStep (E : Env) (H : HistoryService) (c : LogCall) (h : LedgerInv E H) :
    LedgerInv E (logStep E H c) := by
  unfold logStep logEvent
  cases hs : stringify c.dataContext with
  | none => exact h
  | some text =>
    obtain ⟨h1, h2, h3⟩ := h
    refine ⟨by simp, ?_, ?_⟩
    · simp [tipHash_append]
    · simp only
      rw [chainFrom_append]
      exact ⟨h3, by simp [newBlockFields], rfl, by simp [newBlockFields, h2]⟩

theorem ledgerInv_logEvents (E : Env) (calls : List LogCall) :
    ∀ H, LedgerInv E H → LedgerInv E (logEvents E H calls) := by
  induction calls with
  | nil => intro H h; exact h
  | cons c rest ih =>
    intro H h
    exact ih _ (ledgerInv_logStep E H c h)

/-- A call of `logEvent` returns unless its data context is `undefined`:
then `JSON.stringify` gives `undefined`, the hash refuses it, and the call
throws, leaving the ledger as it was. -/
theorem logEvent_returns_iff (E : Env) (H : HistoryService) (c : LogCall) :
    (∃ r, logEvent E H c.now c.eventType c.dataContext c.jurisdiction = .ok r) ↔
      c.dataContext ≠ .undefined := by
  unfold logEvent
  cases hs : stringify c.dataContext with
  | none => simp [(stringify_eq_none _).mp hs]
  | some text =>
    have : c.dataContext ≠ .undefined := fun e => by
      rw [(stringify_eq_none _).mpr e] at hs
      simp at hs
    simp [this]

theorem length_logStep (E : Env) (H : HistoryService) (c : LogCall) :
    (logStep E H c).ledger.length =
      H.ledger.length + (if c.dataContext ≠ .undefined then 1 else 0) := by
  unfold logStep logEvent
  cases hs : stringify c.dataContext with
  | none => simp [(stringify_eq_none _).mp hs]
  | some text =>
    have : c.dataContext ≠ .undefined := fun e => by
      rw [(stringify_eq_none _).mpr e] at hs
      simp at hs
    simp [this]

theorem length_logEvents (E : Env) (calls : List LogCall) :
    ∀ H, (logEvents E H calls).ledger.length =
      H.ledger.length + (calls.filter (fun c => decide (c.dataContext ≠ .undefined))).length := by
  induction calls with
  | nil => intro H; rfl
  | cons c rest ih =>
    intro H
    have h1 := ih (logStep E H c)
    have h2 := length_logStep E H c
    simp only [logEvents, List.foldl_cons] at h1 ⊢
    rw [h1, h2]
    by_cases hc : c.dataContext = .undefined
    · simp [List.filter, hc]
    · simp [List.filter, hc]
      omega

theorem chainFrom_head (E : Env) (blocks : List Block) (start : Nat) (prev : Option String)
    (b : Block) (h : ChainFrom E start prev blocks) (hb : blocks[0]? = some b) :
    b.previous_hash = prev := by
  cases blocks with
  | nil => simp at hb
  | cons a rest =>
    simp only [List.getElem?_cons_zero, Option.some.injEq] at hb
    subst hb
    exact h.2.2.1

theorem chainFrom_at (E : Env) (blocks : List Block) :
    ∀ (start : Nat) (prev : Option String) (i : Nat) (b : Block),
      ChainFrom E start prev blocks → blocks[i]? = some b →
        b.sequence = start + i ∧ b.block_hash = calculateBlockHash E b.toBlockFields := by
  induction blocks with
  | nil => intro start prev i b _ hb; simp at hb
  | cons a rest ih =>
    intro start prev i b hc hb
    obtain ⟨h1, h2, -, h4⟩ := hc
    cases i with
    | zero =>
      simp only [List.getElem?_cons_zero, Option.some.injEq] at hb
      subst hb
      exact ⟨by omega, h2⟩
    | succ j =>
      simp only [List.getElem?_cons_succ] at hb
      obtain ⟨h5, h6⟩ := ih (start + 1) _ j b h4 hb
      exact ⟨by omega, h6⟩

theorem chainFrom_link (E : Env) (blocks : List Block) :
    ∀ (start : Nat) (prev : Option String) (i : Nat) (p b : Block),
      ChainFrom E start prev blocks → blocks[i]? = some p → blocks[i + 1]? = some b →
        b.previous_hash = some p.block_hash := by
  induction blocks with
  | nil => intro start prev i p b _ hp; simp at hp
  | cons a rest ih =>
    intro start prev i p b hc hp hb
    obtain ⟨-, -, -, h4⟩ := hc
    cases i with
    | zero =>
      simp only [List.getElem?_cons_zero, Option.some.injEq] at hp
      subst hp
      simp only [Nat.zero_add, List.getElem?_cons_succ] at hb
      cases rest with
      | nil => simp at hb
      | cons c more =>
        simp only [List.getElem?_cons_zero, Option.some.injEq] at hb
        subst hb
        exact h4.2.2.1
    | succ j =>
      simp only [List.getElem?_cons_succ] at hp hb
      exact ih (start + 1) _ j p b h4 hp hb

/-- C7 as amended: on a freshly initialised ledger (no ledger file), after
any sequence of `logEvent` calls of which `N` return (a call returns unless
its data context is `undefined`), the stored ledger has `N + 1` blocks;
block `i` has `sequence = i` and its `block_hash` is SHA-256 of the
concatenation of its `sequence`, `timestamp`, `event_type`, `data_hash` and
`previous_hash`, where the `previous_hash` of block 0 is `null`, which
prints as `null`, and the `previous_hash` of every later block is the
`block_hash` of the block before it. -/
theorem chain_integrity (E : Env) (now : String) (calls : List LogCall) :
    (∀ (H : HistoryService) (c : LogCall),
      (∃ r, logEvent E H c.now c.eventType c.dataContext c.jurisdiction = .ok r) ↔
        c.dataContext ≠ .undefined) ∧
    (getLedger (logEvents E (initializeLedger E now none) calls)).length =
      (calls.filter (fun c => decide (c.dataContext ≠ .undefined))).length + 1 ∧
    (∀ (i : Nat) (b : Block),
      (getLedger (logEvents E (initializeLedger E now none) calls))[i]? = some b →
      b.sequence = i ∧
      b.block_hash = E.sha256 (toString i ++ b.timestamp ++ b.event_type ++
        b.data_hash ++ b.previous_hash.getD "null")) ∧
    (∀ b : Block,
      (getLedger (logEvents E (initializeLedger E now none) calls))[0]? = some b →
      b.previous_hash = none ∧
      b.block_hash = E.sha256 ("0" ++ b.timestamp ++ b.event_type ++ b.data_hash ++ "null")) ∧
    (∀ (i : Nat) (p b : Block),
      (getLedger (logEvents E (initializeLedger E now none) calls))[i]? = some p →
      (getLedger (logEvents E (initializeLedger E now none) calls))[i + 1]? = some b →
      b.previous_hash = some p.block_hash ∧
      b.block_hash = E.sha256 (toString (i + 1) ++ b.timestamp ++ b.event_type ++
        b.data_hash ++ p.block_hash)) := by
  have hinv := ledgerInv_logEvents E calls _ (ledgerInv_fresh E now)
  obtain ⟨-, -, hchain⟩ := hinv
  have hblock : ∀ (i : Nat) (b : Block),
      (getLedger (logEvents E (initializeLedger E now none) calls))[i]? = some b →
      b.sequence = i ∧
      b.block_hash = E.sha256 (toString i ++ b.timestamp ++ b.event_type ++
        b.data_hash ++ b.previous_hash.getD "null") := by
    intro i b hb
    obtain ⟨h1, h2⟩ := chainFrom_at E _ 0 none i b hchain hb
    have hseq : b.sequence = i := by omega
    refine ⟨hseq, ?_⟩
    rw [h2, calculateBlockHash, blockHashInput, hseq]
    cases b.previous_hash <;> rfl
  refine ⟨logEvent_returns_iff E, ?_, hblock, ?_, ?_⟩
  · have := length_logEvents E calls (initializeLedger E now none)
    rw [getLedger, this]
    simp only [initializeLedger, List.length_singleton]
    omega
  · intro b hb
    have hprev := chainFrom_head E _ 0 none b hchain hb
    obtain ⟨-, h2⟩ := hblock 0 b hb
    refine ⟨hprev, ?_⟩
    rw [h2, hprev]
    rfl
  · intro i p b hp hb
    have hlink := chainFrom_link E _ 0 none i p b hchain hp hb
    obtain ⟨-, h2⟩ := hblock (i + 1) b hb
    refine ⟨hlink, ?_⟩
    rw [h2, hlink]
    rfl

/-- C7 as amended, at an example: two appends on a fresh ledger give three
blocks, and block 1 hashes its fields with the hash of block 0 at the end. -/
theorem chain_integrity_witness :
    (getLedger (logEvents demoEnv (initializeLedger demoEnv "t0" none) demoCalls)).length
      = (demoCalls.filter (fun c => decide (c.dataContext ≠ .undefined))).length + 1 ∧
    (demoCalls.filter (fun c => decide (c.dataContext ≠ .undefined))).length = 2 ∧
    (∀ p b : Block,
      (getLedger (logEvents demoEnv (initializeLedger demoEnv "t0" none) demoCalls))[0]? = some p →
      (getLedger (logEvents demoEnv (initializeLedger demoEnv "t0" none) demoCalls))[0 + 1]?
        = some b →
      b.previous_hash = some p.block_hash ∧
      b.block_hash = demoEnv.sha256 (toString (0 + 1) ++ b.timestamp ++ b.event_type ++
        b.data_hash ++ p.block_hash)) :=
  ⟨(chain_integrity demoEnv "t0" demoCalls).2.1, by decide,
    (chain_integrity demoEnv "t0" demoCalls).2.2.2.2 0⟩

/-- C7 as stated fails (counterexample): one call of `logEvent` without a
data context on a freshly initialised ledger throws, and the stored ledger
still has the genesis block only: one block after one call, not two. -/
theorem undefined_data_context_appends_nothing :
    logEvent demoEnv (initializeLedger demoEnv "t0" none) "t1" "VERIFICATION" .undefined
        (.str "SG") = .error .typeError ∧
    [({ now := "t1", eventType := "VERIFICATION", dataContext := .undefined,
        jurisdiction := .str "SG" } : LogCall)].length = 1 ∧
    (getLedger (logEvents demoEnv (initializeLedger demoEnv "t0" none)
      [{ now := "t1", eventType := "VERIFICATION", dataContext := .undefined,
         jurisdiction := .str "SG" }])).length = 1 := by
  refine ⟨rfl, rfl, by decide⟩

/-! ## C8 — tamper evidence of the ledger -/

theorem blockHashInput_data_hash (b : BlockFields) (d : String)
    (h : blockHashInput { b with data_hash := d } = blockHashInput b) : d = b.data_hash := by
  have := congrArg String.data h
  simp only [blockHashInput, String.data_append, List.append_cancel_right_eq,
    List.append_cancel_left_eq] at this
  exact String.ext this

theorem verifyChainFrom_valid (E : Env) (blocks : List Block) :
    ∀ (start : Nat) (prevHash : Option String) (prev : Option Block),
      ChainFrom E start prevHash blocks → (∀ p, prev = some p → prevHash = some p.block_hash) →
        verifyChainFrom E prev blocks = none := by
  induction blocks with
  | nil => intro _ _ _ _ _; rfl
  | cons a rest ih =>
    intro start prevHash prev hc hp
    obtain ⟨-, h2, h3, h4⟩ := hc
    have hrest := ih (start + 1) (some a.block_hash) (some a) h4
      (fun p hp => by cases hp; rfl)
    unfold verifyChainFrom
    rw [if_neg (by simpa using h2)]
    cases prev with
    | none => exact hrest
    | some p =>
      simp only
      rw [if_neg (by simpa [h3] using hp p rfl)]
      exact hrest

theorem verifyChainFrom_tamper (E : Env) (hinj : Function.Injective E.sha256)
    (blocks : List Block) :
    ∀ (start : Nat) (prevHash : Option String) (prev : Option Block) (i : Nat) (b : Block)
      (d : String),
      ChainFrom E start prevHash blocks → (∀ p, prev = some p → prevHash = some p.block_hash) →
      blocks[i]? = some b → d ≠ b.data_hash →
        verifyChainFrom E prev (tamperDataHash blocks i d) = some (start + i) := by
  induction blocks with
  | nil => intro _ _ _ i b _ _ _ hb; simp at hb
  | cons a rest ih =>
    intro start prevHash prev i b d hc hp hb hd
    obtain ⟨h1, h2, h3, h4⟩ := hc
    cases i with
    | zero =>
      simp only [List.getElem?_cons_zero, Option.some.injEq] at hb
      subst hb
      simp only [tamperDataHash, verifyChainFrom]
      rw [if_pos]
      · simp [h1]
      · intro h
        rw [h2] at h
        exact hd (blockHashInput_data_hash _ _ (hinj h).symm)
    | succ j =>
      simp only [List.getElem?_cons_succ] at hb
      have hrest := ih (start + 1) (some a.block_hash) (some a) j b d h4
        (fun p hp => by cases hp; rfl) hb hd
      simp only [tamperDataHash, verifyChainFrom]
      rw [if_neg (by simpa using h2)]
      have hidx : start + (j + 1) = start + 1 + j := by omega
      cases prev with
      | none => simpa [hidx] using hrest
      | some p =>
        simp only
        rw [if_neg (by simpa [h3] using hp p rfl)]
        simpa [hidx] using hrest

/-- C8, against `verifyChain` as the specification describes it: on every
ledger produced by appends to a freshly initialised ledger, `verifyChain`
reports no violation; and when the `data_hash` of block `i` is replaced by a
different text, `verifyChain` reports exactly `i`, provided SHA-256 has no
collisions. -/
theorem ledger_tamper_evidence (E : Env) (now : String) (calls : List LogCall) (i : Nat)
    (b : Block) (d : String)
    (hinj : Function.Injective E.sha256)
    (hb : (getLedger (logEvents E (initializeLedger E now none) calls))[i]? = some b)
    (hd : d ≠ b.data_hash) :
    verifyChain E (getLedger (logEvents E (initializeLedger E now none) calls)) = none ∧
    verifyChain E (tamperDataHash (getLedger (logEvents E (initializeLedger E now none) calls))
      i d) = some i := by
  obtain ⟨-, -, hchain⟩ := ledgerInv_logEvents E calls _ (ledgerInv_fresh E now)
  constructor
  · exact verifyChainFrom_valid E _ 0 none none hchain (fun p hp => by cases hp)
  · have := verifyChainFrom_tamper E hinj _ 0 none none i b d hchain
      (fun p hp => by cases hp) hb hd
    simpa [verifyChain] using this

theorem demoEnv_sha256_injective : Function.Injective demoEnv.sha256 := by
  intro a b h
  have := congrArg String.data h
  simp only [demoEnv, String.data_append, List.append_cancel_right_eq,
    List.append_cancel_left_eq] at this
  exact String.ext this

/-- C8 at an example: in a ledger of three blocks, replacing the `data_hash`
of block 1 makes `verifyChain` report 1. -/
theorem ledger_tamper_evidence_witness :
    demoLedger[1]? = some demoBlockOne ∧ "forged" ≠ demoBlockOne.data_hash ∧
    verifyChain demoEnv (tamperDataHash (getLedger (logEvents demoEnv
      (initializeLedger demoEnv "t0" none) demoCalls)) 1 "forged") = some 1 :=
  ⟨by decide!, by decide!,
    (ledger_tamper_evidence demoEnv "t0" demoCalls 1 demoBlockOne "forged"
      demoEnv_sha256_injective (by decide!) (by decide!)).2⟩

/-! ## C9 — what the block hash covers -/

/-- C9 (evaluation of the code): the text `calculateBlockHash` hashes does
not contain the jurisdiction, so two `logEvent` calls that differ only in
the jurisdiction return the same block hash. -/
theorem block_hash_ignores_jurisdiction (E : Env) (H : HistoryService)
    (now eventType : String) (dataContext j1 j2 : JVal) :
    (∀ (b : BlockFields) (j : JVal),
      blockHashInput { b with jurisdiction := j } = blockHashInput b) ∧
    (logEvent E H now eventType dataContext j1).map Prod.fst =
      (logEvent E H now eventType dataContext j2).map Prod.fst := by
  refine ⟨fun _ _ => rfl, ?_⟩
  unfold logEvent
  cases stringify dataContext <;> rfl

/-! ## C10 — the genesis block -/

/-- C10 as amended: the genesis block written by `initializeLedger` on a
missing ledger file is the only block of the ledger; it has `sequence = 0`,
`previous_hash = null` and event type `GENESIS`, and it is its `data_hash`
that is the text of 64 characters `'0'`. -/
theorem genesis_block (E : Env) (now : String) :
    ∃ g, getLedger (initializeLedger E now none) = [g] ∧ g.sequence = 0 ∧
      g.previous_hash = none ∧ g.event_type = "GENESIS" ∧
      g.data_hash = String.mk (List.replicate 64 '0') ∧
      (initializeLedger E now none).lastHash = some g.block_hash :=
  ⟨genesisBlock E now, rfl, rfl, rfl, rfl,
    (by decide : zeroHash = String.mk (List.replicate 64 '0')), rfl⟩

/-- C10 as stated fails (counterexample): the genesis block of a fresh
ledger has `sequence = 0`, and its `previous_hash` is `null`, not the text
of 64 characters `'0'`. -/
theorem genesis_previous_hash_is_null :
    (getLedger (initializeLedger demoEnv "t0" none)).map
      (fun b => (b.sequence, b.previous_hash)) = [(0, none)] ∧
    (getLedger (initializeLedger demoEnv "t0" none)).map (fun b => b.previous_hash)
      ≠ [some (String.mk (List.replicate 64 '0'))] := by
  refine ⟨by decide, by decide⟩

/-! ## C11 — the solvency threshold -/

theorem getTierThreshold_undefined :
    getTierThreshold (if JVal.undefined = .undefined then .str "TIER_1M" else .undefined)
      = getTierThreshold .undefined := by
  decide

theorem getTierThreshold_effective (tier : JVal) :
    getTierThreshold (if tier = .undefined then .str "TIER_1M" else tier)
      = getTierThreshold tier := by
  by_cases h : tier = .undefined
  · subst h; decide
  · simp [h]

theorem truthy_num_pos (a : Int) (h : 0 < a) : (JVal.num a).truthy = true := by
  simp [JVal.truthy]
  omega

/-- The outcome of `generateSolvencyProof` on a witness whose `assets` and
`liabilities` are numbers, with every other ingredient in order: decided by
the comparison of the net worth with the threshold alone. -/
theorem generateSolvencyProof_numeric (E : Env) (D : ZkDraws) (fields : Fields) (tier : JVal)
    (a l : Int)
    (hassets : Fields.get fields "assets" = .num a) (ha : (JVal.num a).truthy = true)
    (hliab : Fields.get fields "liabilities" = .num l) (hl : (JVal.num l).truthy = true)
    (hsig : (Fields.get fields "signature").truthy = true)
    (hdid : (Fields.get fields "subject_did").truthy = true)
    (hsalt : (Fields.get fields "salt").truthy = true)
    (hissuer : (Fields.get fields "issuer_did").truthy = false ∨
      ∃ s, Fields.get fields "issuer_did" = .str s) :
    (a - l < getTierThreshold tier →
      generateSolvencyProof E D (.obj fields) tier = .error (.error
        ("Solvency check failed: Net worth below " ++
          (if tier = .undefined then JVal.str "TIER_1M" else tier).jsToString ++
          " threshold (" ++ toString (getTierThreshold tier) ++ " USD)."))) ∧
    (¬ a - l < getTierThreshold tier →
      ∃ issuerHash, generateSolvencyProof E D (.obj fields) tier = .ok (.obj
        [("proof", zkProofObject D),
         ("publicSignals", .obj
           [("nullifier", .str (E.sha256 ((Fields.get fields "subject_did").jsToString ++ ":" ++
              (Fields.get fields "salt").jsToString))),
            ("tier", if tier = .undefined then .str "TIER_1M" else tier),
            ("threshold", .str (toString (getTierThreshold tier))),
            ("issuer_pubkey_hash", .str issuerHash)])])) := by
  have hhash : ∃ issuerHash,
      sha256Of E ((Fields.get fields "issuer_did").orElse (.str "unknown")) = .ok issuerHash := by
    rcases hissuer with h | ⟨s, h⟩
    · exact ⟨E.sha256 "unknown", by simp [JVal.orElse, h, sha256Of]⟩
    · by_cases hs : (JVal.str s).truthy = true
      · exact ⟨E.sha256 s, by simp [JVal.orElse, h, hs, sha256Of]⟩
      · exact ⟨E.sha256 "unknown", by simp [JVal.orElse, h, hs, sha256Of]⟩
  obtain ⟨issuerHash, hh⟩ := hhash
  constructor
  · intro hlt
    simp [generateSolvencyProof, getProp_obj, hassets, hliab, ha, hl, hsig, toNumber, JNum.sub,
      JNum.lt, getTierThreshold_effective, hlt, bind, Except.bind, throw, throwThe,
      MonadExceptOf.throw, pure, Except.pure]
  · intro hge
    refine ⟨issuerHash, ?_⟩
    simp [generateSolvencyProof, getProp_obj, hassets, hliab, ha, hl, hsig, toNumber, JNum.sub,
      JNum.lt, getTierThreshold_effective, hge, generateNullifier, hdid, hsalt, hh, bind,
      Except.bind, throw, throwThe, MonadExceptOf.throw, pure, Except.pure]

/-- C11: the threshold is 1,000,000 for `TIER_1M`, 10,000,000 for `TIER_10M`,
50,000,000 for `TIER_50M` and 1,000,000 for any other tier; and for every
witness with positive `assets` and `liabilities`, a signature, a subject DID
and a salt (its issuer DID being a string, or missing),
`generateSolvencyProof(witness, tier)` fails with the solvency-check error
exactly when `assets - liabilities < threshold(tier)` and returns a proof
otherwise. -/
theorem solvency_threshold (E : Env) (D : ZkDraws) (fields : Fields) (tier : JVal) (a l : Int)
    (ha : 0 < a) (hl : 0 < l)
    (hassets : Fields.get fields "assets" = .num a)
    (hliab : Fields.get fields "liabilities" = .num l)
    (hsig : (Fields.get fields "signature").truthy = true)
    (hdid : (Fields.get fields "subject_did").truthy = true)
    (hsalt : (Fields.get fields "salt").truthy = true)
    (hissuer : (Fields.get fields "issuer_did").truthy = false ∨
      ∃ s, Fields.get fields "issuer_did" = .str s) :
    (getTierThreshold (.str "TIER_1M") = 1000000 ∧
      getTierThreshold (.str "TIER_10M") = 10000000 ∧
      getTierThreshold (.str "TIER_50M") = 50000000 ∧
      ∀ t, t ≠ .str "TIER_10M" → t ≠ .str "TIER_50M" → getTierThreshold t = 1000000) ∧
    (generateSolvencyProof E D (.obj fields) tier = .error (.error
        ("Solvency check failed: Net worth below " ++
          (if tier = .undefined then JVal.str "TIER_1M" else tier).jsToString ++
          " threshold (" ++ toString (getTierThreshold tier) ++ " USD).")) ↔
      a - l < getTierThreshold tier) ∧
    (¬ a - l < getTierThreshold tier →
      ∃ proof publicSignals, generateSolvencyProof E D (.obj fields) tier
        = .ok (.obj [("proof", proof), ("publicSignals", publicSignals)])) := by
  obtain ⟨hfail, hok⟩ := generateSolvencyProof_numeric E D fields tier a l hassets
    (truthy_num_pos a ha) hliab (truthy_num_pos l hl) hsig hdid hsalt hissuer
  refine ⟨⟨by decide, by decide, by decide, ?_⟩, ⟨?_, hfail⟩, ?_⟩
  · intro t h1 h2
    simp [getTierThreshold, h1, h2]
  · intro h
    by_contra hge
    obtain ⟨_, hres⟩ := hok hge
    rw [hres] at h
    exact absurd h (by simp)
  · intro hge
    obtain ⟨issuerHash, hres⟩ := hok hge
    exact ⟨_, _, hres⟩

/-- C11 at the examples: assets 2,000,000 and liabilities 100,000 pass
`TIER_1M`, and so does a net worth of exactly 1,000,000. -/
theorem solvency_threshold_witness :
    (∃ proof publicSignals, generateSolvencyProof demoEnv demoZkDraws demoWitness (.str "TIER_1M")
      = .ok (.obj [("proof", proof), ("publicSignals", publicSignals)])) ∧
    (∃ proof publicSignals, generateSolvencyProof demoEnv demoZkDraws
      (.obj [("assets", .num 1100000), ("liabilities", .num 100000),
        ("subject_did", .str "did:example:alice"), ("salt", .str "s1"),
        ("signature", .str "firm-signed")]) (.str "TIER_1M")
      = .ok (.obj [("proof", proof), ("publicSignals", publicSignals)])) :=
  ⟨(solvency_threshold demoEnv demoZkDraws _ (.str "TIER_1M") 2000000 100000 (by decide)
      (by decide) (by decide) (by decide) (by decide) (by decide) (by decide)
      (Or.inr ⟨demoIssuer, by decide⟩)).2.2 (by decide),
    (solvency_threshold demoEnv demoZkDraws _ (.str "TIER_1M") 1100000 100000 (by decide)
      (by decide) (by decide) (by decide) (by decide) (by decide) (by decide)
      (Or.inl (by decide))).2.2 (by decide)⟩

/-! ## C12 — a witness with liabilities 0 -/

/-- Whatever else a witness holds, `liabilities = 0` makes
`generateSolvencyProof` throw the invalid-witness error: the presence test
is `!witness.liabilities`. -/
theorem generateSolvencyProof_zero_liabilities (E : Env) (D : ZkDraws) (fields : Fields)
    (tier : JVal) (h : Fields.get fields "liabilities" = .num 0) :
    generateSolvencyProof E D (.obj fields) tier
      = .error (.error "Invalid witness: missing required fields") := by
  simp [generateSolvencyProof, getProp_obj, h, JVal.truthy, bind, Except.bind, throw, throwThe,
    MonadExceptOf.throw]

/-- C12 (evaluation of the code at the failing input): the witness with a
signature, `assets = 900000` and `liabilities = 0` against `TIER_1M` is
rejected with `Invalid witness: missing required fields`, not with the
solvency-check error, although its net worth 900,000 is below the threshold
1,000,000. -/
theorem zero_liabilities_reported_missing (E : Env) (D : ZkDraws) :
    generateSolvencyProof E D demoWitnessZero (.str "TIER_1M")
      = .error (.error "Invalid witness: missing required fields") ∧
    (900000 : Int) - 0 < getTierThreshold (.str "TIER_1M") :=
  ⟨generateSolvencyProof_zero_liabilities E D _ _ rfl, by decide⟩

/-! ## C13 — the nullifier -/

theorem generateSolvencyProof_ok {E : Env} {D : ZkDraws} {witness tier result : JVal}
    (h : generateSolvencyProof E D witness tier = .ok result) :
    ∃ subjectDid salt nullifier issuerHash,
      getProp witness "subject_did" = .ok subjectDid ∧ getProp witness "salt" = .ok salt ∧
      generateNullifier E subjectDid salt = .ok nullifier ∧
      result = .obj [("proof", zkProofObject D),
        ("publicSignals", .obj
          [("nullifier", .str nullifier),
           ("tier", if tier = .undefined then .str "TIER_1M" else tier),
           ("threshold", .str (toString
              (getTierThreshold (if tier = .undefined then .str "TIER_1M" else tier)))),
           ("issuer_pubkey_hash", .str issuerHash)])] := by
  unfold generateSolvencyProof at h
  generalize (if tier = .undefined then JVal.str "TIER_1M" else tier) = eff at h ⊢
  simp only [bind_eq_ok] at h
  obtain ⟨assets, -, liabilities, -, signature, -, h⟩ := h
  by_cases h1 : (!assets.truthy || !liabilities.truthy || !signature.truthy) = true
  · simp [h1, throw, throwThe, MonadExceptOf.throw, bind, Except.bind] at h
  · rw [if_neg h1] at h
    simp only [pure, Except.pure, bind, Except.bind] at h
    by_cases h2 : ((toNumber E assets).sub (toNumber E liabilities)).lt
        (.int (getTierThreshold eff)) = true
    · simp [h2, throw, throwThe, MonadExceptOf.throw, bind, Except.bind] at h
    · rw [if_neg h2] at h
      cases hsd : getProp witness "subject_did" with
      | error e => simp [hsd] at h
      | ok sd =>
        cases hsl : getProp witness "salt" with
        | error e => simp [hsd, hsl] at h
        | ok sl =>
          cases hn : generateNullifier E sd sl with
          | error e => simp [hsd, hsl, hn] at h
          | ok n =>
            cases hi : getProp witness "issuer_did" with
            | error e => simp [hsd, hsl, hn, hi] at h
            | ok iss =>
              cases hh : sha256Of E (iss.orElse (.str "unknown")) with
              | error e => simp [hsd, hsl, hn, hi, hh] at h
              | ok ih =>
                simp only [hsd, hsl, hn, hi, hh, Except.ok.injEq] at h
                exact ⟨sd, sl, n, ih, rfl, rfl, hn, h.symm⟩

/-- C13: `generateNullifier(did, salt)` throws when either argument is falsy
(for a string: empty; `undefined` when absent) and otherwise returns SHA-256
of `did`, a colon and `salt`; and when `generateSolvencyProof` succeeds on a
witness, `publicSignals.nullifier` of its result is
`generateNullifier(witness.subject_did, witness.salt)`, so two witnesses
with the same subject DID and salt get the same nullifier, whatever their
assets, liabilities, tier and random draws. -/
theorem nullifier_derivation (E : Env) (D1 D2 : ZkDraws) (did salt : JVal)
    (w1 w2 t1 t2 r1 r2 : JVal) :
    (generateNullifier E did salt =
      if did.truthy = true ∧ salt.truthy = true then
        .ok (E.sha256 (did.jsToString ++ ":" ++ salt.jsToString))
      else .error (.error "DID and Salt required for nullifier generation")) ∧
    (JVal.undefined.truthy = false ∧ (∀ s, (JVal.str s).truthy = true ↔ s ≠ "") ∧
      ∀ s, (JVal.str s).jsToString = s) ∧
    (generateSolvencyProof E D1 w1 t1 = .ok r1 →
      ∃ subjectDid saltValue nullifier,
        getProp w1 "subject_did" = .ok subjectDid ∧ getProp w1 "salt" = .ok saltValue ∧
        generateNullifier E subjectDid saltValue = .ok nullifier ∧
        (getProp r1 "publicSignals" >>= fun p => getProp p "nullifier") = .ok (.str nullifier)) ∧
    (generateSolvencyProof E D1 w1 t1 = .ok r1 → generateSolvencyProof E D2 w2 t2 = .ok r2 →
      getProp w1 "subject_did" = getProp w2 "subject_did" →
      getProp w1 "salt" = getProp w2 "salt" →
      (getProp r1 "publicSignals" >>= fun p => getProp p "nullifier") =
        (getProp r2 "publicSignals" >>= fun p => getProp p "nullifier")) := by
  have hread : ∀ (D : ZkDraws) (w t r : JVal), generateSolvencyProof E D w t = .ok r →
      ∃ subjectDid saltValue nullifier,
        getProp w "subject_did" = .ok subjectDid ∧ getProp w "salt" = .ok saltValue ∧
        generateNullifier E subjectDid saltValue = .ok nullifier ∧
        (getProp r "publicSignals" >>= fun p => getProp p "nullifier") = .ok (.str nullifier) := by
    intro D w t r h
    obtain ⟨sd, sl, n, ih, hsd, hsl, hn, rfl⟩ := generateSolvencyProof_ok h
    exact ⟨sd, sl, n, hsd, hsl, hn, by simp [getProp_obj, Fields.get, bind, Except.bind]⟩
  refine ⟨?_, ⟨rfl, ?_, ?_⟩, hread D1 w1 t1 r1, ?_⟩
  · unfold generateNullifier
    by_cases h1 : did.truthy = true <;> by_cases h2 : salt.truthy = true <;> simp [h1, h2]
  · intro s
    simp [JVal.truthy]
  · intro s
    simp [JVal.jsToString]
  · intro h1 h2 hd hs
    obtain ⟨sd1, sl1, n1, a1, b1, c1, e1⟩ := hread D1 w1 t1 r1 h1
    obtain ⟨sd2, sl2, n2, a2, b2, c2, e2⟩ := hread D2 w2 t2 r2 h2
    rw [a1, a2] at hd
    rw [b1, b2] at hs
    injection hd with hd
    injection hs with hs
    subst hd hs
    rw [c1] at c2
    injection c2 with c2
    rw [e1, e2, c2]

/-- C13 at the example: the witness of net worth 1,900,000 and a witness
with other figures and tier but the same subject DID and salt get the
nullifier SHA-256 of `did:example:alice:s1`. -/
theorem nullifier_derivation_witness :
    (getProp (match generateSolvencyProof demoEnv demoZkDraws demoWitness (.str "TIER_1M") with
        | .ok r => r
        | .error _ => .undefined) "publicSignals" >>= fun p => getProp p "nullifier") =
      (getProp (match generateSolvencyProof demoEnv demoZkDraws
          (.obj [("assets", .num 90000000), ("liabilities", .num 5),
            ("subject_did", .str "did:example:alice"), ("salt", .str "s1"),
            ("signature", .str "other")]) (.str "TIER_50M") with
        | .ok r => r
        | .error _ => .undefined) "publicSignals" >>= fun p => getProp p "nullifier") :=
  (nullifier_derivation demoEnv demoZkDraws demoZkDraws .undefined .undefined demoWitness
    (.obj [("assets", .num 90000000), ("liabilities", .num 5),
      ("subject_did", .str "did:example:alice"), ("salt", .str "s1"),
      ("signature", .str "other")]) (.str "TIER_1M") (.str "TIER_50M") _ _).2.2.2
    (ok_of_isOk _ (by decide!)) (ok_of_isOk _ (by decide!)) (by decide) (by decide)

/-! ## C14 — audit sampling -/

theorem auditThreshold_scoreArg (E : Env) (score : Option Int) :
    auditThreshold E (scoreArg score) = specAuditPercent score := by
  cases score with
  | none => simp [auditThreshold, scoreArg, specAuditPercent, toNumber, JNum.lt]
  | some n =>
    simp only [auditThreshold, scoreArg, specAuditPercent, toNumber, JNum.lt, reduceCtorEq,
      if_false, decide_eq_true_eq]

theorem count_draws_below : ∀ t : Fin 101,
    ((List.finRange 100).filter (fun d : Fin 100 => decide (d.val < t.val))).length = t.val := by
  decide!

/-- C14: with the draw of `crypto.randomInt(0, 100)` as an input `d`,
`shouldTriggerAudit(score)` returns true exactly when `d < t(score)`, where
`t(score)` is 20 for a score below 50, 10 for a score from 50 to below 80 and
5 otherwise, also when no score is given; so exactly `t(score)` of the 100
draws trigger an audit, 5 of them for the score 100 and 20 for the score 40. -/
theorem audit_sampling (E : Env) (score : Option Int) (d : Fin 100) :
    (shouldTriggerAudit E (scoreArg score) d = true ↔ d.val < specAuditPercent score) ∧
    ((List.finRange 100).filter (fun x => shouldTriggerAudit E (scoreArg score) x)).length
      = specAuditPercent score ∧
    specAuditPercent (some 100) = 5 ∧ specAuditPercent (some 40) = 20 ∧
    specAuditPercent none = 5 := by
  have hle : specAuditPercent score < 101 := by
    cases score with
    | none => decide
    | some n => simp only [specAuditPercent]; split_ifs <;> decide
  refine ⟨?_, ?_, by decide, by decide, by decide⟩
  · simp [shouldTriggerAudit, auditThreshold_scoreArg]
  · have := count_draws_below ⟨specAuditPercent score, hle⟩
    simpa [shouldTriggerAudit, auditThreshold_scoreArg] using this

/-! ## C15 — permanence of a revocation -/

theorem get_set_same (o : Fields) (k : String) (v : JVal) :
    Fields.get (Fields.set o k v) k = v := by
  induction o with
  | nil => simp [Fields.set, Fields.get]
  | cons p rest ih =>
    obtain ⟨a, w⟩ := p
    by_cases h : a = k
    · simp [Fields.set, Fields.get, h]
    · simp [Fields.set, Fields.get, h, ih]

theorem get_set_other (o : Fields) (k k' : String) (v : JVal) (h : k' ≠ k) :
    Fields.get (Fields.set o k' v) k = Fields.get o k := by
  induction o with
  | nil => simp [Fields.set, Fields.get, h]
  | cons p rest ih =>
    obtain ⟨a, w⟩ := p
    by_cases h1 : a = k'
    · subst h1
      simp [Fields.set, Fields.get, h]
    · by_cases h2 : a = k
      · subst h2
        simp [Fields.set, Fields.get, h1]
      · simp [Fields.set, Fields.get, h1, h2, ih]

theorem member_set_same (o : Fields) (k : String) (v : JVal) :
    Fields.member (Fields.set o k v) k = .own v := by
  rw [member_of_mem _ _ ((mem_keys_set o k k v).mpr (Or.inl rfl)), get_set_same]

theorem member_set_other (o : Fields) (k k' : String) (v : JVal) (h : k' ≠ k) :
    Fields.member (Fields.set o k' v) k = Fields.member o k := by
  unfold Fields.member
  rw [get_set_other o k k' v h]
  have hk : k ∈ Fields.keys (Fields.set o k' v) ↔ k ∈ Fields.keys o := by
    rw [mem_keys_set]
    constructor
    · rintro (e | e)
      · exact absurd e.symm h
      · exact e
    · exact Or.inr
  by_cases hm : k ∈ Fields.keys o
  · simp [hm, hk.mpr hm]
  · simp [hm, mt hk.mp hm]

theorem redisGet_set_same (store : List (String × String)) (key value : String) :
    redisGet (redisSet store key value) key = .str value := by
  simp [redisGet, redisSet, List.lookup]

/-- After `revokeCredential(id, reason)`, `isRevoked(id)` is the truthiness
of the reason: true for every reason but the empty string. -/
theorem isRevoked_revokeCredential (R : RevocationService) (id : String)
    (reason : Option String) :
    isRevoked (revokeCredential R id reason) id = decide (reason.getD "UNSPECIFIED" ≠ "") := by
  unfold isRevoked revokeCredential
  generalize reason.getD "UNSPECIFIED" = text
  cases hr : R.useRedis
  · by_cases h : text = "" <;> simp [hr, member_set_same, Member.truthy, JVal.truthy, h]
  · by_cases h : text = "" <;> simp [hr, redisGet_set_same, JVal.truthy, h]

/-- C15 (evaluation of the code at the failing inputs): a revocation whose
reason is the empty string does not make `isRevoked` true, and revoking an
already revoked id again with the empty string as reason makes `isRevoked`
false again; with the reason `"FRAUD"` or no reason at all the id is
revoked. -/
theorem empty_reason_unrevokes (R : RevocationService) (id : String) :
    isRevoked (revokeCredential R id (some "")) id = false ∧
    isRevoked (revokeCredential R id (some "FRAUD")) id = true ∧
    isRevoked (revokeCredential R id none) id = true ∧
    isRevoked (revokeCredential (revokeCredential R id (some "FRAUD")) id (some "")) id = false := by
  simp only [isRevoked_revokeCredential]
  decide

theorem lookup_filter_ne (store : List (String × String)) (k k' : String) (h : k ≠ k') :
    (store.filter (fun p => p.1 != k')).lookup k = store.lookup k := by
  induction store with
  | nil => rfl
  | cons p rest ih =>
    obtain ⟨a, w⟩ := p
    by_cases h1 : a = k'
    · subst h1
      have hne : (k == a) = false := by simpa using h
      simp [List.filter, List.lookup, hne, ih]
    · have h2 : (a != k') = true := by simpa using h1
      simp only [List.filter, h2, List.lookup, ih]

theorem isRevoked_revoke_other (R : RevocationService) (id id' : String) (reason : Option String)
    (h : id' ≠ id) : isRevoked (revokeCredential R id' reason) id = isRevoked R id := by
  have hkey : "revoked:" ++ id ≠ "revoked:" ++ id' := by
    intro e
    have := congrArg String.data e
    simp only [String.data_append, List.append_cancel_left_eq] at this
    exact h (String.ext this).symm
  have hbeq : ("revoked:" ++ id == "revoked:" ++ id') = false := by simpa using hkey
  unfold isRevoked revokeCredential
  cases hr : R.useRedis
  · simp [hr, member_set_other _ _ _ _ h]
  · simp [hr, redisGet, redisSet, List.lookup, hbeq, lookup_filter_ne _ _ _ hkey]

/-- What does hold of the registry: a revoked id stays revoked under any
further revocations whose reasons are not the empty string. -/
theorem revocation_persists (calls : List (String × Option String)) :
    ∀ (R : RevocationService) (id : String),
      (∀ c ∈ calls, c.2 ≠ some "") → isRevoked R id = true →
      isRevoked (calls.foldl (fun acc c => revokeCredential acc c.1 c.2) R) id = true := by
  induction calls with
  | nil => intro R id _ h; exact h
  | cons c rest ih =>
    intro R id hcalls h
    apply ih _ id (fun d hd => hcalls d (List.mem_cons_of_mem _ hd))
    show isRevoked (revokeCredential R c.1 c.2) id = true
    by_cases hid : c.1 = id
    · rw [hid, isRevoked_revokeCredential]
      have := hcalls c (List.mem_cons_self _ _)
      cases hc : c.2 with
      | none => decide
      | some r =>
        rw [hc] at this
        simpa using this
    · rw [isRevoked_revoke_other R id c.1 c.2 hid]
      exact h

/-! ## C16 — the schema check -/

/-- A jurisdiction without a registered schema accepts every credential. -/
theorem validateSchema_missing (S : VCService) (credential : JVal) (J : String)
    (h : S.schemas J = .missing) : validateSchema S credential J = .valid := by
  simp [validateSchema, h]

/-- C16 (evaluation of the code at the failing inputs): against a schema
that requires `trustScore`, and `zip` inside `address`, a subject whose
`trustScore` is present with the value `0`, `false` or the empty string is
reported as missing that field, and a subject whose `address.zip` is present
with the value `0` is reported as missing the sub-field; with a non-zero
`trustScore` and a non-empty `zip` the same subject is valid. -/
theorem falsy_required_field_reported_missing :
    validateSchema demoVCStrict
        (.obj [("credentialSubject", .obj [("trustScore", .num 0)])]) "SG"
      = .invalid "Missing required field: trustScore" ∧
    validateSchema demoVCStrict
        (.obj [("credentialSubject", .obj [("trustScore", .bool false)])]) "SG"
      = .invalid "Missing required field: trustScore" ∧
    validateSchema demoVCStrict
        (.obj [("credentialSubject", .obj [("trustScore", .str "")])]) "SG"
      = .invalid "Missing required field: trustScore" ∧
    validateSchema demoVCStrict
        (.obj [("credentialSubject",
          .obj [("trustScore", .num 99), ("address", .obj [("zip", .num 0)])])]) "SG"
      = .invalid "Missing required sub-field: address.zip" ∧
    validateSchema demoVCStrict
        (.obj [("credentialSubject",
          .obj [("trustScore", .num 99), ("address", .obj [("zip", .str "KY1")])])]) "SG"
      = .valid := by
  refine ⟨by decide!, by decide!, by decide!, by decide!, by decide!⟩

/-! ## C17 — an issuer without a key -/

/-- Where C17 holds: for every issuer id that is not a key of the keystore
and not the name of a member of `Object.prototype`, `issuePassport` throws
`Issuer DID <id> not found in keystore.`, returns no credential, and leaves
the ledger service as it was: no block is appended. -/
theorem unknown_issuer (E : Env) (S : VCService) (H : HistoryService) (D : IssueDraws)
    (kycData : JVal) (issuerDid : String) (metadata : Fields) (zk : Bool)
    (h : issuerDid ∉ Fields.keys S.keys) (hn : issuerDid ∉ objectPrototypeNames) :
    (issuePassport E S H D kycData issuerDid metadata zk).result
      = .error (.error ("Issuer DID " ++ issuerDid ++ " not found in keystore.")) ∧
    (issuePassport E S H D kycData issuerDid metadata zk).history = H ∧
    getLedger (issuePassport E S H D kycData issuerDid metadata zk).history = getLedger H := by
  have hf : (Fields.member S.keys issuerDid).truthy = false := by
    rw [member_of_not_mem S.keys issuerDid h, inheritedMember_truthy]
    simpa using hn
  simp [issuePassport, hf]

/-- The unknown issuer of the examples: `did:web:unknown.ae` has no key in
the keystore. -/
theorem unknown_issuer_example :
    (issuePassport demoEnv demoVC demoHistory demoDraws demoKyc "did:web:unknown.ae" [] true).result
      = .error (.error ("Issuer DID " ++ "did:web:unknown.ae" ++ " not found in keystore.")) ∧
    (issuePassport demoEnv demoVC demoHistory demoDraws demoKyc "did:web:unknown.ae" [] true).history
      = demoHistory :=
  ⟨(unknown_issuer demoEnv demoVC demoHistory demoDraws demoKyc "did:web:unknown.ae" [] true
      (by decide) (by decide)).1,
    (unknown_issuer demoEnv demoVC demoHistory demoDraws demoKyc "did:web:unknown.ae" [] true
      (by decide) (by decide)).2.1⟩

/-- Where C17 fails: an issuer id that is not a key of the keystore but is
the name of a member of `Object.prototype` passes the keystore guard. For a
KYC record that is an object, the `ISSUANCE_ATTEMPT` block is appended to
the ledger; no credential is returned, since `issuePassport` throws later,
on the way to the signature at the latest. -/
theorem inherited_issuer_appends_block (E : Env) (S : VCService) (H : HistoryService)
    (D : IssueDraws) (kyc : Fields) (issuerDid : String) (metadata : Fields) (zk : Bool)
    (h : issuerDid ∉ Fields.keys S.keys) (hn : issuerDid ∈ objectPrototypeNames) :
    (∃ e, (issuePassport E S H D (.obj kyc) issuerDid metadata zk).result = .error e) ∧
    ∃ b, getLedger (issuePassport E S H D (.obj kyc) issuerDid metadata zk).history
        = getLedger H ++ [b] ∧
      b.event_type = "ISSUANCE_ATTEMPT" ∧ b.sequence = (getLedger H).length := by
  have ht : (Fields.member S.keys issuerDid).truthy = true := by
    rw [member_of_not_mem S.keys issuerDid h, inheritedMember_truthy]
    simpa using hn
  constructor
  · cases hr : (issuePassport E S H D (.obj kyc) issuerDid metadata zk).result with
    | error e => exact ⟨e, rfl⟩
    | ok cred =>
      have hk := (issuePassport_ok hr).1
      rw [get_of_not_mem_keys S.keys issuerDid h] at hk
      simp [JVal.truthy] at hk
  · simp only [issuePassport, ht, Bool.not_true, Bool.false_eq_true, if_false, getProp_obj,
      logEvent, stringify_obj, getLedger]
    exact ⟨_, rfl, rfl, rfl⟩

/-- C17 (evaluation of the code at the failing input): `constructor` has
no entry in the keystore of the examples, yet `issuePassport` for that
issuer id does not throw the unknown-issuer error: the read
`this.keys['constructor']` finds the inherited function, the
`ISSUANCE_ATTEMPT` block is appended to the ledger, and the call fails only
when `crypto.sign` gets no key. For `did:web:unknown.ae`, which has no entry
either, the unknown-issuer error is thrown and the ledger keeps its single
block. -/
theorem inherited_issuer_id_passes_keystore_guard :
    "constructor" ∉ Fields.keys demoVC.keys ∧
    (Fields.member demoVC.keys "constructor").truthy = true ∧
    (issuePassport demoEnv demoVC demoHistory demoDraws demoKyc "constructor" [] false).result
      = .error .cryptoError ∧
    (getLedger (issuePassport demoEnv demoVC demoHistory demoDraws demoKyc "constructor" []
        false).history).map (fun b => b.event_type) = ["GENESIS", "ISSUANCE_ATTEMPT"] ∧
    (getLedger demoHistory).map (fun b => b.event_type) = ["GENESIS"] ∧
    "did:web:unknown.ae" ∉ Fields.keys demoVC.keys ∧
    (issuePassport demoEnv demoVC demoHistory demoDraws demoKyc "did:web:unknown.ae" []
        false).result
      = .error (.error "Issuer DID did:web:unknown.ae not found in keystore.") ∧
    (getLedger (issuePassport demoEnv demoVC demoHistory demoDraws demoKyc "did:web:unknown.ae" []
        false).history).map (fun b => b.event_type) = ["GENESIS"] := by
  refine ⟨by decide, by decide, by decide!, by decide!, by decide!, by decide, by decide!,
    by decide!⟩


/-! ## C18 — what `verify` writes to the ledger -/

theorem acceptCredential_ok (E : Env) (H : HistoryService) (now : String)
    (credential issuerDid : JVal) (J : String) (v : Verdict)
    (h : (acceptCredential E H now credential issuerDid J).result = .ok v) :
    ∃ subject trustScore b,
      getProp credential "credentialSubject" = .ok subject ∧
      getProp subject "trustScore" = .ok trustScore ∧
      v = .accepted "ACTIVE" issuerDid trustScore ∧
      getLedger (acceptCredential E H now credential issuerDid J).history = getLedger H ++ [b] ∧
      b.event_type = "VERIFICATION" ∧ b.sequence = (getLedger H).length ∧
      b.jurisdiction = .str J ∧ b.timestamp = now := by
  unfold acceptCredential at h ⊢
  cases hid : getProp credential "id" with
  | error e => simp [hid] at h
  | ok id =>
    simp only [hid, logEvent, stringify_obj] at h ⊢
    simp only [bind_eq_ok, pure, Except.pure, Except.ok.injEq] at h
    obtain ⟨subject, hs, trustScore, ht, hv⟩ := h
    exact ⟨subject, trustScore, _, hs, ht, hv.symm, rfl, rfl, rfl, rfl, rfl⟩

/-- C18: when `verify` returns `verified = true`, the ledger has exactly one
block more than before, of event type `VERIFICATION` (numbered next, for the
verifying jurisdiction), and the verdict carries the status `ACTIVE`, the
credential's issuer and `credentialSubject.trustScore`; whenever it returns
`verified = false` the ledger service is as it was. -/
theorem verification_logging (E : Env) (S : VCService) (H : HistoryService) (now : String)
    (credential : JVal) (J : String) :
    (∀ v, (verify E S H now credential J).result = .ok v → v.verified = true →
      ∃ issuer subject trustScore b,
        getProp credential "issuer" = .ok issuer ∧
        getProp credential "credentialSubject" = .ok subject ∧
        getProp subject "trustScore" = .ok trustScore ∧
        v = .accepted "ACTIVE" issuer trustScore ∧
        getLedger (verify E S H now credential J).history = getLedger H ++ [b] ∧
        b.event_type = "VERIFICATION" ∧ b.sequence = (getLedger H).length ∧
        b.jurisdiction = .str J) ∧
    (∀ v, (verify E S H now credential J).result = .ok v → v.verified = false →
      (verify E S H now credential J).history = H) := by
  unfold verify
  cases hi : getProp credential "issuer" with
  | error e => simp
  | ok issuer =>
    simp only
    cases ht : isTrusted S issuer J with
    | error e => simp
    | ok trusted =>
      cases trusted with
      | false => simp [Verdict.verified]
      | true =>
        simp only
        cases hs : validateSchema S credential J with
        | invalid e => simp [Verdict.verified]
        | valid =>
          simp only
          by_cases hk : (Fields.member S.keys issuer.jsToString).truthy = true
          · simp only [hk, Bool.not_true, Bool.false_eq_true, if_false]
            cases hpk : (Fields.member S.keys issuer.jsToString).prop "publicKey" with
            | error e => simp
            | ok pk =>
              simp only
              cases hc : checkSignature E pk credential with
              | error e => simp
              | ok b =>
                cases b with
                | false => simp [Verdict.verified]
                | true =>
                  simp only
                  constructor
                  · intro v hv _
                    obtain ⟨subject, trustScore, b, h1, h2, h3, h4, h5, h6, h7, -⟩ :=
                      acceptCredential_ok E H now credential issuer J v hv
                    exact ⟨issuer, subject, trustScore, b, rfl, h1, h2, h3, h4, h5, h6, h7⟩
                  · intro v hv hf
                    obtain ⟨subject, trustScore, b, h1, h2, h3, -⟩ :=
                      acceptCredential_ok E H now credential issuer J v hv
                    rw [h3] at hf
                    simp [Verdict.verified] at hf
          · simp [hk, Verdict.verified]

/-- C18 at the examples: verifying the example credential at `SG` appends
one block to the ledger, and verifying it at `UK`, which does not trust the
issuer, leaves the ledger alone. -/
theorem verification_logging_witness :
    (∃ issuer subject trustScore b,
      getProp demoCredential "issuer" = .ok issuer ∧
      getProp demoCredential "credentialSubject" = .ok subject ∧
      getProp subject "trustScore" = .ok trustScore ∧
      Verdict.accepted "ACTIVE" (.str demoIssuer) (.num 99)
        = .accepted "ACTIVE" issuer trustScore ∧
      getLedger (verify demoEnv demoVC demoIssued.history "t6" demoCredential "SG").history
        = getLedger demoIssued.history ++ [b] ∧
      b.event_type = "VERIFICATION" ∧ b.sequence = (getLedger demoIssued.history).length ∧
      b.jurisdiction = .str "SG") ∧
    (verify demoEnv demoVC demoIssued.history "t6" demoCredential "UK").history
      = demoIssued.history :=
  ⟨(verification_logging demoEnv demoVC demoIssued.history "t6" demoCredential "SG").1
      (.accepted "ACTIVE" (.str demoIssuer) (.num 99)) (by decide!) (by decide),
    (verification_logging demoEnv demoVC demoIssued.history "t6" demoCredential "UK").2
      (.rejected "Issuer not trusted in UK") (by decide!) (by decide)⟩

/-! ## C19 — issued credentials and the request validator -/

/-- No credential returned by `issuePassport` gets past the validator of the
verify route: its `proof` has `proofValue` and no `jws`. -/
theorem issued_credential_fails_validation (E : Env) (S : VCService) (H : HistoryService)
    (D : IssueDraws) (kycData : JVal) (issuerDid : String) (metadata : Fields) (zk : Bool)
    (cred : JVal)
    (h : (issuePassport E S H D kycData issuerDid metadata zk).result = .ok cred) :
    checkVerifyCredential (verifyRequestBody cred) = false ∧
    checkVerifyCredential (.obj [("credential", cred)]) = false := by
  obtain ⟨-, auditHash, zkd, subject, sk, sig, -, -, -, -, rfl⟩ := issuePassport_ok h
  constructor
  · simp [checkVerifyCredential, verifyCredentialSchema, verifyRequestBody, jsonClone, cloneProps,
      Fields.get, Fields.set, unsignedCredential, proofObject, zString]
  · simp [checkVerifyCredential, verifyCredentialSchema, Fields.get, Fields.set,
      unsignedCredential, proofObject, zString]

/-- C19 (evaluation of the code at the failing input): the body
`{ credential }` with the credential issued in the example is rejected by
`checkVerifyCredential`, so the verifier is not reached; the same body with
a text `jws` added to the proof passes, and the verifier would accept the
credential as issued. -/
theorem issued_credential_rejected_by_validator :
    demoIssued.result = .ok demoCredential ∧
    checkVerifyCredential (verifyRequestBody demoCredential) = false ∧
    (getProp demoCredential "proof" >>= fun p => getProp p "jws") = .ok .undefined ∧
    checkVerifyCredential (verifyRequestBody (.obj (Fields.set (ownEntries demoCredential) "proof"
      (.obj [("jws", .str "x")])))) = true ∧
    (verify demoEnv demoVC demoIssued.history "t6" demoCredential "SG").result
      = .ok (.accepted "ACTIVE" (.str demoIssuer) (.num 99)) := by
  refine ⟨by decide!, by decide!, by decide!, by decide!, by decide!⟩

/-! ## C20 — the figures behind the solvency proof at issuance -/

theorem generateSolvencyProof_below (E : Env) (D : ZkDraws) (fields : Fields) (tier : JVal)
    (a l : Int)
    (hassets : Fields.get fields "assets" = .num a) (ha : (JVal.num a).truthy = true)
    (hliab : Fields.get fields "liabilities" = .num l) (hl : (JVal.num l).truthy = true)
    (hsig : (Fields.get fields "signature").truthy = true)
    (hlt : a - l < getTierThreshold tier) :
    ∃ msg, generateSolvencyProof E D (.obj fields) tier = .error (.error msg) := by
  refine ⟨"Solvency check failed: Net worth below " ++
    (if tier = .undefined then JVal.str "TIER_1M" else tier).jsToString ++
    " threshold (" ++ toString (getTierThreshold tier) ++ " USD).", ?_⟩
  simp [generateSolvencyProof, getProp_obj, hassets, hliab, ha, hl, hsig, toNumber, JNum.sub,
    JNum.lt, getTierThreshold_effective, hlt, bind, Except.bind, throw, throwThe,
    MonadExceptOf.throw, pure, Except.pure]

/-- Where the claim does hold: when the caller's `assets` and `liabilities`
are numbers other than 0 and a solvency proof is requested, a credential is
issued only if `assets - liabilities` is at least 1,000,000. -/
theorem solvency_checked_on_nonzero_figures (E : Env) (S : VCService) (H : HistoryService)
    (D : IssueDraws) (kyc : Fields) (issuerDid : String) (metadata : Fields) (cred : JVal)
    (a l : Int) (ha : a ≠ 0) (hl : l ≠ 0)
    (hassets : Fields.get kyc "assets" = .num a)
    (hliab : Fields.get kyc "liabilities" = .num l)
    (h : (issuePassport E S H D (.obj kyc) issuerDid metadata true).result = .ok cred) :
    1000000 ≤ a - l := by
  obtain ⟨-, auditHash, zkd, subject, sk, sig, hz, -, -, -, -⟩ := issuePassport_ok h
  simp only [requestZkProof, if_true, bind_eq_ok, buildWitness, getProp_obj, pure, Except.pure,
    Except.ok.injEq] at hz
  obtain ⟨witness, ⟨_, rfl, _, rfl, _, rfl, rfl⟩, zkres, hgen, -⟩ := hz
  by_contra hlt
  have hat : (JVal.num a).truthy = true := by simpa [JVal.truthy] using ha
  have hlt' : (JVal.num l).truthy = true := by simpa [JVal.truthy] using hl
  obtain ⟨msg, hfail⟩ := generateSolvencyProof_below E D.zk
    [("assets", (kyc.get "assets").orElse (JVal.num 2000000)),
      ("liabilities", (kyc.get "liabilities").orElse (JVal.num 100000)),
      ("threshold", JVal.num 1000000),
      ("subject_did", (kyc.get "did").orElse (JVal.str ("did:example:" ++ D.witnessUuid))),
      ("salt", D.salt.hex), ("issuer_did", JVal.str issuerDid),
      ("signature", JVal.str "firm-signed-commitment-mock")] (.str "TIER_1M") a l
    (by simp [Fields.get, List.lookup, hassets, JVal.orElse, hat]) hat
    (by simp [Fields.get, List.lookup, hliab, JVal.orElse, hlt']) hlt'
    (by simp [Fields.get, List.lookup, JVal.truthy])
    (by
      have : getTierThreshold (.str "TIER_1M") = 1000000 := by decide
      rw [this]
      omega)
  rw [hfail] at hgen
  exact absurd hgen (by simp)

/-- C20 (evaluation of the code at the failing input): the caller supplies
`assets = 0` and `liabilities = 500000` and asks for a solvency proof. The
witness handed to the proof engine has `assets = 2000000` (the default put
in place of the supplied 0), the credential is issued with
`credentialSubject.zkSolvency`, and the caller's net worth, -500,000, is
below 1,000,000. -/
theorem zero_assets_replaced_by_default :
    getProp demoKycZero "assets" = .ok (.num 0) ∧
    getProp demoKycZero "liabilities" = .ok (.num 500000) ∧
    (buildWitness demoDraws demoKycZero demoIssuer >>= fun w => getProp w "assets")
      = .ok (.num 2000000) ∧
    (buildWitness demoDraws demoKycZero demoIssuer >>= fun w => getProp w "liabilities")
      = .ok (.num 500000) ∧
    subjectKeys demoIssuedZero
      = .ok ["id", "legalName", "complianceLevel", "trustScore", "zkSolvency"] ∧
    ¬ (1000000 : Int) ≤ 0 - 500000 := by
  refine ⟨by decide, by decide, by decide!, by decide!, by decide!, by decide⟩

/-! ## C21 — the DID behind the nullifier and the subject id -/

theorem get_filter_kept (o : Fields) (p : String × JVal → Bool) (k : String)
    (h : ∀ v, p (k, v) = true) :
    Fields.get (o.filter p) k = Fields.get o k := by
  induction o with
  | nil => rfl
  | cons q rest ih =>
    obtain ⟨a, w⟩ := q
    by_cases hk : a = k
    · subst hk
      simp [List.filter, h, Fields.get]
    · cases hp : p (a, w) <;> simp [List.filter, hp, Fields.get, hk, ih]

theorem get_discloseSubject_id (subject : Fields) (disclosureRequest : JVal) :
    Fields.get (discloseSubject subject disclosureRequest) "id" = Fields.get subject "id" := by
  cases disclosureRequest with
  | arr request =>
    simp only [discloseSubject]
    apply get_filter_kept
    intro v
    simp [includes_str_iff, allowedKeys]
  | _ => rfl

theorem get_spread_of_not_mem (extra base : Fields) (k : String)
    (h : k ∉ Fields.keys extra) :
    Fields.get (Fields.spread base extra) k = Fields.get base k := by
  induction extra generalizing base with
  | nil => rfl
  | cons p rest ih =>
    simp only [Fields.keys, List.map_cons, List.mem_cons, not_or] at h
    have := ih (Fields.set base p.1 p.2) (by simpa [Fields.keys] using h.2)
    simp only [Fields.spread, List.foldl_cons] at this ⊢
    rw [this, get_set_other _ _ _ _ (fun e => h.1 e.symm)]

/-- What `issuePassport` puts into a credential with a solvency proof: the
embedded nullifier is derived from `kycData.did`, or else from the DID
generated for the witness, while `credentialSubject.id` is the `id` of the
assembled subject: `kycData.did`, or else a DID generated by a second draw,
unless the jurisdiction metadata carries an `id` of its own. -/
theorem issued_nullifier_and_id {E : Env} {S : VCService} {H : HistoryService} {D : IssueDraws}
    {kycData : JVal} {issuerDid : String} {metadata : Fields} {cred : JVal}
    (h : (issuePassport E S H D kycData issuerDid metadata true).result = .ok cred) :
    ∃ did legalName nullifier,
      getProp kycData "did" = .ok did ∧
      witnessSubjectDid D kycData issuerDid
        = .ok (did.orElse (.str ("did:example:" ++ D.witnessUuid))) ∧
      generateNullifier E (did.orElse (.str ("did:example:" ++ D.witnessUuid))) D.salt.hex
        = .ok nullifier ∧
      embeddedNullifier cred = .ok (.str nullifier) ∧
      subjectId cred = .ok (Fields.get (assembleSubject D did legalName metadata) "id") := by
  obtain ⟨-, auditHash, zkd, subject, sk, sig, hz, hs, -, -, rfl⟩ := issuePassport_ok h
  simp only [requestZkProof, if_true, bind_eq_ok, buildWitness, getProp_obj, pure, Except.pure,
    Except.ok.injEq] at hz
  obtain ⟨witness, ⟨assets, hassets, liabilities, hliab, did, hdid, rfl⟩, zkres, hgen, rfl⟩ := hz
  obtain ⟨subjectDid, salt, nullifier, issuerHash, hsd, hsalt, hnull, rfl⟩ :=
    generateSolvencyProof_ok hgen
  simp only [getProp_obj, Except.ok.injEq] at hsd hsalt
  have hsd' : subjectDid = did.orElse (.str ("did:example:" ++ D.witnessUuid)) := by
    rw [← hsd]; simp [Fields.get]
  have hsalt' : salt = D.salt.hex := by
    rw [← hsalt]; simp [Fields.get]
  subst hsd' hsalt'
  simp only [buildSubject, bind_eq_ok, attachZk, getProp_obj, pure, Except.pure,
    Except.ok.injEq] at hs
  obtain ⟨did', hdid', legalName, -, request, -, proof, -, signals, hsignals, rfl⟩ := hs
  rw [hdid] at hdid'
  cases hdid'
  have hsignals' : signals = .obj
      [("nullifier", .str nullifier),
       ("tier", if JVal.str "TIER_1M" = .undefined then .str "TIER_1M" else .str "TIER_1M"),
       ("threshold", .str (toString (getTierThreshold
          (if JVal.str "TIER_1M" = .undefined then .str "TIER_1M" else .str "TIER_1M")))),
       ("issuer_pubkey_hash", .str issuerHash)] := by
    rw [← hsignals]; simp [Fields.get]
  refine ⟨did, legalName, nullifier, hdid, ?_, hnull, ?_, ?_⟩
  · simp [witnessSubjectDid, buildWitness, hassets, hliab, hdid, getProp_obj, Fields.get, bind,
      Except.bind, pure, Except.pure]
  · have hcs : getProp (JVal.obj (Fields.set (unsignedCredential D issuerDid auditHash
        (Fields.set (discloseSubject (assembleSubject D did legalName metadata) request)
          "zkSolvency" (.obj [("proof", proof), ("publicSignals", signals)])))
        "proof" (proofObject D issuerDid sig))) "credentialSubject"
        = .ok (.obj (Fields.set (discloseSubject (assembleSubject D did legalName metadata)
            request) "zkSolvency" (.obj [("proof", proof), ("publicSignals", signals)]))) := by
      rw [getProp_obj, get_set_other _ _ _ _ (by decide)]
      simp [unsignedCredential, Fields.get]
    simp only [embeddedNullifier, hcs, bind, Except.bind, getProp_obj, get_set_same]
    rw [hsignals']
    simp [getProp_obj, Fields.get]
  · have hcs : getProp (JVal.obj (Fields.set (unsignedCredential D issuerDid auditHash
        (Fields.set (discloseSubject (assembleSubject D did legalName metadata) request)
          "zkSolvency" (.obj [("proof", proof), ("publicSignals", signals)])))
        "proof" (proofObject D issuerDid sig))) "credentialSubject"
        = .ok (.obj (Fields.set (discloseSubject (assembleSubject D did legalName metadata)
            request) "zkSolvency" (.obj [("proof", proof), ("publicSignals", signals)]))) := by
      rw [getProp_obj, get_set_other _ _ _ _ (by decide)]
      simp [unsignedCredential, Fields.get]
    simp only [subjectId, hcs, bind, Except.bind, getProp_obj]
    rw [get_set_other _ _ _ _ (by decide), get_discloseSubject_id]

/-- Where the linkage holds: when `kycData.did` is supplied (truthy) and the
jurisdiction metadata has no `id` of its own, the DID the nullifier is
derived from is `credentialSubject.id`, namely `kycData.did`. -/
theorem linkage_when_did_supplied {E : Env} {S : VCService} {H : HistoryService}
    {D : IssueDraws} {kycData : JVal} {issuerDid : String} {metadata : Fields} {cred did : JVal}
    (h : (issuePassport E S H D kycData issuerDid metadata true).result = .ok cred)
    (hdid : getProp kycData "did" = .ok did) (ht : did.truthy = true)
    (hmeta : "id" ∉ Fields.keys metadata) :
    witnessSubjectDid D kycData issuerDid = .ok did ∧ subjectId cred = .ok did := by
  obtain ⟨did', legalName, nullifier, hdid', hw, -, -, hid⟩ := issued_nullifier_and_id h
  rw [hdid] at hdid'
  cases hdid'
  rw [hw, hid, assembleSubject, get_spread_of_not_mem _ _ _ hmeta]
  simp [Fields.get, JVal.orElse, ht]

/-- Where the linkage fails: when `kycData.did` is absent (falsy) and the
jurisdiction metadata has no `id`, the nullifier is derived from the DID of
the first draw and `credentialSubject.id` is the DID of the second draw;
the two differ whenever the draws differ. -/
theorem linkage_broken_when_did_generated {E : Env} {S : VCService} {H : HistoryService}
    {D : IssueDraws} {kycData : JVal} {issuerDid : String} {metadata : Fields} {cred did : JVal}
    (h : (issuePassport E S H D kycData issuerDid metadata true).result = .ok cred)
    (hdid : getProp kycData "did" = .ok did) (ht : did.truthy = false)
    (hmeta : "id" ∉ Fields.keys metadata) (hdraws : D.witnessUuid ≠ D.subjectUuid) :
    witnessSubjectDid D kycData issuerDid = .ok (.str ("did:example:" ++ D.witnessUuid)) ∧
    subjectId cred = .ok (.str ("did:example:" ++ D.subjectUuid)) ∧
    witnessSubjectDid D kycData issuerDid ≠ subjectId cred := by
  obtain ⟨did', legalName, nullifier, hdid', hw, -, -, hid⟩ := issued_nullifier_and_id h
  rw [hdid] at hdid'
  cases hdid'
  have h1 : witnessSubjectDid D kycData issuerDid
      = .ok (.str ("did:example:" ++ D.witnessUuid)) := by
    rw [hw]; simp [JVal.orElse, ht]
  have h2 : subjectId cred = .ok (.str ("did:example:" ++ D.subjectUuid)) := by
    rw [hid, assembleSubject, get_spread_of_not_mem _ _ _ hmeta]
    simp [Fields.get, JVal.orElse, ht]
  refine ⟨h1, h2, ?_⟩
  rw [h1, h2]
  intro e
  simp only [Except.ok.injEq, JVal.str.injEq] at e
  have := congrArg String.data e
  simp only [String.data_append, List.append_cancel_left_eq] at this
  exact hdraws (String.ext this)

/-- C21 (evaluation of the code at the failing input): a record without a
`did` is issued a credential with a solvency proof. The nullifier embedded in
the credential is derived from `did:example:u1`, the DID generated for the
witness, while `credentialSubject.id` of the same credential is
`did:example:u2`, generated by a second draw; the embedded nullifier is not
the nullifier of `credentialSubject.id`. With a supplied `did` the two
agree. -/
theorem nullifier_did_differs_from_subject_id :
    getProp demoKyc "did" = .ok .undefined ∧
    witnessSubjectDid demoDraws demoKyc demoIssuer = .ok (.str "did:example:u1") ∧
    subjectId demoCredentialProof = .ok (.str "did:example:u2") ∧
    embeddedNullifier demoCredentialProof
      = (generateNullifier demoEnv (.str "did:example:u1") demoDraws.salt.hex).map JVal.str ∧
    embeddedNullifier demoCredentialProof
      ≠ (generateNullifier demoEnv (.str "did:example:u2") demoDraws.salt.hex).map JVal.str ∧
    subjectId (demoCredentialDid []) = .ok (.str "did:example:alice") ∧
    embeddedNullifier (demoCredentialDid [])
      = (generateNullifier demoEnv (.str "did:example:alice") demoDraws.salt.hex).map
          JVal.str := by
  refine ⟨by decide, by decide, by decide!, by decide!, by decide!, by decide!, by decide!⟩

/-- A second way the linkage fails: jurisdiction metadata that carries an
`id` overwrites the subject id, also when `kycData.did` is supplied; the
nullifier is still derived from `kycData.did`. -/
theorem metadata_id_overrides_subject_id :
    witnessSubjectDid demoDraws demoKycDid demoIssuer = .ok (.str "did:example:alice") ∧
    subjectId (demoCredentialDid [("id", .str "did:example:bob")])
      = .ok (.str "did:example:bob") ∧
    embeddedNullifier (demoCredentialDid [("id", .str "did:example:bob")])
      = (generateNullifier demoEnv (.str "did:example:alice") demoDraws.salt.hex).map
          JVal.str := by
  refine ⟨by decide, by decide!, by decide!⟩

end Api2
